import Mathlib

/-!
# Kodama voice presence and signaling: a shallow embedding

This development embeds the voice-presence and WebRTC signaling subsystem of the
Kodama backend (`backend/internal/handlers/signaling.go` and the voice part of
`backend/internal/handlers/channel.go`) and proves properties of it.

Conventions of the embedding

* A Go `map[int]V` is an association list `GoMap V`.  The order of the list is the
  order in which a `range` loop visits the entries; Go leaves that order
  unspecified, so no theorem below depends on it, and the one loop whose result
  could depend on it (`IsUserInChannel`) takes the visiting order as an argument.
* Go `int` identifiers are `Int`; they are only ever compared, never computed with.
* `*VoiceRoom` pointers are addresses into `SignalingHub.heap`, the arena of the
  `VoiceRoom` objects allocated by `getOrCreateRoom`.  A handler goroutine keeps
  the pointer it obtained when it connected, also after the hub dropped the room.
* `*VoiceClient`, `*VoiceParticipant` and the inner participant maps are only
  reachable through the map that holds them, so they are embedded by value and a
  write through the pointer is a write at the key.
* A transport write (`Conn.WriteMessage`) is recorded as a `Delivery`; the lists of
  deliveries returned by the handlers are the messages in the order they are sent.
-/

namespace Kodama

/-! ## Go maps -/

/-- A Go `map[int]V`: its entries in the order a `range` loop visits them. -/
abbrev GoMap (V : Type) := List (Int × V)

/-- Map read `v, ok := m[k]`. -/
def mget {V : Type} : GoMap V → Int → Option V
  | [], _ => none
  | (k', v) :: rest, k => if k' = k then some v else mget rest k

/-- Map write `m[k] = v`. -/
def mset {V : Type} : GoMap V → Int → V → GoMap V
  | [], k, v => [(k, v)]
  | (k', v') :: rest, k, v =>
    if k' = k then (k, v) :: rest else (k', v') :: mset rest k v

/-- Map delete `delete(m, k)`. -/
def mdel {V : Type} (m : GoMap V) (k : Int) : GoMap V :=
  m.filter (fun kv => decide (kv.1 ≠ k))

/-- The keys of a map, in visiting order. -/
def mkeys {V : Type} (m : GoMap V) : List Int := m.map Prod.fst

/-! ## Data model -/

/-- The record `models.VoiceParticipant` (models/channel.go); also the shape of one
element of the `room-peers` payload and of `GetRoomParticipants`. -/
structure VoiceParticipant where
  UserID : Int
  Username : String
  Muted : Bool
deriving DecidableEq, Repr

/-- The struct `VoiceState` (channel.go:22-28), without its lock. -/
structure VoiceState where
  /-- channelID -> userID -> participant -/
  channels : GoMap (GoMap VoiceParticipant)
  /-- userID -> channelID -/
  userChannel : GoMap Int
deriving DecidableEq, Repr

/-- A `json.RawMessage`: absent, the opaque bytes a client sent, or the marshalled
list of peers built by the server (`mustMarshal(existingPeers)`). -/
inductive RawMessage where
  | null
  | bytes (data : String)
  | peers (list : List VoiceParticipant)
deriving DecidableEq, Repr

/-- The struct `SignalMessage` (signaling.go:28-36). -/
structure SignalMessage where
  /-- the field `Type` (a reserved word here) -/
  Typ : String
  From : Int
  To : Int
  FromName : String
  Payload : RawMessage
  ChannelID : Int
  Muted : Bool
deriving DecidableEq, Repr

/-- The struct `VoiceClient` (signaling.go:45-51); `Conn` names the transport. -/
structure VoiceClient where
  UserID : Int
  Username : String
  Conn : Nat
  Muted : Bool
deriving DecidableEq, Repr

/-- The struct `VoiceRoom` (signaling.go:39-42), without its lock. -/
structure VoiceRoom where
  /-- userID -> client -/
  clients : GoMap VoiceClient
deriving DecidableEq, Repr

/-- The struct `SignalingHub` (signaling.go:54-57): the map from channel to room
pointer, and the arena the pointers refer to. -/
structure SignalingHub where
  /-- channelID -> *VoiceRoom -/
  rooms : GoMap Nat
  /-- the VoiceRoom objects allocated so far, by address -/
  heap : List VoiceRoom
deriving DecidableEq, Repr

/-- The struct `SignalingHandler` (signaling.go:143-146). -/
structure SignalingHandler where
  hub : SignalingHub
  voice : VoiceState
deriving DecidableEq, Repr

/-- One transport write: the room key of the client written to, its transport, and
the message marshalled into the frame. -/
structure Delivery where
  userID : Int
  conn : Nat
  msg : SignalMessage
deriving DecidableEq, Repr

/-- The JWT claims the handlers use (`claims.UserID`, `claims.Username`). -/
structure Claims where
  UserID : Int
  Username : String
deriving DecidableEq, Repr

/-! ## The hub (signaling.go:59-137) -/

/-- Constructor `NewVoiceState` (channel.go:30-35). -/
def NewVoiceState : VoiceState := { channels := [], userChannel := [] }

/-- Constructor `NewSignalingHub` (signaling.go:59-63). -/
def NewSignalingHub : SignalingHub := { rooms := [], heap := [] }

/-- Constructor `NewSignalingHandler` (signaling.go:148-150). -/
def NewSignalingHandler (hub : SignalingHub) (voice : VoiceState) : SignalingHandler :=
  { hub := hub, voice := voice }

/-- Dereference of a room pointer. -/
def SignalingHub.deref (h : SignalingHub) (room : Nat) : VoiceRoom :=
  h.heap.getD room { clients := [] }

/-- Store through a room pointer. -/
def SignalingHub.store (h : SignalingHub) (room : Nat) (r : VoiceRoom) : SignalingHub :=
  { h with heap := h.heap.set room r }

/-- Method `getOrCreateRoom` (signaling.go:66-78). -/
def SignalingHub.getOrCreateRoom (h : SignalingHub) (channelID : Int) :
    SignalingHub × Nat :=
  match mget h.rooms channelID with
  | some room => (h, room)
  | none =>
    ({ rooms := mset h.rooms channelID h.heap.length,
       heap := h.heap ++ [{ clients := [] }] }, h.heap.length)

/-- Method `removeFromRoom` (signaling.go:81-97). -/
def SignalingHub.removeFromRoom (h : SignalingHub) (channelID userID : Int) :
    SignalingHub :=
  match mget h.rooms channelID with
  | none => h
  | some room =>
    let clients := mdel (h.deref room).clients userID
    let h1 := h.store room { clients := clients }
    if clients.length = 0 then { h1 with rooms := mdel h1.rooms channelID } else h1

/-- Method `GetRoomParticipants` (signaling.go:100-121). -/
def SignalingHub.GetRoomParticipants (h : SignalingHub) (channelID : Int) :
    List VoiceParticipant :=
  match mget h.rooms channelID with
  | none => []
  | some room =>
    (h.deref room).clients.map
      (fun kv => { UserID := kv.2.UserID, Username := kv.2.Username, Muted := kv.2.Muted })

/-- Method `IsUserInChannel` (signaling.go:124-137).  `order` is the order in which
the `range` loop visits the keys of `h.rooms`. -/
def SignalingHub.IsUserInChannel (h : SignalingHub) (order : List Int) (userID : Int) :
    Int × Bool :=
  match order with
  | [] => (0, false)
  | channelID :: rest =>
    match mget h.rooms channelID with
    | none => h.IsUserInChannel rest userID
    | some room =>
      if (mget (h.deref room).clients userID).isSome then (channelID, true)
      else h.IsUserInChannel rest userID

/-! ## The presence synchronizer (signaling.go:339-384) -/

/-- Method `syncVoiceState` (signaling.go:339-372). -/
def SignalingHandler.syncVoiceState (sh : SignalingHandler) (channelID userID : Int)
    (username : String) (joining : Bool) : SignalingHandler :=
  if joining then
    let channels1 :=
      match mget sh.voice.userChannel userID with
      | some oldChannelID =>
        match mget sh.voice.channels oldChannelID with
        | some participants =>
          let participants1 := mdel participants userID
          if participants1.length = 0 then mdel sh.voice.channels oldChannelID
          else mset sh.voice.channels oldChannelID participants1
        | none => sh.voice.channels
      | none => sh.voice.channels
    let channels2 :=
      match mget channels1 channelID with
      | none => mset channels1 channelID []
      | some _ => channels1
    let channels3 :=
      mset channels2 channelID
        (mset ((mget channels2 channelID).getD []) userID
          { UserID := userID, Username := username, Muted := false })
    { sh with voice :=
        { channels := channels3, userChannel := mset sh.voice.userChannel userID channelID } }
  else
    let channels1 :=
      match mget sh.voice.channels channelID with
      | some participants =>
        let participants1 := mdel participants userID
        if participants1.length = 0 then mdel sh.voice.channels channelID
        else mset sh.voice.channels channelID participants1
      | none => sh.voice.channels
    { sh with voice :=
        { channels := channels1, userChannel := mdel sh.voice.userChannel userID } }

/-- Method `syncMuteState` (signaling.go:375-384). -/
def SignalingHandler.syncMuteState (sh : SignalingHandler) (channelID userID : Int)
    (muted : Bool) : SignalingHandler :=
  match mget sh.voice.channels channelID with
  | some participants =>
    match mget participants userID with
    | some p =>
      { sh with voice :=
          { channels :=
              mset sh.voice.channels channelID (mset participants userID { p with Muted := muted }),
            userChannel := sh.voice.userChannel } }
    | none => sh
  | none => sh

/-- Method `removeClientFromRoom` (signaling.go:287-290). -/
def SignalingHandler.removeClientFromRoom (sh : SignalingHandler) (channelID userID : Int) :
    SignalingHandler :=
  let sh1 := { sh with hub := sh.hub.removeFromRoom channelID userID }
  sh1.syncVoiceState channelID userID "" false

/-! ## Message delivery (signaling.go:293-336) -/

/-- Method `broadcastToRoom` (signaling.go:293-314): the writes it performs, each with
the message it hands to `json.Marshal`; `Delivery.written` gives the frame. -/
def SignalingHandler.broadcastToRoom (sh : SignalingHandler) (channelID excludeUserID : Int)
    (msg : SignalMessage) : List Delivery :=
  match mget sh.hub.rooms channelID with
  | none => []
  | some room =>
    ((sh.hub.deref room).clients.filter (fun kv => decide (kv.1 ≠ excludeUserID))).map
      (fun kv => { userID := kv.1, conn := kv.2.Conn, msg := msg })

/-- Method `sendToPeer` (signaling.go:317-336): the writes it performs, each with the
message it hands to `json.Marshal`; `Delivery.written` gives the frame. -/
def SignalingHandler.sendToPeer (sh : SignalingHandler) (channelID toUserID : Int)
    (msg : SignalMessage) : List Delivery :=
  match mget sh.hub.rooms channelID with
  | none => []
  | some room =>
    match mget (sh.hub.deref room).clients toUserID with
    | none => []
    | some client => [{ userID := toUserID, conn := client.Conn, msg := msg }]

/-! ## The connection handler (signaling.go:153-284) -/

/-- The local variables a handler goroutine keeps while it is in its read loop:
`claims`, `channelID`, `conn` and the `room` pointer of line 189. -/
structure Session where
  claims : Claims
  channelID : Int
  conn : Nat
  room : Nat
deriving DecidableEq, Repr

/-- The snapshot loop of `HandleWebSocket` (signaling.go:197-206). -/
def existingPeers (room : VoiceRoom) : List VoiceParticipant :=
  room.clients.map
    (fun kv => { UserID := kv.2.UserID, Username := kv.2.Username, Muted := kv.2.Muted })

/-- The eviction step of `HandleWebSocket` (signaling.go:191-194). -/
def SignalingHandler.evict (sh : SignalingHandler) (order : List Int) (userID channelID : Int) :
    SignalingHandler :=
  match sh.hub.IsUserInChannel order userID with
  | (oldChannelID, true) =>
    if oldChannelID ≠ channelID then sh.removeClientFromRoom oldChannelID userID else sh
  | (_, false) => sh

/-- The registration step of `HandleWebSocket` (signaling.go:209-211). -/
def SignalingHandler.register (sh : SignalingHandler) (room : Nat) (client : VoiceClient) :
    SignalingHandler :=
  { sh with hub :=
      sh.hub.store room { clients := mset (sh.hub.deref room).clients client.UserID client } }

/-- The message `room-peers` of `HandleWebSocket` (signaling.go:217-221). -/
def roomPeersMsg (channelID : Int) (peers : List VoiceParticipant) : SignalMessage :=
  { Typ := "room-peers", From := 0, To := 0, FromName := "", Payload := RawMessage.peers peers,
    ChannelID := channelID, Muted := false }

/-- The message `peer-joined` of `HandleWebSocket` (signaling.go:227-232). -/
def peerJoinedMsg (claims : Claims) (channelID : Int) : SignalMessage :=
  { Typ := "peer-joined", From := claims.UserID, To := 0, FromName := claims.Username,
    Payload := RawMessage.null, ChannelID := channelID, Muted := false }

/-- The message `peer-left` of `HandleWebSocket` (signaling.go:278-283). -/
def peerLeftMsg (claims : Claims) (channelID : Int) : SignalMessage :=
  { Typ := "peer-left", From := claims.UserID, To := 0, FromName := claims.Username,
    Payload := RawMessage.null, ChannelID := channelID, Muted := false }

/-- The join part of `HandleWebSocket` (signaling.go:182-232), from the creation of
the client to the `peer-joined` broadcast.  Returns the new state, the goroutine's
`room` pointer and the messages written, in order. -/
def SignalingHandler.connect (sh : SignalingHandler) (claims : Claims) (channelID : Int)
    (conn : Nat) (order : List Int) : SignalingHandler × Nat × List Delivery :=
  let client : VoiceClient :=
    { UserID := claims.UserID, Username := claims.Username, Conn := conn, Muted := false }
  let created := sh.hub.getOrCreateRoom channelID
  let room := created.2
  let sh1 := { sh with hub := created.1 }
  let sh2 := sh1.evict order claims.UserID channelID
  let peers := existingPeers (sh2.hub.deref room)
  let sh3 := sh2.register room client
  let sh4 := sh3.syncVoiceState channelID claims.UserID claims.Username true
  (sh4, room,
    { userID := claims.UserID, conn := conn, msg := roomPeersMsg channelID peers } ::
      sh4.broadcastToRoom channelID claims.UserID (peerJoinedMsg claims channelID))

/-- One turn of the read loop of `HandleWebSocket` (signaling.go:243-270) for a frame
that was read without error.  `frame` is the result of `json.Unmarshal`: `none` when
the frame does not decode (the loop continues). -/
def SignalingHandler.handleFrame (sh : SignalingHandler) (s : Session)
    (frame : Option SignalMessage) : SignalingHandler × List Delivery :=
  match frame with
  | none => (sh, [])
  | some raw =>
    let msg : SignalMessage :=
      { raw with From := s.claims.UserID, FromName := s.claims.Username, ChannelID := s.channelID }
    if msg.Typ = "offer" ∨ msg.Typ = "answer" ∨ msg.Typ = "ice-candidate" then
      (sh, sh.sendToPeer s.channelID msg.To msg)
    else if msg.Typ = "mute-state" then
      let r := sh.hub.deref s.room
      let hub1 :=
        match mget r.clients s.claims.UserID with
        | some c =>
          sh.hub.store s.room { clients := mset r.clients s.claims.UserID { c with Muted := msg.Muted } }
        | none => sh.hub
      let sh1 := { sh with hub := hub1 }
      let sh2 := sh1.syncMuteState s.channelID s.claims.UserID msg.Muted
      (sh2, sh2.broadcastToRoom s.channelID 0 msg)
    else (sh, [])

/-- The teardown of `HandleWebSocket` (signaling.go:273-283), run when the read loop
exits. -/
def SignalingHandler.teardown (sh : SignalingHandler) (s : Session) :
    SignalingHandler × List Delivery :=
  let sh1 := sh.removeClientFromRoom s.channelID s.claims.UserID
  (sh1, sh1.broadcastToRoom s.channelID s.claims.UserID (peerLeftMsg s.claims s.channelID))

/-- The digits of a decimal numeral, most significant first, as a number. -/
def digitsValue : List Char → Option Nat
  | [] => none
  | cs => if cs.all Char.isDigit then some (cs.foldl (fun n c => 10 * n + (c.toNat - 48)) 0) else none

/-- Go's `strconv.Atoi` (standard library): an optional sign, then decimal digits, the
value in the range of a 64-bit `int`. -/
def Atoi (s : String) : Option Int :=
  match s.toList with
  | '-' :: ds =>
    match digitsValue ds with
    | some n => if n ≤ 2 ^ 63 then some (-(n : Int)) else none
    | none => none
  | '+' :: ds =>
    match digitsValue ds with
    | some n => if n < 2 ^ 63 then some (n : Int) else none
    | none => none
  | ds =>
    match digitsValue ds with
    | some n => if n < 2 ^ 63 then some (n : Int) else none
    | none => none

/-- What `HandleWebSocket` needs from a request: the `token` query parameter, the
`channelId` route variable, and the outcome of `upgrader.Upgrade` (the new transport,
or `none` when the upgrade fails). -/
structure WSRequest where
  token : String
  channelId : String
  upgrade : Option Nat
deriving DecidableEq, Repr

/-- How `HandleWebSocket` proceeds: an HTTP error reply, a failed upgrade, or a joined
session entering its read loop after writing `sent`. -/
inductive WSOutcome where
  | httpError (status : Nat) (body : String)
  | upgradeFailed
  | joined (session : Session) (sent : List Delivery)
deriving DecidableEq, Repr

/-- Method `HandleWebSocket` (signaling.go:153-232) up to the read loop.
`ValidateToken` is `auth.ValidateToken`, a function of the package `internal/auth`:
`none` stands for its error result. -/
def SignalingHandler.HandleWebSocket (ValidateToken : String → Option Claims)
    (sh : SignalingHandler) (r : WSRequest) (order : List Int) :
    SignalingHandler × WSOutcome :=
  if r.token = "" then (sh, WSOutcome.httpError 401 "Brak tokenu")
  else
    match ValidateToken r.token with
    | none => (sh, WSOutcome.httpError 401 "Nieprawidłowy token")
    | some claims =>
      match Atoi r.channelId with
      | none => (sh, WSOutcome.httpError 400 "Nieprawidłowe ID kanału")
      | some channelID =>
        match r.upgrade with
        | none => (sh, WSOutcome.upgradeFailed)
        | some conn =>
          let res := sh.connect claims channelID conn order
          (res.1,
            WSOutcome.joined
              { claims := claims, channelID := channelID, conn := conn, room := res.2.1 } res.2.2)

/-! ## The REST voice handlers (channel.go:170-224, 411-617) -/

/-- Helper `getParticipantsList` (channel.go:609-617). -/
def VoiceState.getParticipantsList (v : VoiceState) (channelID : Int) : List VoiceParticipant :=
  match mget v.channels channelID with
  | some pMap => pMap.map Prod.snd
  | none => []

/-- The locked section of `JoinVoiceChannel` (channel.go:451-475). -/
def VoiceState.JoinVoiceChannel (v : VoiceState) (claims : Claims) (channelID : Int) :
    VoiceState :=
  let channels1 :=
    match mget v.userChannel claims.UserID with
    | some oldChannelID =>
      match mget v.channels oldChannelID with
      | some participants =>
        let participants1 := mdel participants claims.UserID
        if participants1.length = 0 then mdel v.channels oldChannelID
        else mset v.channels oldChannelID participants1
      | none => v.channels
    | none => v.channels
  let channels2 :=
    match mget channels1 channelID with
    | none => mset channels1 channelID []
    | some _ => channels1
  let participant : VoiceParticipant :=
    { UserID := claims.UserID, Username := claims.Username, Muted := false }
  { channels :=
      mset channels2 channelID (mset ((mget channels2 channelID).getD []) claims.UserID participant),
    userChannel := mset v.userChannel claims.UserID channelID }

/-- The two database queries of `JoinVoiceChannel`: `requireServerMembership`
(channel.go:42-49) and the channel type looked up by channel and server, `none` for
`sql.ErrNoRows` (channel.go:438-441). -/
structure DB where
  requireServerMembership : Int → Int → Bool
  channelType : Int → Int → Option String

/-- Handler `JoinVoiceChannel` (channel.go:412-480): the HTTP status and the new
state.  `claims` is the result of `getClaims`. -/
def JoinVoiceChannel (db : DB) (v : VoiceState) (claims : Option Claims)
    (serverId channelId : String) : VoiceState × Nat :=
  match claims with
  | none => (v, 401)
  | some claims =>
    match Atoi serverId with
    | none => (v, 400)
    | some serverID =>
      match Atoi channelId with
      | none => (v, 400)
      | some channelID =>
        if !db.requireServerMembership claims.UserID serverID then (v, 403)
        else
          match db.channelType channelID serverID with
          | none => (v, 404)
          | some chType =>
            if chType ≠ "voice" then (v, 400)
            else (v.JoinVoiceChannel claims channelID, 200)

/-- The locked section of `LeaveVoiceChannel` (channel.go:490-507), with the HTTP
status. -/
def VoiceState.LeaveVoiceChannel (v : VoiceState) (userID : Int) : VoiceState × Nat :=
  match mget v.userChannel userID with
  | none => (v, 400)
  | some channelID =>
    let channels1 :=
      match mget v.channels channelID with
      | some participants =>
        let participants1 := mdel participants userID
        if participants1.length = 0 then mdel v.channels channelID
        else mset v.channels channelID participants1
      | none => v.channels
    ({ channels := channels1, userChannel := mdel v.userChannel userID }, 200)

/-- The locked section of `ToggleMute` (channel.go:556-572), with the HTTP status. -/
def VoiceState.ToggleMute (v : VoiceState) (userID : Int) (muted : Bool) : VoiceState × Nat :=
  match mget v.userChannel userID with
  | none => (v, 400)
  | some channelID =>
    match mget v.channels channelID with
    | some participants =>
      match mget participants userID with
      | some p =>
        ({ channels := mset v.channels channelID (mset participants userID { p with Muted := muted }),
           userChannel := v.userChannel }, 200)
      | none => (v, 200)
    | none => (v, 200)

/-- The locked section of `DeleteChannel` (channel.go:207-214). -/
def VoiceState.DeleteChannel (v : VoiceState) (channelID : Int) : VoiceState :=
  match mget v.channels channelID with
  | some participants =>
    { channels := mdel v.channels channelID,
      userChannel := (mkeys participants).foldl (fun uc uid => mdel uc uid) v.userChannel }
  | none => v

/-- The reply of `GetMyVoiceState` (channel.go:583-605): `none` for
`in_channel: false`, otherwise the `channel_id` and `muted` sent with
`in_channel: true`. -/
def VoiceState.GetMyVoiceState (v : VoiceState) (userID : Int) : Option (Int × Bool) :=
  match mget v.userChannel userID with
  | none => none
  | some channelID =>
    let muted :=
      match mget v.channels channelID with
      | some participants =>
        match mget participants userID with
        | some p => p.Muted
        | none => false
      | none => false
    some (channelID, muted)

/-! ## The server as a transition system -/

/-- The process: the shared handler state and the handler goroutines that are in
their read loop. -/
structure Server where
  sh : SignalingHandler
  /-- the sessions in the order they connected; `none` once the handler returned -/
  sessions : List (Option Session)
deriving DecidableEq, Repr

/-- The events of a sequential run: each handler runs to completion. -/
inductive Event where
  /-- a WebSocket connection passes authentication and the upgrade; `order` is the
  visiting order of the `range` loop of `IsUserInChannel` -/
  | wsConnect (claims : Claims) (channelID : Int) (conn : Nat) (order : List Int)
  /-- session number `sid` reads a frame -/
  | wsFrame (sid : Nat) (frame : Option SignalMessage)
  /-- the read of session number `sid` fails and its read loop exits -/
  | wsClose (sid : Nat)
  /-- REST `JoinVoiceChannel`, its checks passed -/
  | restJoin (claims : Claims) (channelID : Int)
  /-- REST `LeaveVoiceChannel` -/
  | restLeave (userID : Int)
  /-- REST `ToggleMute` -/
  | restMute (userID : Int) (muted : Bool)
  /-- REST `DeleteChannel`, its checks passed -/
  | restDeleteChannel (channelID : Int)
deriving DecidableEq, Repr

/-- The initial process state built by `main` (main.go:37-40). -/
def Server.init : Server :=
  { sh := NewSignalingHandler NewSignalingHub NewVoiceState, sessions := [] }

/-- One event.  `none` when the event cannot happen in this state: a frame or a close
for a session that is not in its read loop, or a visiting order that is not an
ordering of the keys of the rooms map. -/
def Server.step (s : Server) : Event → Option (Server × List Delivery)
  | Event.wsConnect claims channelID conn order =>
    if order.Perm (mkeys (s.sh.hub.getOrCreateRoom channelID).1.rooms) then
      let res := s.sh.connect claims channelID conn order
      some ({ sh := res.1,
              sessions := s.sessions ++
                [some { claims := claims, channelID := channelID, conn := conn, room := res.2.1 }] },
            res.2.2)
    else none
  | Event.wsFrame sid frame =>
    match s.sessions.get? sid with
    | some (some sess) =>
      let res := s.sh.handleFrame sess frame
      some ({ s with sh := res.1 }, res.2)
    | _ => none
  | Event.wsClose sid =>
    match s.sessions.get? sid with
    | some (some sess) =>
      let res := s.sh.teardown sess
      some ({ sh := res.1, sessions := s.sessions.set sid none }, res.2)
    | _ => none
  | Event.restJoin claims channelID =>
    some ({ s with sh := { s.sh with voice := s.sh.voice.JoinVoiceChannel claims channelID } }, [])
  | Event.restLeave userID =>
    some ({ s with sh := { s.sh with voice := (s.sh.voice.LeaveVoiceChannel userID).1 } }, [])
  | Event.restMute userID muted =>
    some ({ s with sh := { s.sh with voice := (s.sh.voice.ToggleMute userID muted).1 } }, [])
  | Event.restDeleteChannel channelID =>
    some ({ s with sh := { s.sh with voice := s.sh.voice.DeleteChannel channelID } }, [])

/-- A run: the events one after the other, from `s`. -/
def Server.run (s : Server) : List Event → Option Server
  | [] => some s
  | e :: es =>
    match s.step e with
    | some res => res.1.run es
    | none => none

/-- The user has no entry in any room of the hub (`IsUserInChannel` finds none). -/
def SignalingHub.offline (h : SignalingHub) (userID : Int) : Bool :=
  !(h.IsUserInChannel (mkeys h.rooms) userID).2

/-- The events of a run in which REST and WebSocket never act on the same live user:
a REST voice call is made only for a user who has no entry in any room of the hub, a
`mute-state` frame is read only by a session whose `room` pointer is still the room
the hub holds for its channel, and no channel is deleted. -/
def Server.synced (s : Server) : Event → Bool
  | Event.wsConnect _ _ _ _ => true
  | Event.wsFrame sid (some raw) =>
    match s.sessions.get? sid with
    | some (some sess) =>
      decide (raw.Typ ≠ "mute-state") || decide (mget s.sh.hub.rooms sess.channelID = some sess.room)
    | _ => true
  | Event.wsFrame _ none => true
  | Event.wsClose _ => true
  | Event.restJoin claims _ => s.sh.hub.offline claims.UserID
  | Event.restLeave userID => s.sh.hub.offline userID
  | Event.restMute userID _ => s.sh.hub.offline userID
  | Event.restDeleteChannel _ => false

/-- A run all of whose events are `synced` in the state they happen in. -/
def Server.runSynced (s : Server) : List Event → Option Server
  | [] => some s
  | e :: es =>
    if s.synced e then
      match s.step e with
      | some res => res.1.runSynced es
      | none => none
    else none

/-! ## Observations used in the statements -/

/-- The client registered under `userID` in the room the hub holds for `channelID`. -/
def SignalingHub.clientAt (h : SignalingHub) (channelID userID : Int) : Option VoiceClient :=
  match mget h.rooms channelID with
  | none => none
  | some room => mget (h.deref room).clients userID

/-- Read of a nested map, `m[k1][k2]`. -/
def mget2 {V : Type} (m : GoMap (GoMap V)) (k1 k2 : Int) : Option V :=
  match mget m k1 with
  | none => none
  | some inner => mget inner k2

/-- The participant stored under `userID` in the PresenceStore map of `channelID`. -/
def VoiceState.entryAt (v : VoiceState) (channelID userID : Int) : Option VoiceParticipant :=
  mget2 v.channels channelID userID

/-- The statement-level name of the `delete` idiom the four presence paths share:
remove `userID` from the participant map of `channelID` and drop the map when it
becomes empty. -/
def removeParticipant (channels : GoMap (GoMap VoiceParticipant)) (channelID userID : Int) :
    GoMap (GoMap VoiceParticipant) :=
  match mget channels channelID with
  | some participants =>
    let participants1 := mdel participants userID
    if participants1.length = 0 then mdel channels channelID
    else mset channels channelID participants1
  | none => channels

/-- The statement-level name of the insertion idiom of the two join paths: create the
participant map of `channelID` when it is missing and store `p` under `userID`. -/
def putParticipant (channels : GoMap (GoMap VoiceParticipant)) (channelID userID : Int)
    (p : VoiceParticipant) : GoMap (GoMap VoiceParticipant) :=
  let channels2 :=
    match mget channels channelID with
    | none => mset channels channelID []
    | some _ => channels
  mset channels2 channelID (mset ((mget channels2 channelID).getD []) userID p)

/-- Representation invariant of the hub: every registered room pointer is allocated,
and two channels never share a room object. -/
def SignalingHub.WF (h : SignalingHub) : Prop :=
  (∀ c p, mget h.rooms c = some p → p < h.heap.length) ∧
  (∀ c c' p, mget h.rooms c = some p → mget h.rooms c' = some p → c = c')

/-- Single-room property: a user is a key of at most one room's clients map. -/
def SignalingHub.SingleRoom (h : SignalingHub) : Prop :=
  ∀ u c c', (h.clientAt c u).isSome = true → (h.clientAt c' u).isSome = true → c = c'

/-- Representation invariant of the rooms: the entries of a clients map have distinct
keys, as the entries of a Go map do. -/
def SignalingHub.DistinctKeys (h : SignalingHub) : Prop :=
  ∀ c p, mget h.rooms c = some p → (mkeys (h.deref p).clients).Nodup

/-- The invariant of the hub: its representation invariants and the single-room
property. -/
def SignalingHub.Inv (h : SignalingHub) : Prop :=
  h.WF ∧ h.SingleRoom ∧ h.DistinctKeys

/-- Single-channel property of the PresenceStore: a user is a key of at most one
channel's participant map. -/
def VoiceState.SingleChannel (v : VoiceState) : Prop :=
  ∀ u c c', (v.entryAt c u).isSome = true → (v.entryAt c' u).isSome = true → c = c'

/-- Reverse-index consistency: `userChannel[u] = c` exactly when `u` is a key of
`channels[c]`. -/
def VoiceState.IndexConsistent (v : VoiceState) : Prop :=
  ∀ u c, mget v.userChannel u = some c ↔ (v.entryAt c u).isSome = true

/-- Agreement of the two observation paths on live sessions: whoever has an entry in
hub room `c` has a PresenceStore entry in channel `c` with the same `Muted` flag. -/
def SignalingHandler.LiveAgree (sh : SignalingHandler) : Prop :=
  ∀ c u cl, sh.hub.clientAt c u = some cl →
    ∃ p, sh.voice.entryAt c u = some p ∧ p.Muted = cl.Muted

/-- The statement-level name of the hub write of the `mute-state` branch
(signaling.go:259-263): set `Muted` on the entry of `userID` in the room object at
`room`, when there is one. -/
def SignalingHub.setMuted (h : SignalingHub) (room : Nat) (userID : Int) (muted : Bool) :
    SignalingHub :=
  match mget (h.deref room).clients userID with
  | some c =>
    h.store room { clients := mset (h.deref room).clients userID { c with Muted := muted } }
  | none => h

/-- The statement-level name of the state change of the `mute-state` branch
(signaling.go:259-266): the hub write through the session's room pointer, then
`syncMuteState`. -/
def SignalingHandler.muteStep (sh : SignalingHandler) (s : Session) (muted : Bool) :
    SignalingHandler :=
  ({ hub := sh.hub.setMuted s.room s.claims.UserID muted, voice := sh.voice } :
    SignalingHandler).syncMuteState s.channelID s.claims.UserID muted

/-- No room registered in the hub is empty. -/
def SignalingHub.NoEmptyRoom (h : SignalingHub) : Prop :=
  ∀ c p, mget h.rooms c = some p → (h.deref p).clients ≠ []

/-- The loop of `broadcastToRoom` (signaling.go:306-313) with the result of each
transport write made explicit: `writeFails d` tells whether `WriteMessage` returns an
error for the write `d`.  The loop discards that result; the list returned is the
writes attempted, each with its result. -/
def broadcastLoop (excludeUserID : Int) (msg : SignalMessage) (writeFails : Delivery → Bool) :
    List (Int × VoiceClient) → List (Delivery × Bool)
  | [] => []
  | (userID, client) :: rest =>
    if userID = excludeUserID then broadcastLoop excludeUserID msg writeFails rest
    else
      ({ userID := userID, conn := client.Conn, msg := msg },
        writeFails { userID := userID, conn := client.Conn, msg := msg }) ::
        broadcastLoop excludeUserID msg writeFails rest

/-- Method `broadcastToRoom` (signaling.go:293-314) with the results of the transport
writes made explicit. -/
def SignalingHandler.broadcastToRoomWrites (sh : SignalingHandler)
    (channelID excludeUserID : Int) (msg : SignalMessage) (writeFails : Delivery → Bool) :
    List (Delivery × Bool) :=
  match mget sh.hub.rooms channelID with
  | none => []
  | some room => broadcastLoop excludeUserID msg writeFails (sh.hub.deref room).clients

/-- The user an event is performed for: the user of the connecting, sending or closing
session, or of the REST call; `none` for an event that is not a user's voice action. -/
def Server.actor (s : Server) : Event → Option Int
  | Event.wsConnect claims _ _ _ => some claims.UserID
  | Event.wsFrame sid _ =>
    match s.sessions.get? sid with
    | some (some sess) => some sess.claims.UserID
    | _ => none
  | Event.wsClose sid =>
    match s.sessions.get? sid with
    | some (some sess) => some sess.claims.UserID
    | _ => none
  | Event.restJoin claims _ => some claims.UserID
  | Event.restLeave userID => some userID
  | Event.restMute userID _ => some userID
  | Event.restDeleteChannel _ => none

/-- User `v` has the same PresenceStore entries, the same reverse-index value and the
same room entries in `a` and in `b`. -/
def SignalingHandler.SameFor (v : Int) (a b : SignalingHandler) : Prop :=
  (∀ c, a.voice.entryAt c v = b.voice.entryAt c v) ∧
  mget a.voice.userChannel v = mget b.voice.userChannel v ∧
  (∀ c, a.hub.clientAt c v = b.hub.clientAt c v)

/-- The channel the eviction step of `HandleWebSocket` (signaling.go:192) removes the
user from: the channel `IsUserInChannel` finds, when it is not the target. -/
def SignalingHandler.evictTarget (sh : SignalingHandler) (order : List Int)
    (userID channelID : Int) : Option Int :=
  match sh.hub.IsUserInChannel order userID with
  | (oldChannelID, true) => if oldChannelID ≠ channelID then some oldChannelID else none
  | (_, false) => none

/-- The mutexes of signaling.go: `SignalingHub.mu`, the `mu` of the `VoiceRoom` at an
address, the `mu` of the `VoiceClient` of a connection, and `VoiceState.mu`. -/
inductive Mutex where
  | hub
  | room (p : Nat)
  | client (conn : Nat)
  | voice
deriving DecidableEq, Repr

/-- A call on a mutex. -/
inductive LockOp where
  | Lock (m : Mutex)
  | Unlock (m : Mutex)
  | RLock (m : Mutex)
  | RUnlock (m : Mutex)
deriving DecidableEq, Repr

/-- Mutex calls of `getOrCreateRoom` (signaling.go:67-68). -/
def SignalingHub.getOrCreateRoomLocks (_h : SignalingHub) (_channelID : Int) : List LockOp :=
  [LockOp.Lock Mutex.hub, LockOp.Unlock Mutex.hub]

/-- Mutex calls of `removeFromRoom` (signaling.go:82-96): the hub lock is released by
the `defer`, after the room lock was taken and released. -/
def SignalingHub.removeFromRoomLocks (h : SignalingHub) (channelID _userID : Int) :
    List LockOp :=
  match mget h.rooms channelID with
  | none => [LockOp.Lock Mutex.hub, LockOp.Unlock Mutex.hub]
  | some room =>
    [LockOp.Lock Mutex.hub, LockOp.Lock (Mutex.room room), LockOp.Unlock (Mutex.room room),
     LockOp.Unlock Mutex.hub]

/-- Mutex calls of `GetRoomParticipants` (signaling.go:101-111). -/
def SignalingHub.GetRoomParticipantsLocks (h : SignalingHub) (channelID : Int) : List LockOp :=
  [LockOp.RLock Mutex.hub, LockOp.RUnlock Mutex.hub] ++
    match mget h.rooms channelID with
    | none => []
    | some room => [LockOp.RLock (Mutex.room room), LockOp.RUnlock (Mutex.room room)]

/-- Mutex calls of the loop of `IsUserInChannel` (signaling.go:128-135). -/
def SignalingHub.IsUserInChannelScan (h : SignalingHub) (order : List Int) (userID : Int) :
    List LockOp :=
  match order with
  | [] => []
  | channelID :: rest =>
    match mget h.rooms channelID with
    | none => h.IsUserInChannelScan rest userID
    | some room =>
      [LockOp.RLock (Mutex.room room), LockOp.RUnlock (Mutex.room room)] ++
        if (mget (h.deref room).clients userID).isSome then []
        else h.IsUserInChannelScan rest userID

/-- Mutex calls of `IsUserInChannel` (signaling.go:125-136): the hub lock is released
by the `defer`, after the loop. -/
def SignalingHub.IsUserInChannelLocks (h : SignalingHub) (order : List Int) (userID : Int) :
    List LockOp :=
  [LockOp.RLock Mutex.hub] ++ h.IsUserInChannelScan order userID ++ [LockOp.RUnlock Mutex.hub]

/-- Mutex calls of `syncVoiceState` (signaling.go:340-341). -/
def syncVoiceStateLocks : List LockOp := [LockOp.Lock Mutex.voice, LockOp.Unlock Mutex.voice]

/-- Mutex calls of `syncMuteState` (signaling.go:376-377). -/
def syncMuteStateLocks : List LockOp := [LockOp.Lock Mutex.voice, LockOp.Unlock Mutex.voice]

/-- Mutex calls of `removeClientFromRoom` (signaling.go:288-289). -/
def SignalingHandler.removeClientFromRoomLocks (sh : SignalingHandler)
    (channelID userID : Int) : List LockOp :=
  sh.hub.removeFromRoomLocks channelID userID ++ syncVoiceStateLocks

/-- Mutex calls of the loop of `broadcastToRoom` (signaling.go:306-313). -/
def broadcastLocks (excludeUserID : Int) : List (Int × VoiceClient) → List LockOp
  | [] => []
  | kv :: rest =>
    if kv.1 = excludeUserID then broadcastLocks excludeUserID rest
    else
      [LockOp.Lock (Mutex.client kv.2.Conn), LockOp.Unlock (Mutex.client kv.2.Conn)] ++
        broadcastLocks excludeUserID rest

/-- Mutex calls of `broadcastToRoom` (signaling.go:294-313): the room lock is released
by the `defer`, after the loop. -/
def SignalingHandler.broadcastToRoomLocks (sh : SignalingHandler)
    (channelID excludeUserID : Int) : List LockOp :=
  [LockOp.RLock Mutex.hub, LockOp.RUnlock Mutex.hub] ++
    match mget sh.hub.rooms channelID with
    | none => []
    | some room =>
      [LockOp.RLock (Mutex.room room)] ++
        broadcastLocks excludeUserID (sh.hub.deref room).clients ++
        [LockOp.RUnlock (Mutex.room room)]

/-- Mutex calls of `sendToPeer` (signaling.go:318-335). -/
def SignalingHandler.sendToPeerLocks (sh : SignalingHandler) (channelID toUserID : Int) :
    List LockOp :=
  [LockOp.RLock Mutex.hub, LockOp.RUnlock Mutex.hub] ++
    match mget sh.hub.rooms channelID with
    | none => []
    | some room =>
      [LockOp.RLock (Mutex.room room), LockOp.RUnlock (Mutex.room room)] ++
        match mget (sh.hub.deref room).clients toUserID with
        | none => []
        | some client =>
          [LockOp.Lock (Mutex.client client.Conn), LockOp.Unlock (Mutex.client client.Conn)]

/-- Mutex calls of the join part of `HandleWebSocket` (signaling.go:189-231). -/
def SignalingHandler.connectLocks (sh : SignalingHandler) (claims : Claims) (channelID : Int)
    (conn : Nat) (order : List Int) : List LockOp :=
  let created := sh.hub.getOrCreateRoom channelID
  let room := created.2
  let sh1 : SignalingHandler := { sh with hub := created.1 }
  sh.hub.getOrCreateRoomLocks channelID ++
    sh1.hub.IsUserInChannelLocks order claims.UserID ++
    (match sh1.evictTarget order claims.UserID channelID with
     | some oldChannelID => sh1.removeClientFromRoomLocks oldChannelID claims.UserID
     | none => []) ++
    [LockOp.RLock (Mutex.room room), LockOp.RUnlock (Mutex.room room),
     LockOp.Lock (Mutex.room room), LockOp.Unlock (Mutex.room room)] ++
    syncVoiceStateLocks ++
    [LockOp.Lock (Mutex.client conn), LockOp.Unlock (Mutex.client conn)] ++
    (sh.connect claims channelID conn order).1.broadcastToRoomLocks channelID claims.UserID

/-- Mutex calls of one turn of the read loop of `HandleWebSocket`
(signaling.go:243-270). -/
def SignalingHandler.handleFrameLocks (sh : SignalingHandler) (s : Session)
    (frame : Option SignalMessage) : List LockOp :=
  match frame with
  | none => []
  | some raw =>
    if raw.Typ = "offer" ∨ raw.Typ = "answer" ∨ raw.Typ = "ice-candidate" then
      sh.sendToPeerLocks s.channelID raw.To
    else if raw.Typ = "mute-state" then
      [LockOp.Lock (Mutex.room s.room), LockOp.Unlock (Mutex.room s.room)] ++
        syncMuteStateLocks ++
        (sh.handleFrame s frame).1.broadcastToRoomLocks s.channelID 0
    else []

/-- Mutex calls of the teardown of `HandleWebSocket` (signaling.go:274-283). -/
def SignalingHandler.teardownLocks (sh : SignalingHandler) (s : Session) : List LockOp :=
  sh.removeClientFromRoomLocks s.channelID s.claims.UserID ++
    (sh.teardown s).1.broadcastToRoomLocks s.channelID s.claims.UserID

/-- The mutexes held after a call, given those held before it. -/
def LockOp.apply (held : List Mutex) : LockOp → List Mutex
  | LockOp.Lock m => m :: held
  | LockOp.RLock m => m :: held
  | LockOp.Unlock m => held.erase m
  | LockOp.RUnlock m => held.erase m

/-- The mutexes held after a sequence of calls. -/
def heldAfter (held : List Mutex) (calls : List LockOp) : List Mutex :=
  calls.foldl LockOp.apply held

/-- The mutex is the `mu` of a room. -/
def Mutex.isRoom : Mutex → Bool
  | Mutex.room _ => true
  | _ => false

/-- The call acquires the hub lock. -/
def LockOp.acquiresHub : LockOp → Bool
  | LockOp.Lock Mutex.hub => true
  | LockOp.RLock Mutex.hub => true
  | _ => false

/-- The hub lock and some room lock are both among the held mutexes. -/
def holdsHubAndRoom (held : List Mutex) : Bool :=
  held.contains Mutex.hub && held.any Mutex.isRoom

/-- At no point of the sequence of calls are the hub lock and a room lock both held. -/
def neverHubAndRoom (held : List Mutex) : List LockOp → Bool
  | [] => true
  | op :: rest => !holdsHubAndRoom (op.apply held) && neverHubAndRoom (op.apply held) rest

/-- The hub lock is never acquired at a point of the sequence of calls where a room
lock is held. -/
def hubNeverAfterRoom (held : List Mutex) : List LockOp → Bool
  | [] => true
  | op :: rest =>
    !(op.acquiresHub && held.any Mutex.isRoom) && hubNeverAfterRoom (op.apply held) rest

/-- The operations of the hub and of the handler that take a lock. -/
inductive Operation where
  | getOrCreateRoom (channelID : Int)
  | removeFromRoom (channelID userID : Int)
  | GetRoomParticipants (channelID : Int)
  | IsUserInChannel (order : List Int) (userID : Int)
  | syncVoiceState
  | syncMuteState
  | removeClientFromRoom (channelID userID : Int)
  | broadcastToRoom (channelID excludeUserID : Int)
  | sendToPeer (channelID toUserID : Int)
  | connect (claims : Claims) (channelID : Int) (conn : Nat) (order : List Int)
  | handleFrame (s : Session) (frame : Option SignalMessage)
  | teardown (s : Session)

/-- The mutex calls of an operation, in order. -/
def SignalingHandler.locks (sh : SignalingHandler) : Operation → List LockOp
  | Operation.getOrCreateRoom channelID => sh.hub.getOrCreateRoomLocks channelID
  | Operation.removeFromRoom channelID userID => sh.hub.removeFromRoomLocks channelID userID
  | Operation.GetRoomParticipants channelID => sh.hub.GetRoomParticipantsLocks channelID
  | Operation.IsUserInChannel order userID => sh.hub.IsUserInChannelLocks order userID
  | Operation.syncVoiceState => syncVoiceStateLocks
  | Operation.syncMuteState => syncMuteStateLocks
  | Operation.removeClientFromRoom channelID userID =>
    sh.removeClientFromRoomLocks channelID userID
  | Operation.broadcastToRoom channelID excludeUserID =>
    sh.broadcastToRoomLocks channelID excludeUserID
  | Operation.sendToPeer channelID toUserID => sh.sendToPeerLocks channelID toUserID
  | Operation.connect claims channelID conn order =>
    sh.connectLocks claims channelID conn order
  | Operation.handleFrame s frame => sh.handleFrameLocks s frame
  | Operation.teardown s => sh.teardownLocks s

/-- The operations that take a room lock inside the hub lock: `removeFromRoom`,
`IsUserInChannel`, and those that call them. -/
def Operation.callsNested : Operation → Bool
  | Operation.removeFromRoom _ _ => true
  | Operation.IsUserInChannel _ _ => true
  | Operation.removeClientFromRoom _ _ => true
  | Operation.connect _ _ _ _ => true
  | Operation.teardown _ => true
  | _ => false

/-- A sequence of calls that starts and ends with no mutex held and never acquires the
hub lock while a room lock is held. -/
def OrderedCalls (calls : List LockOp) : Prop :=
  hubNeverAfterRoom [] calls = true ∧ heldAfter [] calls = []

/-- A sequence of calls that starts and ends with no mutex held and never holds the
hub lock and a room lock together. -/
def DisjointCalls (calls : List LockOp) : Prop :=
  neverHubAndRoom [] calls = true ∧ heldAfter [] calls = []

/-! ## The frames written (`json.Marshal` of a `SignalMessage`) -/

/-- Where the scanner of Go's encoding/json stands relative to the string literals of
the text it reads: outside every string, inside a string, or inside a string right
after a backslash. -/
inductive ScanState where
  | value
  | inString
  | escaped
deriving DecidableEq, Repr

/-- The move of the scanner on one character: a double quote (34) opens or closes a
string, a backslash (92) inside a string protects the next character. -/
def ScanState.step : ScanState → Char → ScanState
  | ScanState.value, c => if c = Char.ofNat 34 then ScanState.inString else ScanState.value
  | ScanState.inString, c =>
    if c = Char.ofNat 92 then ScanState.escaped
    else if c = Char.ofNat 34 then ScanState.value
    else ScanState.inString
  | ScanState.escaped, _ => ScanState.inString

/-- Go's `isSpace` of encoding/json: space (32), tab (9), carriage return (13), line
feed (10). -/
def jsonSpace (c : Char) : Bool :=
  c = Char.ofNat 32 || c = Char.ofNat 9 || c = Char.ofNat 13 || c = Char.ofNat 10

/-- The characters the encoder of encoding/json writes in escaped form when
`escapeHTML` is set, as `json.Marshal` sets it: `<` (60), `>` (62), `&` (38), U+2028
(8232) and U+2029 (8233) become a backslash followed by `u` and four hexadecimal
digits. -/
def htmlEscape (c : Char) : Option (List Char) :=
  if c = Char.ofNat 60 then some [Char.ofNat 92, 'u', '0', '0', '3', 'c']
  else if c = Char.ofNat 62 then some [Char.ofNat 92, 'u', '0', '0', '3', 'e']
  else if c = Char.ofNat 38 then some [Char.ofNat 92, 'u', '0', '0', '2', '6']
  else if c = Char.ofNat 8232 then some [Char.ofNat 92, 'u', '2', '0', '2', '8']
  else if c = Char.ofNat 8233 then some [Char.ofNat 92, 'u', '2', '0', '2', '9']
  else none

/-- Go's `compact` of encoding/json with `escape` set, on a text that is valid JSON:
white space outside the string literals is dropped, the characters of `htmlEscape` are
written in escaped form, every other character is copied. -/
def compactChars : ScanState → List Char → List Char
  | _, [] => []
  | st, c :: rest =>
    (if st = ScanState.value ∧ jsonSpace c = true then []
     else
       match htmlEscape c with
       | some e => e
       | none => [c]) ++ compactChars (st.step c) rest

/-- The bytes `json.Marshal` writes for a `json.RawMessage` that holds the valid JSON
text `data` (what `json.Unmarshal` stored in it): `RawMessage.MarshalJSON` returns the
bytes and the encoder passes them through `compact`. -/
def jsonCompact (data : String) : String :=
  String.mk (compactChars ScanState.value data.toList)

/-- The `payload` member of the frame `json.Marshal(msg)` produces: the literal `null`
for a nil `RawMessage`, the compacted and escaped bytes for the bytes a client sent,
and the marshalled list of peers (the output of `mustMarshal`, already compact and
escaped) as it is. -/
def RawMessage.marshal : RawMessage → RawMessage
  | RawMessage.null => RawMessage.null
  | RawMessage.bytes data => RawMessage.bytes (jsonCompact data)
  | RawMessage.peers list => RawMessage.peers list

/-- The frame `json.Marshal(msg)` produces (signaling.go:222, 304, 332), read member by
member: the strings, numbers and booleans of the message, and the `payload` member as
the encoder writes it. -/
def SignalMessage.marshal (m : SignalMessage) : SignalMessage :=
  { Typ := m.Typ, From := m.From, To := m.To, FromName := m.FromName,
    Payload := m.Payload.marshal, ChannelID := m.ChannelID, Muted := m.Muted }

/-- The frame handed to `WriteMessage` for a write (signaling.go:312, 334): the
marshalled message, to the same transport. -/
def Delivery.written (d : Delivery) : Delivery :=
  { userID := d.userID, conn := d.conn, msg := d.msg.marshal }

/-! ## Lemmas on maps -/

theorem mget_mset {V : Type} (m : GoMap V) (k : Int) (v : V) (k' : Int) :
    mget (mset m k v) k' = if k = k' then some v else mget m k' := by
  induction m with
  | nil => simp [mset, mget]
  | cons hd tl ih =>
    obtain ⟨k0, v0⟩ := hd
    by_cases h0 : k0 = k
    · subst h0
      by_cases h1 : k0 = k' <;> simp [mset, mget, h1]
    · by_cases h1 : k0 = k'
      · subst h1
        have h2 : ¬ k = k0 := fun h => h0 h.symm
        simp [mset, mget, h0, h2]
      · simp [mset, mget, h0, h1, ih]

theorem mdel_cons {V : Type} (k0 : Int) (v0 : V) (tl : GoMap V) (k : Int) :
    mdel ((k0, v0) :: tl) k = if k0 = k then mdel tl k else (k0, v0) :: mdel tl k := by
  by_cases h0 : k0 = k <;> simp [mdel, List.filter_cons, h0]

theorem mget_mdel {V : Type} (m : GoMap V) (k k' : Int) :
    mget (mdel m k) k' = if k = k' then none else mget m k' := by
  induction m with
  | nil => simp [mdel, mget]
  | cons hd tl ih =>
    obtain ⟨k0, v0⟩ := hd
    rw [mdel_cons]
    by_cases h0 : k0 = k
    · subst h0
      by_cases h1 : k0 = k'
      · subst h1
        simpa using ih
      · simp [mget, h1, ih]
    · by_cases h1 : k0 = k'
      · subst h1
        have h2 : ¬ k = k0 := fun h => h0 h.symm
        simp [mget, h0, h2]
      · simp [mget, h0, h1, ih]

theorem mget_of_length_zero {V : Type} (m : GoMap V) (h : m.length = 0) (k : Int) :
    mget m k = none := by
  cases m with
  | nil => rfl
  | cons hd tl => simp at h

theorem mem_mkeys_iff {V : Type} (m : GoMap V) (k : Int) :
    k ∈ mkeys m ↔ (mget m k).isSome = true := by
  induction m with
  | nil => simp [mkeys, mget]
  | cons hd tl ih =>
    obtain ⟨k0, v0⟩ := hd
    by_cases h0 : k0 = k
    · simp [mkeys, mget, h0]
    · have h1 : ¬ k = k0 := fun h => h0 h.symm
      simp only [mkeys] at ih
      simp [mkeys, mget, h0, h1, ih]

theorem nodup_mkeys_mdel {V : Type} (m : GoMap V) (k : Int) (h : (mkeys m).Nodup) :
    (mkeys (mdel m k)).Nodup := by
  unfold mkeys mdel at *
  exact h.sublist ((List.filter_sublist m).map Prod.fst)

theorem nodup_mkeys_mset {V : Type} (m : GoMap V) (k : Int) (v : V) (h : (mkeys m).Nodup) :
    (mkeys (mset m k v)).Nodup := by
  induction m with
  | nil => simp [mset, mkeys]
  | cons hd tl ih =>
    obtain ⟨k0, v0⟩ := hd
    have hcons : k0 ∉ mkeys tl ∧ (mkeys tl).Nodup := by
      simpa [mkeys] using h
    by_cases h0 : k0 = k
    · subst h0
      simpa [mset, mkeys] using h
    · have hnot : k0 ∉ mkeys (mset tl k v) := by
        intro hmem
        have h1 := (mem_mkeys_iff _ _).mp hmem
        rw [mget_mset] at h1
        have h2 : ¬ k = k0 := fun hh => h0 hh.symm
        simp only [h2, if_false] at h1
        exact hcons.1 ((mem_mkeys_iff _ _).mpr h1)
      have h3 := ih hcons.2
      simp only [mset, h0, if_false]
      exact List.nodup_cons.mpr ⟨hnot, h3⟩

/-! ## Lemmas on the hub -/

theorem deref_store (h : SignalingHub) (p : Nat) (r : VoiceRoom) (p' : Nat) :
    (h.store p r).deref p' = if p = p' ∧ p < h.heap.length then r else h.deref p' := by
  unfold SignalingHub.store SignalingHub.deref
  simp only [List.getD_eq_getElem?_getD, List.getElem?_set]
  by_cases h1 : p = p'
  · subst h1
    by_cases h2 : p < h.heap.length
    · simp [h2]
    · have h3 : h.heap[p]? = none := List.getElem?_eq_none (Nat.le_of_not_lt h2)
      simp [h2, h3]
  · simp [h1]

theorem store_WF (h : SignalingHub) (p : Nat) (r : VoiceRoom) (hwf : h.WF) :
    (h.store p r).WF := by
  refine ⟨?_, ?_⟩
  · intro c q hq
    have := hwf.1 c q hq
    simpa [SignalingHub.store] using this
  · intro c c' q hq hq'
    exact hwf.2 c c' q hq hq'

theorem clientAt_store (h : SignalingHub) (hwf : h.WF) (c : Int) (p : Nat) (r : VoiceRoom)
    (hc : mget h.rooms c = some p) (c' u' : Int) :
    (h.store p r).clientAt c' u' = if c = c' then mget r.clients u' else h.clientAt c' u' := by
  unfold SignalingHub.clientAt
  have hr : (h.store p r).rooms = h.rooms := rfl
  rw [hr]
  by_cases h1 : c = c'
  · subst h1
    simp [hc, deref_store, hwf.1 c p hc]
  · cases h2 : mget h.rooms c' with
    | none => simp [h1]
    | some q =>
      have hne : ¬ p = q := by
        intro hpq
        subst hpq
        exact h1 (hwf.2 c c' p hc h2)
      simp [h1, deref_store, hne]

theorem clientAt_store_unregistered (h : SignalingHub) (p : Nat) (r : VoiceRoom)
    (hp : ∀ c, mget h.rooms c ≠ some p) (c' u' : Int) :
    (h.store p r).clientAt c' u' = h.clientAt c' u' := by
  unfold SignalingHub.clientAt
  have hr : (h.store p r).rooms = h.rooms := rfl
  rw [hr]
  cases h2 : mget h.rooms c' with
  | none => rfl
  | some q =>
    have hne : ¬ p = q := by
      intro hpq
      subst hpq
      exact hp c' h2
    simp [deref_store, hne]

theorem getOrCreateRoom_rooms (h : SignalingHub) (c : Int) :
    mget (h.getOrCreateRoom c).1.rooms c = some (h.getOrCreateRoom c).2 := by
  unfold SignalingHub.getOrCreateRoom
  cases h1 : mget h.rooms c with
  | some p => simpa using h1
  | none => simp [mget_mset]

theorem getOrCreateRoom_WF (h : SignalingHub) (hwf : h.WF) (c : Int) :
    (h.getOrCreateRoom c).1.WF := by
  unfold SignalingHub.getOrCreateRoom
  cases h1 : mget h.rooms c with
  | some p => simpa using hwf
  | none =>
    refine ⟨?_, ?_⟩
    · intro c1 q hq
      simp only [mget_mset] at hq
      by_cases h2 : c = c1
      · simp only [h2, if_true, Option.some.injEq] at hq
        subst hq
        simp
      · simp only [h2, if_false] at hq
        have := hwf.1 c1 q hq
        simp only [List.length_append, List.length_singleton]
        omega
    · intro c1 c2 q hq hq'
      simp only [mget_mset] at hq hq'
      by_cases h2 : c = c1
      · by_cases h3 : c = c2
        · rw [← h2, ← h3]
        · simp only [h2, if_true, Option.some.injEq] at hq
          simp only [h3, if_false] at hq'
          have := hwf.1 c2 q hq'
          omega
      · by_cases h3 : c = c2
        · simp only [h3, if_true, Option.some.injEq] at hq'
          simp only [h2, if_false] at hq
          have := hwf.1 c1 q hq
          omega
        · simp only [h2, if_false] at hq
          simp only [h3, if_false] at hq'
          exact hwf.2 c1 c2 q hq hq'

theorem getOrCreateRoom_clientAt (h : SignalingHub) (hwf : h.WF) (c c' u : Int) :
    (h.getOrCreateRoom c).1.clientAt c' u = h.clientAt c' u := by
  unfold SignalingHub.getOrCreateRoom
  cases h1 : mget h.rooms c with
  | some p => rfl
  | none =>
    unfold SignalingHub.clientAt
    simp only [mget_mset]
    by_cases h2 : c = c'
    · subst h2
      simp [h1, SignalingHub.deref, mget]
    · simp only [h2, if_false]
      cases h3 : mget h.rooms c' with
      | none => rfl
      | some q =>
        have hq := hwf.1 c' q h3
        simp [SignalingHub.deref, List.getElem?_append_left hq]

theorem removeFromRoom_WF (h : SignalingHub) (hwf : h.WF) (c u : Int) :
    (h.removeFromRoom c u).WF := by
  unfold SignalingHub.removeFromRoom
  cases h1 : mget h.rooms c with
  | none => simpa using hwf
  | some p =>
    simp only
    have hs := store_WF h p { clients := mdel (h.deref p).clients u } hwf
    split
    · refine ⟨?_, ?_⟩
      · intro c1 q hq
        simp only [mget_mdel] at hq
        by_cases h2 : c = c1
        · simp [h2] at hq
        · simp only [h2, if_false] at hq
          exact hs.1 c1 q hq
      · intro c1 c2 q hq hq'
        simp only [mget_mdel] at hq hq'
        by_cases h2 : c = c1
        · simp [h2] at hq
        · by_cases h3 : c = c2
          · simp [h3] at hq'
          · simp only [h2, if_false] at hq
            simp only [h3, if_false] at hq'
            exact hs.2 c1 c2 q hq hq'
    · exact hs

theorem removeFromRoom_clientAt (h : SignalingHub) (hwf : h.WF) (c u c' u' : Int) :
    (h.removeFromRoom c u).clientAt c' u' =
      if c = c' ∧ u = u' then none else h.clientAt c' u' := by
  unfold SignalingHub.removeFromRoom
  cases h1 : mget h.rooms c with
  | none =>
    simp only
    by_cases h2 : c = c' ∧ u = u'
    · obtain ⟨h3, h4⟩ := h2
      subst h3
      simp [SignalingHub.clientAt, h1]
    · simp [h2]
  | some p =>
    simp only
    have hcl := clientAt_store h hwf c p { clients := mdel (h.deref p).clients u } h1 c' u'
    split
    · rename_i hlen
      have hnone := mget_of_length_zero _ hlen u'
      rw [mget_mdel] at hnone
      by_cases h2 : c = c'
      · subst h2
        have h3 : h.clientAt c u' = mget (h.deref p).clients u' := by
          simp [SignalingHub.clientAt, h1]
        by_cases h4 : u = u'
        · simp [SignalingHub.clientAt, mget_mdel, h4]
        · simp only [h4, if_false] at hnone
          have h6 : ¬ (c = c ∧ u = u') := fun hh => h4 hh.2
          rw [if_neg h6, h3, hnone]
          simp [SignalingHub.clientAt, mget_mdel]
      · simp only [h2, if_false] at hcl
        have h5 : ¬ (c = c' ∧ u = u') := fun hh => h2 hh.1
        simp only [h5, if_false]
        rw [← hcl]
        simp [SignalingHub.clientAt, mget_mdel, h2, SignalingHub.store, SignalingHub.deref]
    · rw [hcl]
      by_cases h2 : c = c'
      · subst h2
        have h3 : h.clientAt c u' = mget (h.deref p).clients u' := by
          simp [SignalingHub.clientAt, h1]
        by_cases h4 : u = u' <;> simp [mget_mdel, h4, h3]
      · have h5 : ¬ (c = c' ∧ u = u') := fun hh => h2 hh.1
        simp [h2, h5]

theorem removeFromRoom_rooms_of_ne (h : SignalingHub) (c u c' : Int) (hne : c ≠ c') :
    mget (h.removeFromRoom c u).rooms c' = mget h.rooms c' := by
  unfold SignalingHub.removeFromRoom
  cases h1 : mget h.rooms c with
  | none => rfl
  | some p =>
    simp only
    split
    · simp [mget_mdel, hne, SignalingHub.store]
    · rfl

theorem IsUserInChannel_true (h : SignalingHub) (order : List Int) (u c : Int)
    (hres : h.IsUserInChannel order u = (c, true)) :
    (h.clientAt c u).isSome = true := by
  induction order with
  | nil => simp [SignalingHub.IsUserInChannel] at hres
  | cons c0 rest ih =>
    unfold SignalingHub.IsUserInChannel at hres
    cases h1 : mget h.rooms c0 with
    | none =>
      rw [h1] at hres
      exact ih hres
    | some p =>
      rw [h1] at hres
      simp only at hres
      by_cases h2 : (mget (h.deref p).clients u).isSome = true
      · simp only [h2, if_true, Prod.mk.injEq, and_true] at hres
        subst hres
        simp [SignalingHub.clientAt, h1, h2]
      · simp only [h2] at hres
        exact ih hres

theorem IsUserInChannel_false (h : SignalingHub) (order : List Int) (u c : Int)
    (hres : h.IsUserInChannel order u = (c, false)) :
    ∀ c' ∈ order, h.clientAt c' u = none := by
  induction order with
  | nil => simp
  | cons c0 rest ih =>
    unfold SignalingHub.IsUserInChannel at hres
    cases h1 : mget h.rooms c0 with
    | none =>
      rw [h1] at hres
      intro c' hc'
      rcases List.mem_cons.mp hc' with h3 | h3
      · subst h3
        simp [SignalingHub.clientAt, h1]
      · exact ih hres c' h3
    | some p =>
      rw [h1] at hres
      simp only at hres
      by_cases h2 : (mget (h.deref p).clients u).isSome = true
      · simp [h2] at hres
      · simp only [h2] at hres
        intro c' hc'
        rcases List.mem_cons.mp hc' with h3 | h3
        · subst h3
          simpa [SignalingHub.clientAt, h1] using h2
        · exact ih hres c' h3

theorem clientAt_none_of_not_key (h : SignalingHub) (c u : Int) (hc : c ∉ mkeys h.rooms) :
    h.clientAt c u = none := by
  have h1 : mget h.rooms c = none := by
    cases h2 : mget h.rooms c with
    | none => rfl
    | some p =>
      exact absurd ((mem_mkeys_iff h.rooms c).mpr (by simp [h2])) hc
  simp [SignalingHub.clientAt, h1]

/-! ## Lemmas on the PresenceStore -/

theorem mget2_removeParticipant (channels : GoMap (GoMap VoiceParticipant)) (c u c' u' : Int) :
    mget2 (removeParticipant channels c u) c' u' =
      if c = c' ∧ u = u' then none else mget2 channels c' u' := by
  unfold removeParticipant
  cases h1 : mget channels c with
  | none =>
    simp only
    by_cases h2 : c = c' ∧ u = u'
    · obtain ⟨h3, h4⟩ := h2
      subst h3
      simp [mget2, h1]
    · simp [h2]
  | some ps =>
    simp only
    split
    · rename_i hlen
      have hnone := mget_of_length_zero _ hlen u'
      rw [mget_mdel] at hnone
      by_cases h2 : c = c'
      · subst h2
        by_cases h4 : u = u'
        · simp [mget2, mget_mdel, h4]
        · simp only [h4, if_false] at hnone
          simp [mget2, mget_mdel, h4, h1, hnone]
      · have h5 : ¬ (c = c' ∧ u = u') := fun hh => h2 hh.1
        simp [mget2, mget_mdel, h2, h5]
    · by_cases h2 : c = c'
      · subst h2
        by_cases h4 : u = u' <;> simp [mget2, mget_mset, mget_mdel, h4, h1]
      · have h5 : ¬ (c = c' ∧ u = u') := fun hh => h2 hh.1
        simp [mget2, mget_mset, h2, h5]

theorem syncVoiceState_leave_voice (sh : SignalingHandler) (c u : Int) (n : String) :
    (sh.syncVoiceState c u n false).voice =
      { channels := removeParticipant sh.voice.channels c u,
        userChannel := mdel sh.voice.userChannel u } := rfl

theorem syncVoiceState_hub (sh : SignalingHandler) (c u : Int) (n : String) (j : Bool) :
    (sh.syncVoiceState c u n j).hub = sh.hub := by
  cases j <;> rfl

theorem syncVoiceState_leave_entryAt (sh : SignalingHandler) (c u : Int) (n : String)
    (c' u' : Int) :
    (sh.syncVoiceState c u n false).voice.entryAt c' u' =
      if c = c' ∧ u = u' then none else sh.voice.entryAt c' u' := by
  rw [syncVoiceState_leave_voice]
  exact mget2_removeParticipant _ c u c' u'

theorem mget2_putParticipant (channels : GoMap (GoMap VoiceParticipant)) (c u : Int)
    (p : VoiceParticipant) (c' u' : Int) :
    mget2 (putParticipant channels c u p) c' u' =
      if c = c' ∧ u = u' then some p else mget2 channels c' u' := by
  unfold putParticipant
  cases h1 : mget channels c with
  | none =>
    simp only [mget2, mget_mset]
    by_cases h2 : c = c'
    · subst h2
      by_cases h4 : u = u' <;> simp [mget_mset, h4, h1, mget]
    · simp [h2]
  | some ps =>
    simp only [mget2, mget_mset]
    by_cases h2 : c = c'
    · subst h2
      by_cases h4 : u = u' <;> simp [mget_mset, h4, h1]
    · simp [h2]

theorem syncVoiceState_join_voice (sh : SignalingHandler) (c u : Int) (n : String) :
    (sh.syncVoiceState c u n true).voice =
      { channels :=
          putParticipant
            (match mget sh.voice.userChannel u with
             | some old => removeParticipant sh.voice.channels old u
             | none => sh.voice.channels)
            c u { UserID := u, Username := n, Muted := false },
        userChannel := mset sh.voice.userChannel u c } := by
  rfl

theorem syncVoiceState_join_entryAt (sh : SignalingHandler) (c u : Int) (n : String)
    (c' u' : Int) :
    (sh.syncVoiceState c u n true).voice.entryAt c' u' =
      if c = c' ∧ u = u' then some { UserID := u, Username := n, Muted := false }
      else if u = u' ∧ mget sh.voice.userChannel u = some c' then none
      else sh.voice.entryAt c' u' := by
  rw [syncVoiceState_join_voice]
  unfold VoiceState.entryAt
  simp only [mget2_putParticipant]
  by_cases h0 : c = c' ∧ u = u'
  · simp [h0]
  · simp only [h0, if_false]
    cases h1 : mget sh.voice.userChannel u with
    | none => simp
    | some old =>
      simp only [mget2_removeParticipant, Option.some.injEq]
      by_cases h2 : old = c' <;> by_cases h3 : u = u' <;> simp [h2, h3]

theorem JoinVoiceChannel_eq_sync (sh : SignalingHandler) (claims : Claims) (c : Int) :
    sh.voice.JoinVoiceChannel claims c =
      (sh.syncVoiceState c claims.UserID claims.Username true).voice := rfl

theorem LeaveVoiceChannel_eq_sync (sh : SignalingHandler) (u : Int) :
    (sh.voice.LeaveVoiceChannel u).1 =
      match mget sh.voice.userChannel u with
      | none => sh.voice
      | some c => (sh.syncVoiceState c u "" false).voice := by
  unfold VoiceState.LeaveVoiceChannel
  cases h1 : mget sh.voice.userChannel u with
  | none => rfl
  | some c => rfl

theorem syncMuteState_hub (sh : SignalingHandler) (c u : Int) (m : Bool) :
    (sh.syncMuteState c u m).hub = sh.hub := by
  unfold SignalingHandler.syncMuteState
  split
  · split <;> rfl
  · rfl

theorem syncMuteState_entryAt (sh : SignalingHandler) (c u : Int) (m : Bool) (c' u' : Int) :
    (sh.syncMuteState c u m).voice.entryAt c' u' =
      if c = c' ∧ u = u' then (sh.voice.entryAt c u).map (fun p => { p with Muted := m })
      else sh.voice.entryAt c' u' := by
  unfold SignalingHandler.syncMuteState VoiceState.entryAt
  cases h1 : mget sh.voice.channels c with
  | none =>
    simp only
    by_cases h0 : c = c' ∧ u = u'
    · obtain ⟨h3, h4⟩ := h0
      subst h3; subst h4
      simp [mget2, h1]
    · simp [h0]
  | some ps =>
    simp only
    cases h2 : mget ps u with
    | none =>
      simp only
      by_cases h0 : c = c' ∧ u = u'
      · obtain ⟨h3, h4⟩ := h0
        subst h3; subst h4
        simp [mget2, h1, h2]
      · simp [h0]
    | some p =>
      simp only [mget2, mget_mset]
      by_cases h3 : c = c'
      · subst h3
        by_cases h4 : u = u'
        · subst h4
          simp [mget_mset, h1, h2]
        · simp [mget_mset, h4, h1]
      · simp [h3]

theorem syncMuteState_userChannel (sh : SignalingHandler) (c u : Int) (m : Bool) :
    (sh.syncMuteState c u m).voice.userChannel = sh.voice.userChannel := by
  unfold SignalingHandler.syncMuteState
  split
  · split <;> rfl
  · rfl

theorem ToggleMute_eq_sync (sh : SignalingHandler) (u : Int) (m : Bool) :
    (sh.voice.ToggleMute u m).1 =
      match mget sh.voice.userChannel u with
      | none => sh.voice
      | some c => (sh.syncMuteState c u m).voice := by
  unfold VoiceState.ToggleMute SignalingHandler.syncMuteState
  cases h1 : mget sh.voice.userChannel u with
  | none => rfl
  | some c =>
    simp only
    cases h2 : mget sh.voice.channels c with
    | none => rfl
    | some ps =>
      simp only
      cases h3 : mget ps u with
      | none => rfl
      | some p => rfl

/-! ## Lemmas on the handler steps -/

theorem removeClientFromRoom_hub (sh : SignalingHandler) (c u : Int) :
    (sh.removeClientFromRoom c u).hub = sh.hub.removeFromRoom c u := rfl

theorem removeClientFromRoom_entryAt (sh : SignalingHandler) (c u c' u' : Int) :
    (sh.removeClientFromRoom c u).voice.entryAt c' u' =
      if c = c' ∧ u = u' then none else sh.voice.entryAt c' u' := by
  unfold SignalingHandler.removeClientFromRoom
  exact syncVoiceState_leave_entryAt _ c u "" c' u'

/-- The two outcomes of the eviction step: nothing happens and the user is in no room
other than the target, or the user is removed from the one other room. -/
theorem evict_cases (sh : SignalingHandler) (hsr : sh.hub.SingleRoom) (order : List Int)
    (hcov : ∀ c' ∈ mkeys sh.hub.rooms, c' ∈ order) (u c : Int) :
    (sh.evict order u c = sh ∧ ∀ c', c' ≠ c → sh.hub.clientAt c' u = none) ∨
    (∃ old, old ≠ c ∧ (sh.hub.clientAt old u).isSome = true ∧
      sh.evict order u c = sh.removeClientFromRoom old u) := by
  unfold SignalingHandler.evict
  cases hres : sh.hub.IsUserInChannel order u with
  | mk old b =>
    cases b with
    | false =>
      left
      refine ⟨rfl, ?_⟩
      intro c' _
      by_cases hk : c' ∈ mkeys sh.hub.rooms
      · exact IsUserInChannel_false sh.hub order u old hres c' (hcov c' hk)
      · exact clientAt_none_of_not_key sh.hub c' u hk
    | true =>
      have hin := IsUserInChannel_true sh.hub order u old hres
      by_cases hne : old = c
      · left
        subst hne
        refine ⟨by simp, ?_⟩
        intro c' hc'
        cases h1 : sh.hub.clientAt c' u with
        | none => rfl
        | some cl =>
          exact absurd (hsr u c' old (by simp [h1]) hin) hc'
      · right
        exact ⟨old, hne, hin, by simp [hne]⟩

theorem evict_WF (sh : SignalingHandler) (hwf : sh.hub.WF) (order : List Int) (u c : Int) :
    (sh.evict order u c).hub.WF := by
  unfold SignalingHandler.evict
  cases hres : sh.hub.IsUserInChannel order u with
  | mk old b =>
    cases b with
    | false => exact hwf
    | true =>
      simp only
      split
      · rw [removeClientFromRoom_hub]
        exact removeFromRoom_WF sh.hub hwf old u
      · exact hwf

theorem evict_rooms (sh : SignalingHandler) (order : List Int) (u c : Int) :
    mget (sh.evict order u c).hub.rooms c = mget sh.hub.rooms c := by
  unfold SignalingHandler.evict
  cases hres : sh.hub.IsUserInChannel order u with
  | mk old b =>
    cases b with
    | false => rfl
    | true =>
      simp only
      split
      · rename_i hne
        rw [removeClientFromRoom_hub]
        exact removeFromRoom_rooms_of_ne sh.hub old u c hne
      · rfl

theorem evict_clientAt (sh : SignalingHandler) (hwf : sh.hub.WF) (hsr : sh.hub.SingleRoom)
    (order : List Int) (hcov : ∀ c' ∈ mkeys sh.hub.rooms, c' ∈ order) (u c c' u' : Int) :
    (sh.evict order u c).hub.clientAt c' u' =
      if u = u' ∧ c' ≠ c then none else sh.hub.clientAt c' u' := by
  rcases evict_cases sh hsr order hcov u c with ⟨heq, hnone⟩ | ⟨old, hne, hin, heq⟩
  · rw [heq]
    by_cases h1 : u = u' ∧ c' ≠ c
    · obtain ⟨h2, h3⟩ := h1
      subst h2
      simp [h3, hnone c' h3]
    · simp [h1]
  · rw [heq, removeClientFromRoom_hub, removeFromRoom_clientAt sh.hub hwf]
    by_cases h2 : u = u'
    · subst h2
      by_cases h3 : c' = c
      · subst h3
        have h4 : ¬ old = c' := hne
        simp [h4]
      · by_cases h4 : old = c'
        · simp [h4, h3]
        · have h5 : sh.hub.clientAt c' u = none := by
            cases h6 : sh.hub.clientAt c' u with
            | none => rfl
            | some cl => exact absurd (hsr u old c' hin (by simp [h6])) h4
          simp [h3, h4, h5]
    · simp [h2]

theorem evict_entryAt_other (sh : SignalingHandler) (order : List Int) (u c c' u' : Int)
    (hne : u ≠ u') :
    (sh.evict order u c).voice.entryAt c' u' = sh.voice.entryAt c' u' := by
  unfold SignalingHandler.evict
  cases hres : sh.hub.IsUserInChannel order u with
  | mk old b =>
    cases b with
    | false => rfl
    | true =>
      simp only
      split
      · rw [removeClientFromRoom_entryAt]
        have h1 : ¬ (old = c' ∧ u = u') := fun hh => hne hh.2
        simp [h1]
      · rfl

theorem register_clientAt (sh : SignalingHandler) (hwf : sh.hub.WF) (c : Int) (room : Nat)
    (hc : mget sh.hub.rooms c = some room) (client : VoiceClient) (c' u' : Int) :
    (sh.register room client).hub.clientAt c' u' =
      if c = c' ∧ client.UserID = u' then some client else sh.hub.clientAt c' u' := by
  unfold SignalingHandler.register
  simp only
  rw [clientAt_store sh.hub hwf c room _ hc]
  by_cases h1 : c = c'
  · subst h1
    have h2 : sh.hub.clientAt c u' = mget (sh.hub.deref room).clients u' := by
      simp [SignalingHub.clientAt, hc]
    by_cases h3 : client.UserID = u' <;> simp [mget_mset, h3, h2]
  · simp [h1]

/-- The hub after a connect, entry by entry. -/
theorem connect_clientAt (sh : SignalingHandler) (hwf : sh.hub.WF) (hsr : sh.hub.SingleRoom)
    (claims : Claims) (c : Int) (conn : Nat) (order : List Int)
    (hcov : ∀ c' ∈ mkeys (sh.hub.getOrCreateRoom c).1.rooms, c' ∈ order) (c' u' : Int) :
    (sh.connect claims c conn order).1.hub.clientAt c' u' =
      if claims.UserID = u' then
        (if c = c' then
          some { UserID := claims.UserID, Username := claims.Username, Conn := conn, Muted := false }
         else none)
      else sh.hub.clientAt c' u' := by
  unfold SignalingHandler.connect
  simp only
  rw [syncVoiceState_hub]
  have hwf1 := getOrCreateRoom_WF sh.hub hwf c
  have hsr1 : (sh.hub.getOrCreateRoom c).1.SingleRoom := by
    intro u c1 c2 h1 h2
    rw [getOrCreateRoom_clientAt sh.hub hwf] at h1 h2
    exact hsr u c1 c2 h1 h2
  let sh1 : SignalingHandler := { sh with hub := (sh.hub.getOrCreateRoom c).1 }
  have hwf2 := evict_WF sh1 hwf1 order claims.UserID c
  have hroom : mget (sh1.evict order claims.UserID c).hub.rooms c
      = some (sh.hub.getOrCreateRoom c).2 := by
    rw [evict_rooms]
    exact getOrCreateRoom_rooms sh.hub c
  rw [register_clientAt _ hwf2 c _ hroom]
  rw [evict_clientAt sh1 hwf1 hsr1 order hcov]
  show (if c = c' ∧ claims.UserID = u' then _ else
    if claims.UserID = u' ∧ c' ≠ c then none else (sh.hub.getOrCreateRoom c).1.clientAt c' u') = _
  rw [getOrCreateRoom_clientAt sh.hub hwf]
  by_cases h1 : claims.UserID = u'
  · by_cases h2 : c = c'
    · simp [h1, h2]
    · have h3 : ¬ c' = c := fun h => h2 h.symm
      simp [h1, h2, h3]
  · simp [h1]

theorem connect_WF (sh : SignalingHandler) (hwf : sh.hub.WF)
    (claims : Claims) (c : Int) (conn : Nat) (order : List Int) :
    (sh.connect claims c conn order).1.hub.WF := by
  unfold SignalingHandler.connect
  simp only
  rw [syncVoiceState_hub]
  unfold SignalingHandler.register
  apply store_WF
  apply evict_WF
  exact getOrCreateRoom_WF sh.hub hwf c

theorem clientAt_store_mset (h : SignalingHub) (p : Nat) (u : Int) (cl0 cl : VoiceClient)
    (h0 : mget (h.deref p).clients u = some cl0) (c' u' : Int) :
    (h.store p { clients := mset (h.deref p).clients u cl }).clientAt c' u' =
      if mget h.rooms c' = some p ∧ u = u' then some cl else h.clientAt c' u' := by
  have hlt : p < h.heap.length := by
    by_contra hge
    have h3 : h.heap[p]? = none := List.getElem?_eq_none (Nat.le_of_not_lt hge)
    simp [SignalingHub.deref, h3, mget] at h0
  unfold SignalingHub.clientAt
  have hr : (h.store p { clients := mset (h.deref p).clients u cl }).rooms = h.rooms := rfl
  rw [hr]
  cases h2 : mget h.rooms c' with
  | none => simp
  | some q =>
    by_cases h3 : p = q
    · subst h3
      by_cases h4 : u = u' <;> simp [deref_store, hlt, mget_mset, h4]
    · have h5 : ¬ q = p := fun hh => h3 hh.symm
      simp [deref_store, h3, h5]

/-- The hub after one turn of the read loop, entry by entry: only the `Muted` flag of
the sender's own entry in the session's room can change. -/
theorem handleFrame_clientAt (sh : SignalingHandler) (s : Session)
    (frame : Option SignalMessage) (c' u' : Int) :
    (sh.handleFrame s frame).1.hub.clientAt c' u' = sh.hub.clientAt c' u' ∨
    (∃ raw cl0, frame = some raw ∧ raw.Typ = "mute-state" ∧
      mget sh.hub.rooms c' = some s.room ∧ s.claims.UserID = u' ∧
      sh.hub.clientAt c' u' = some cl0 ∧
      (sh.handleFrame s frame).1.hub.clientAt c' u' = some { cl0 with Muted := raw.Muted }) := by
  unfold SignalingHandler.handleFrame
  cases frame with
  | none => left; rfl
  | some raw =>
    simp only
    split
    · left; rfl
    · split
      · rename_i hmute
        rw [syncMuteState_hub]
        simp only
        cases h0 : mget (sh.hub.deref s.room).clients s.claims.UserID with
        | none => left; rfl
        | some cl0 =>
          simp only
          rw [clientAt_store_mset sh.hub s.room s.claims.UserID cl0 _ h0]
          by_cases h1 : mget sh.hub.rooms c' = some s.room ∧ s.claims.UserID = u'
          · right
            obtain ⟨h2, h3⟩ := h1
            refine ⟨raw, cl0, rfl, hmute, h2, h3, ?_, ?_⟩
            · subst h3
              simp [SignalingHub.clientAt, h2, h0]
            · simp [h2, h3]
          · left
            simp [h1]
      · left; rfl

theorem handleFrame_isSome (sh : SignalingHandler) (s : Session)
    (frame : Option SignalMessage) (c' u' : Int) :
    ((sh.handleFrame s frame).1.hub.clientAt c' u').isSome = (sh.hub.clientAt c' u').isSome := by
  rcases handleFrame_clientAt sh s frame c' u' with h | ⟨raw, cl0, _, _, _, _, h1, h2⟩
  · rw [h]
  · rw [h1, h2]; rfl

theorem handleFrame_WF (sh : SignalingHandler) (hwf : sh.hub.WF) (s : Session)
    (frame : Option SignalMessage) : (sh.handleFrame s frame).1.hub.WF := by
  unfold SignalingHandler.handleFrame
  cases frame with
  | none => exact hwf
  | some raw =>
    simp only
    split
    · exact hwf
    · split
      · rw [syncMuteState_hub]
        simp only
        split
        · exact store_WF _ _ _ hwf
        · exact hwf
      · exact hwf

theorem teardown_hub (sh : SignalingHandler) (s : Session) :
    (sh.teardown s).1.hub = sh.hub.removeFromRoom s.channelID s.claims.UserID := rfl

theorem store_DistinctKeys (h : SignalingHub) (p : Nat) (r : VoiceRoom)
    (hd : h.DistinctKeys) (hr : (mkeys r.clients).Nodup) : (h.store p r).DistinctKeys := by
  intro c q hq
  rw [deref_store]
  split
  · exact hr
  · exact hd c q hq

theorem getOrCreateRoom_DistinctKeys (h : SignalingHub) (hwf : h.WF) (hd : h.DistinctKeys)
    (c : Int) : (h.getOrCreateRoom c).1.DistinctKeys := by
  unfold SignalingHub.getOrCreateRoom
  cases h1 : mget h.rooms c with
  | some p => simpa using hd
  | none =>
    intro c1 q hq
    simp only [mget_mset] at hq
    by_cases h2 : c = c1
    · simp only [h2, if_true, Option.some.injEq] at hq
      subst hq
      simp [SignalingHub.deref, mkeys]
    · simp only [h2, if_false] at hq
      have hlt := hwf.1 c1 q hq
      have := hd c1 q hq
      simpa [SignalingHub.deref, List.getElem?_append_left hlt] using this

theorem removeFromRoom_DistinctKeys (h : SignalingHub) (hd : h.DistinctKeys) (c u : Int) :
    (h.removeFromRoom c u).DistinctKeys := by
  unfold SignalingHub.removeFromRoom
  cases h1 : mget h.rooms c with
  | none => simpa using hd
  | some p =>
    simp only
    have hs := store_DistinctKeys h p { clients := mdel (h.deref p).clients u } hd
      (nodup_mkeys_mdel _ u (hd c p h1))
    split
    · intro c1 q hq
      simp only [mget_mdel] at hq
      by_cases h2 : c = c1
      · simp [h2] at hq
      · simp only [h2, if_false] at hq
        exact hs c1 q hq
    · exact hs

theorem evict_DistinctKeys (sh : SignalingHandler) (hd : sh.hub.DistinctKeys)
    (order : List Int) (u c : Int) : (sh.evict order u c).hub.DistinctKeys := by
  unfold SignalingHandler.evict
  cases hres : sh.hub.IsUserInChannel order u with
  | mk old b =>
    cases b with
    | false => exact hd
    | true =>
      simp only
      split
      · rw [removeClientFromRoom_hub]
        exact removeFromRoom_DistinctKeys sh.hub hd old u
      · exact hd

theorem connect_DistinctKeys (sh : SignalingHandler) (hwf : sh.hub.WF)
    (hd : sh.hub.DistinctKeys) (claims : Claims) (c : Int) (conn : Nat) (order : List Int) :
    (sh.connect claims c conn order).1.hub.DistinctKeys := by
  unfold SignalingHandler.connect
  simp only
  rw [syncVoiceState_hub]
  unfold SignalingHandler.register
  simp only
  let sh1 : SignalingHandler := { sh with hub := (sh.hub.getOrCreateRoom c).1 }
  have hd1 : sh1.hub.DistinctKeys := getOrCreateRoom_DistinctKeys sh.hub hwf hd c
  have hd2 := evict_DistinctKeys sh1 hd1 order claims.UserID c
  have hroom : mget (sh1.evict order claims.UserID c).hub.rooms c
      = some (sh.hub.getOrCreateRoom c).2 := by
    rw [evict_rooms]
    exact getOrCreateRoom_rooms sh.hub c
  exact store_DistinctKeys _ _ _ hd2 (nodup_mkeys_mset _ _ _ (hd2 c _ hroom))

theorem handleFrame_DistinctKeys (sh : SignalingHandler) (hd : sh.hub.DistinctKeys)
    (s : Session) (frame : Option SignalMessage) :
    (sh.handleFrame s frame).1.hub.DistinctKeys := by
  unfold SignalingHandler.handleFrame
  cases frame with
  | none => exact hd
  | some raw =>
    simp only
    split
    · exact hd
    · split
      · rw [syncMuteState_hub]
        simp only
        split
        · intro c q hq
          rw [deref_store]
          split
          · rename_i hpq
            have h1 := hd c q hq
            rw [← hpq.1] at h1
            exact nodup_mkeys_mset _ _ _ h1
          · exact hd c q hq
        · exact hd
      · exact hd

theorem NewSignalingHub_Inv : NewSignalingHub.Inv := by
  refine ⟨⟨?_, ?_⟩, ?_, ?_⟩
  · intro c p hp
    simp [NewSignalingHub, mget] at hp
  · intro c c' p hp
    simp [NewSignalingHub, mget] at hp
  · intro u c c' h1
    simp [NewSignalingHub, SignalingHub.clientAt, mget] at h1
  · intro c p hp
    simp [NewSignalingHub, mget] at hp

theorem connect_Inv (sh : SignalingHandler) (hinv : sh.hub.Inv)
    (claims : Claims) (c : Int) (conn : Nat) (order : List Int)
    (hcov : ∀ c' ∈ mkeys (sh.hub.getOrCreateRoom c).1.rooms, c' ∈ order) :
    (sh.connect claims c conn order).1.hub.Inv := by
  refine ⟨connect_WF sh hinv.1 claims c conn order, ?_,
    connect_DistinctKeys sh hinv.1 hinv.2.2 claims c conn order⟩
  intro u c1 c2 h1 h2
  rw [connect_clientAt sh hinv.1 hinv.2.1 claims c conn order hcov] at h1 h2
  by_cases h3 : claims.UserID = u
  · simp only [h3, if_true] at h1 h2
    by_cases h4 : c = c1
    · by_cases h5 : c = c2
      · rw [← h4, ← h5]
      · simp [h5] at h2
    · simp [h4] at h1
  · simp only [h3, if_false] at h1 h2
    exact hinv.2.1 u c1 c2 h1 h2

theorem removeFromRoom_Inv (h : SignalingHub) (hinv : h.Inv) (c u : Int) :
    (h.removeFromRoom c u).Inv := by
  refine ⟨removeFromRoom_WF h hinv.1 c u, ?_, removeFromRoom_DistinctKeys h hinv.2.2 c u⟩
  intro u' c1 c2 h1 h2
  rw [removeFromRoom_clientAt h hinv.1] at h1 h2
  by_cases h3 : c = c1 ∧ u = u'
  · simp [h3] at h1
  · by_cases h4 : c = c2 ∧ u = u'
    · simp [h4] at h2
    · simp only [h3, h4, if_false] at h1 h2
      exact hinv.2.1 u' c1 c2 h1 h2

theorem handleFrame_Inv (sh : SignalingHandler) (hinv : sh.hub.Inv) (s : Session)
    (frame : Option SignalMessage) : (sh.handleFrame s frame).1.hub.Inv := by
  refine ⟨handleFrame_WF sh hinv.1 s frame, ?_, handleFrame_DistinctKeys sh hinv.2.2 s frame⟩
  intro u c1 c2 h1 h2
  rw [handleFrame_isSome] at h1 h2
  exact hinv.2.1 u c1 c2 h1 h2

theorem perm_covers {order keys : List Int} (hp : order.Perm keys) :
    ∀ c' ∈ keys, c' ∈ order := fun _ hc => hp.symm.subset hc

theorem step_Inv (s s' : Server) (e : Event) (out : List Delivery)
    (hstep : s.step e = some (s', out)) (hinv : s.sh.hub.Inv) : s'.sh.hub.Inv := by
  cases e with
  | wsConnect claims c conn order =>
    simp only [Server.step] at hstep
    split at hstep
    · rename_i hperm
      simp only [Option.some.injEq, Prod.mk.injEq] at hstep
      rw [← hstep.1]
      exact connect_Inv s.sh hinv claims c conn order (perm_covers hperm)
    · simp at hstep
  | wsFrame sid frame =>
    simp only [Server.step] at hstep
    split at hstep
    · simp only [Option.some.injEq, Prod.mk.injEq] at hstep
      rw [← hstep.1]
      exact handleFrame_Inv s.sh hinv _ frame
    · simp at hstep
  | wsClose sid =>
    simp only [Server.step] at hstep
    split at hstep
    · simp only [Option.some.injEq, Prod.mk.injEq] at hstep
      rw [← hstep.1]
      simp only
      rw [teardown_hub]
      exact removeFromRoom_Inv _ hinv _ _
    · simp at hstep
  | restJoin claims c =>
    simp only [Server.step, Option.some.injEq, Prod.mk.injEq] at hstep
    rw [← hstep.1]; exact hinv
  | restLeave u =>
    simp only [Server.step, Option.some.injEq, Prod.mk.injEq] at hstep
    rw [← hstep.1]; exact hinv
  | restMute u m =>
    simp only [Server.step, Option.some.injEq, Prod.mk.injEq] at hstep
    rw [← hstep.1]; exact hinv
  | restDeleteChannel c =>
    simp only [Server.step, Option.some.injEq, Prod.mk.injEq] at hstep
    rw [← hstep.1]; exact hinv

theorem run_Inv (es : List Event) (s s' : Server) (hrun : s.run es = some s')
    (hinv : s.sh.hub.Inv) : s'.sh.hub.Inv := by
  induction es generalizing s with
  | nil =>
    simp only [Server.run, Option.some.injEq] at hrun
    rw [← hrun]; exact hinv
  | cons e es ih =>
    simp only [Server.run] at hrun
    cases hstep : s.step e with
    | none => simp [hstep] at hrun
    | some res =>
      rw [hstep] at hrun
      exact ih res.1 hrun (step_Inv s res.1 e res.2 hstep hinv)

/-! ## Lemmas on message delivery -/

theorem mget_of_mem {V : Type} (m : GoMap V) (hnd : (mkeys m).Nodup) (k : Int) (v : V)
    (hmem : (k, v) ∈ m) : mget m k = some v := by
  induction m with
  | nil => simp at hmem
  | cons hd tl ih =>
    obtain ⟨k0, v0⟩ := hd
    have hcons : k0 ∉ mkeys tl ∧ (mkeys tl).Nodup := by
      simpa [mkeys] using hnd
    rcases List.mem_cons.mp hmem with h1 | h1
    · simp only [Prod.mk.injEq] at h1
      simp [mget, h1.1, h1.2]
    · have hk : k ∈ mkeys tl := List.mem_map.mpr ⟨(k, v), h1, rfl⟩
      have hne : ¬ k0 = k := by
        intro hh
        rw [hh] at hcons
        exact hcons.1 hk
      simp [mget, hne, ih hcons.2 h1]

theorem filter_key_eq {V : Type} (m : GoMap V) (hnd : (mkeys m).Nodup) (k : Int) (v : V)
    (hget : mget m k = some v) :
    m.filter (fun kv => decide (kv.1 = k)) = [(k, v)] := by
  induction m with
  | nil => simp [mget] at hget
  | cons hd tl ih =>
    obtain ⟨k0, v0⟩ := hd
    have hcons : k0 ∉ mkeys tl ∧ (mkeys tl).Nodup := by
      simpa [mkeys] using hnd
    by_cases h0 : k0 = k
    · subst h0
      simp only [mget, if_true, Option.some.injEq] at hget
      subst hget
      have hnone : tl.filter (fun kv => decide (kv.1 = k0)) = [] := by
        rw [List.filter_eq_nil_iff]
        intro kv hkv
        have hk : kv.1 ∈ mkeys tl := List.mem_map.mpr ⟨kv, hkv, rfl⟩
        simp only [decide_eq_true_eq]
        intro hh
        rw [hh] at hk
        exact hcons.1 hk
      simp [List.filter_cons, hnone]
    · simp only [mget, h0, if_false] at hget
      simp [List.filter_cons, h0, ih hcons.2 hget]

/-- The writes of a broadcast: every one carries the message, goes to a member of the
room other than the excluded user, on that member's transport. -/
theorem broadcastToRoom_mem (sh : SignalingHandler) (hd : sh.hub.DistinctKeys)
    (c x : Int) (msg : SignalMessage) (d : Delivery)
    (hmem : d ∈ sh.broadcastToRoom c x msg) :
    d.msg = msg ∧ d.userID ≠ x ∧
      ∃ cl, sh.hub.clientAt c d.userID = some cl ∧ d.conn = cl.Conn := by
  unfold SignalingHandler.broadcastToRoom at hmem
  cases h1 : mget sh.hub.rooms c with
  | none => simp [h1] at hmem
  | some p =>
    rw [h1] at hmem
    simp only [List.mem_map, List.mem_filter, decide_eq_true_eq] at hmem
    obtain ⟨kv, ⟨hkv, hne⟩, hdef⟩ := hmem
    subst hdef
    refine ⟨rfl, hne, kv.2, ?_, rfl⟩
    simp only [SignalingHub.clientAt, h1]
    exact mget_of_mem _ (hd c p h1) kv.1 kv.2 hkv

/-- The writes of a broadcast to one member other than the excluded user: exactly
one, on that member's transport. -/
theorem broadcastToRoom_filter_user (sh : SignalingHandler) (hd : sh.hub.DistinctKeys)
    (c x : Int) (msg : SignalMessage) (v : Int) (cl : VoiceClient) (hv : v ≠ x)
    (hcl : sh.hub.clientAt c v = some cl) :
    (sh.broadcastToRoom c x msg).filter (fun d => decide (d.userID = v)) =
      [{ userID := v, conn := cl.Conn, msg := msg }] := by
  unfold SignalingHandler.broadcastToRoom
  unfold SignalingHub.clientAt at hcl
  cases h1 : mget sh.hub.rooms c with
  | none => simp [h1] at hcl
  | some p =>
    rw [h1] at hcl
    simp only at hcl ⊢
    rw [List.filter_map, List.filter_filter]
    have hfun : (fun kv : Int × VoiceClient =>
        ((fun d : Delivery => decide (d.userID = v)) ∘
          fun kv : Int × VoiceClient =>
            ({ userID := kv.1, conn := kv.2.Conn, msg := msg } : Delivery)) kv &&
          decide (kv.1 ≠ x)) = fun kv => decide (kv.1 = v) := by
      funext kv
      by_cases h2 : kv.1 = v
      · have h3 : kv.1 ≠ x := by rw [h2]; exact hv
        simp [h2, hv]
      · simp [h2]
    rw [hfun, filter_key_eq _ (hd c p h1) v cl hcl]
    rfl

/-! ## Agreement of the two observation paths -/

theorem offline_clientAt (h : SignalingHub) (u : Int) (hoff : h.offline u = true) (c : Int) :
    h.clientAt c u = none := by
  unfold SignalingHub.offline at hoff
  cases hres : h.IsUserInChannel (mkeys h.rooms) u with
  | mk old b =>
    rw [hres] at hoff
    cases b with
    | true => simp at hoff
    | false =>
      by_cases hk : c ∈ mkeys h.rooms
      · exact IsUserInChannel_false h _ u old hres c hk
      · exact clientAt_none_of_not_key h c u hk

theorem connect_voice (sh : SignalingHandler) (claims : Claims) (c : Int) (conn : Nat)
    (order : List Int) :
    (sh.connect claims c conn order).1.voice =
      (({ sh with hub := (sh.hub.getOrCreateRoom c).1 } : SignalingHandler).evict order
          claims.UserID c |>.syncVoiceState c claims.UserID claims.Username true).voice := by
  unfold SignalingHandler.connect
  simp only
  rw [syncVoiceState_join_voice, syncVoiceState_join_voice]
  rfl

theorem connect_LiveAgree (sh : SignalingHandler) (hinv : sh.hub.Inv) (hag : sh.LiveAgree)
    (claims : Claims) (c : Int) (conn : Nat) (order : List Int)
    (hcov : ∀ c' ∈ mkeys (sh.hub.getOrCreateRoom c).1.rooms, c' ∈ order) :
    (sh.connect claims c conn order).1.LiveAgree := by
  intro c' u' cl hcl
  rw [connect_clientAt sh hinv.1 hinv.2.1 claims c conn order hcov] at hcl
  rw [connect_voice, syncVoiceState_join_entryAt]
  by_cases h1 : claims.UserID = u'
  · simp only [h1, if_true] at hcl
    by_cases h2 : c = c'
    · simp only [h2, if_true, Option.some.injEq] at hcl
      refine ⟨{ UserID := claims.UserID, Username := claims.Username, Muted := false }, ?_, ?_⟩
      · simp [h1, h2]
      · rw [← hcl]
    · simp [h2] at hcl
  · simp only [h1, if_false] at hcl
    have h3 : ¬ (c = c' ∧ claims.UserID = u') := fun hh => h1 hh.2
    have h4 : ¬ (claims.UserID = u' ∧
        mget (({ sh with hub := (sh.hub.getOrCreateRoom c).1 } : SignalingHandler).evict order
          claims.UserID c).voice.userChannel claims.UserID = some c') := fun hh => h1 hh.1
    simp only [h3, h4, if_false]
    rw [evict_entryAt_other _ order claims.UserID c c' u' h1]
    exact hag c' u' cl hcl

theorem teardown_LiveAgree (sh : SignalingHandler) (hinv : sh.hub.Inv) (hag : sh.LiveAgree)
    (s : Session) : (sh.teardown s).1.LiveAgree := by
  intro c' u' cl hcl
  have hv : (sh.teardown s).1.voice =
      (sh.removeClientFromRoom s.channelID s.claims.UserID).voice := rfl
  rw [teardown_hub, removeFromRoom_clientAt sh.hub hinv.1] at hcl
  rw [hv, removeClientFromRoom_entryAt]
  by_cases h1 : s.channelID = c' ∧ s.claims.UserID = u'
  · simp [h1] at hcl
  · simp only [h1, if_false] at hcl ⊢
    exact hag c' u' cl hcl

theorem handleFrame_entryAt (sh : SignalingHandler) (s : Session) (raw : SignalMessage)
    (c' u' : Int) :
    (sh.handleFrame s (some raw)).1.voice.entryAt c' u' =
      if raw.Typ = "mute-state" ∧ s.channelID = c' ∧ s.claims.UserID = u' then
        (sh.voice.entryAt s.channelID s.claims.UserID).map (fun p => { p with Muted := raw.Muted })
      else sh.voice.entryAt c' u' := by
  unfold SignalingHandler.handleFrame
  simp only
  split
  · rename_i hrelay
    have h1 : ¬ raw.Typ = "mute-state" := by
      intro hm
      rw [hm] at hrelay
      revert hrelay
      decide
    simp [h1]
  · split
    · rename_i hmute
      rw [syncMuteState_entryAt]
      simp [hmute]
    · rename_i hmute
      simp [hmute]

theorem handleFrame_clientAt_synced (sh : SignalingHandler) (hwf : sh.hub.WF) (s : Session)
    (raw : SignalMessage)
    (hsync : raw.Typ ≠ "mute-state" ∨ mget sh.hub.rooms s.channelID = some s.room)
    (c' u' : Int) :
    (sh.handleFrame s (some raw)).1.hub.clientAt c' u' =
      if raw.Typ = "mute-state" ∧ s.channelID = c' ∧ s.claims.UserID = u' then
        (sh.hub.clientAt s.channelID s.claims.UserID).map (fun cl => { cl with Muted := raw.Muted })
      else sh.hub.clientAt c' u' := by
  unfold SignalingHandler.handleFrame
  simp only
  split
  · rename_i hrelay
    have h1 : ¬ raw.Typ = "mute-state" := by
      intro hm
      rw [hm] at hrelay
      revert hrelay
      decide
    simp [h1]
  · split
    · rename_i hmute
      have hroom : mget sh.hub.rooms s.channelID = some s.room := by
        rcases hsync with h | h
        · exact absurd hmute h
        · exact h
      have hcur : sh.hub.clientAt s.channelID s.claims.UserID =
          mget (sh.hub.deref s.room).clients s.claims.UserID := by
        simp [SignalingHub.clientAt, hroom]
      rw [syncMuteState_hub]
      simp only
      cases h0 : mget (sh.hub.deref s.room).clients s.claims.UserID with
      | none =>
        simp only
        by_cases h2 : s.channelID = c' ∧ s.claims.UserID = u'
        · obtain ⟨h3, h4⟩ := h2
          subst h3; subst h4
          simp [hmute, hcur, h0]
        · simp [hmute, h2]
      | some cl0 =>
        simp only
        rw [clientAt_store_mset sh.hub s.room s.claims.UserID cl0 _ h0]
        by_cases h2 : s.channelID = c'
        · subst h2
          by_cases h4 : s.claims.UserID = u'
          · subst h4
            simp [hmute, hcur, h0, hroom]
          · simp [hmute, h4]
        · have h5 : ¬ mget sh.hub.rooms c' = some s.room := by
            intro hh
            exact h2 (hwf.2 s.channelID c' s.room hroom hh)
          simp [hmute, h2, h5]
    · rename_i hmute
      simp [hmute]

theorem handleFrame_LiveAgree (sh : SignalingHandler) (hinv : sh.hub.Inv) (hag : sh.LiveAgree)
    (s : Session) (raw : SignalMessage)
    (hsync : raw.Typ ≠ "mute-state" ∨ mget sh.hub.rooms s.channelID = some s.room) :
    (sh.handleFrame s (some raw)).1.LiveAgree := by
  intro c' u' cl hcl
  rw [handleFrame_clientAt_synced sh hinv.1 s raw hsync] at hcl
  rw [handleFrame_entryAt]
  by_cases h1 : raw.Typ = "mute-state" ∧ s.channelID = c' ∧ s.claims.UserID = u'
  · rw [if_pos h1] at hcl ⊢
    cases h2 : sh.hub.clientAt s.channelID s.claims.UserID with
    | none =>
      rw [h2] at hcl
      simp at hcl
    | some cl0 =>
      obtain ⟨p, hp, _⟩ := hag _ _ cl0 h2
      rw [h2] at hcl
      simp only [Option.map_some', Option.some.injEq] at hcl
      refine ⟨{ p with Muted := raw.Muted }, ?_, ?_⟩
      · rw [hp]; rfl
      · rw [← hcl]
  · simp only [h1, if_false] at hcl ⊢
    exact hag c' u' cl hcl

theorem voice_only_LiveAgree (sh : SignalingHandler) (hag : sh.LiveAgree) (v : VoiceState)
    (u : Int) (hoff : sh.hub.offline u = true)
    (hsame : ∀ c' u', u ≠ u' → v.entryAt c' u' = sh.voice.entryAt c' u') :
    ({ sh with voice := v } : SignalingHandler).LiveAgree := by
  intro c' u' cl hcl
  have hcl' : sh.hub.clientAt c' u' = some cl := hcl
  by_cases h1 : u = u'
  · subst h1
    rw [offline_clientAt sh.hub u hoff c'] at hcl'
    simp at hcl'
  · obtain ⟨p, hp, hm⟩ := hag c' u' cl hcl'
    exact ⟨p, by simpa [hsame c' u' h1] using hp, hm⟩

theorem step_LiveAgree (s s' : Server) (e : Event) (out : List Delivery)
    (hok : s.synced e = true) (hstep : s.step e = some (s', out))
    (hinv : s.sh.hub.Inv) (hag : s.sh.LiveAgree) : s'.sh.LiveAgree := by
  cases e with
  | wsConnect claims c conn order =>
    simp only [Server.step] at hstep
    split at hstep
    · rename_i hperm
      simp only [Option.some.injEq, Prod.mk.injEq] at hstep
      rw [← hstep.1]
      exact connect_LiveAgree s.sh hinv hag claims c conn order (perm_covers hperm)
    · simp at hstep
  | wsFrame sid frame =>
    cases frame with
    | none =>
      simp only [Server.step] at hstep
      split at hstep
      · simp only [Option.some.injEq, Prod.mk.injEq] at hstep
        rw [← hstep.1]
        exact hag
      · simp at hstep
    | some raw =>
      simp only [Server.step] at hstep
      simp only [Server.synced] at hok
      split at hstep
      · rename_i sess hsess
        rw [hsess] at hok
        simp only [Bool.or_eq_true, decide_eq_true_eq] at hok
        simp only [Option.some.injEq, Prod.mk.injEq] at hstep
        rw [← hstep.1]
        exact handleFrame_LiveAgree s.sh hinv hag sess raw hok
      · simp at hstep
  | wsClose sid =>
    simp only [Server.step] at hstep
    split at hstep
    · simp only [Option.some.injEq, Prod.mk.injEq] at hstep
      rw [← hstep.1]
      exact teardown_LiveAgree s.sh hinv hag _
    · simp at hstep
  | restJoin claims c =>
    simp only [Server.step, Option.some.injEq, Prod.mk.injEq] at hstep
    simp only [Server.synced] at hok
    rw [← hstep.1]
    apply voice_only_LiveAgree s.sh hag _ claims.UserID hok
    intro c' u' hne
    rw [JoinVoiceChannel_eq_sync, syncVoiceState_join_entryAt]
    have h3 : ¬ (c = c' ∧ claims.UserID = u') := fun hh => hne hh.2
    have h4 : ¬ (claims.UserID = u' ∧ mget s.sh.voice.userChannel claims.UserID = some c') :=
      fun hh => hne hh.1
    simp only [h3, h4, if_false]
  | restLeave u =>
    simp only [Server.step, Option.some.injEq, Prod.mk.injEq] at hstep
    simp only [Server.synced] at hok
    rw [← hstep.1]
    apply voice_only_LiveAgree s.sh hag _ u hok
    intro c' u' hne
    rw [LeaveVoiceChannel_eq_sync]
    cases h1 : mget s.sh.voice.userChannel u with
    | none => rfl
    | some c =>
      simp only
      rw [syncVoiceState_leave_entryAt]
      have h3 : ¬ (c = c' ∧ u = u') := fun hh => hne hh.2
      simp only [h3, if_false]
  | restMute u m =>
    simp only [Server.step, Option.some.injEq, Prod.mk.injEq] at hstep
    simp only [Server.synced] at hok
    rw [← hstep.1]
    apply voice_only_LiveAgree s.sh hag _ u hok
    intro c' u' hne
    rw [ToggleMute_eq_sync]
    cases h1 : mget s.sh.voice.userChannel u with
    | none => rfl
    | some c =>
      simp only
      rw [syncMuteState_entryAt]
      have h3 : ¬ (c = c' ∧ u = u') := fun hh => hne hh.2
      simp only [h3, if_false]
  | restDeleteChannel c =>
    simp [Server.synced] at hok

theorem runSynced_LiveAgree (es : List Event) (s s' : Server)
    (hrun : s.runSynced es = some s') (hinv : s.sh.hub.Inv) (hag : s.sh.LiveAgree) :
    s'.sh.LiveAgree := by
  induction es generalizing s with
  | nil =>
    simp only [Server.runSynced, Option.some.injEq] at hrun
    rw [← hrun]; exact hag
  | cons e es ih =>
    simp only [Server.runSynced] at hrun
    split at hrun
    · rename_i hok
      cases hstep : s.step e with
      | none => simp [hstep] at hrun
      | some res =>
        rw [hstep] at hrun
        exact ih res.1 hrun (step_Inv s res.1 e res.2 hstep hinv)
          (step_LiveAgree s res.1 e res.2 hok hstep hinv hag)
    · simp at hrun

theorem connect_registered (sh : SignalingHandler) (hwf : sh.hub.WF) (claims : Claims)
    (c : Int) (conn : Nat) (order : List Int) :
    (sh.connect claims c conn order).1.hub.clientAt c claims.UserID =
      some { UserID := claims.UserID, Username := claims.Username, Conn := conn, Muted := false } := by
  unfold SignalingHandler.connect
  simp only
  rw [syncVoiceState_hub]
  let sh1 : SignalingHandler := { sh with hub := (sh.hub.getOrCreateRoom c).1 }
  have hwf2 := evict_WF sh1 (getOrCreateRoom_WF sh.hub hwf c) order claims.UserID c
  have hroom : mget (sh1.evict order claims.UserID c).hub.rooms c
      = some (sh.hub.getOrCreateRoom c).2 := by
    rw [evict_rooms]
    exact getOrCreateRoom_rooms sh.hub c
  rw [register_clientAt _ hwf2 c _ hroom]
  simp

theorem connect_sent (sh : SignalingHandler) (claims : Claims) (c : Int) (conn : Nat)
    (order : List Int) :
    ∃ peers, (sh.connect claims c conn order).2.2 =
      { userID := claims.UserID, conn := conn, msg := roomPeersMsg c peers } ::
        (sh.connect claims c conn order).1.broadcastToRoom c claims.UserID
          (peerJoinedMsg claims c) :=
  ⟨_, rfl⟩

theorem broadcastToRoom_msg (sh : SignalingHandler) (c x : Int) (msg : SignalMessage)
    (d : Delivery) (hmem : d ∈ sh.broadcastToRoom c x msg) : d.msg = msg := by
  unfold SignalingHandler.broadcastToRoom at hmem
  cases h1 : mget sh.hub.rooms c with
  | none => simp [h1] at hmem
  | some p =>
    rw [h1] at hmem
    simp only [List.mem_map] at hmem
    obtain ⟨kv, _, hdef⟩ := hmem
    rw [← hdef]

theorem sendToPeer_msg (sh : SignalingHandler) (c x : Int) (msg : SignalMessage)
    (d : Delivery) (hmem : d ∈ sh.sendToPeer c x msg) : d.msg = msg := by
  unfold SignalingHandler.sendToPeer at hmem
  cases h1 : mget sh.hub.rooms c with
  | none => simp [h1] at hmem
  | some p =>
    rw [h1] at hmem
    simp only at hmem
    cases h2 : mget (sh.hub.deref p).clients x with
    | none => simp [h2] at hmem
    | some cl =>
      rw [h2] at hmem
      simp only [List.mem_singleton] at hmem
      rw [hmem]

theorem connect_announce (sh : SignalingHandler) (claims : Claims) (c : Int) (conn : Nat)
    (order : List Int) :
    (sh.connect claims c conn order).2.2.filter (fun d => decide (d.msg.Typ = "peer-joined")) =
      (sh.connect claims c conn order).1.broadcastToRoom c claims.UserID
        (peerJoinedMsg claims c) := by
  obtain ⟨peers, hsent⟩ := connect_sent sh claims c conn order
  rw [hsent]
  have hhead : ¬ (roomPeersMsg c peers).Typ = "peer-joined" := by
    simp [roomPeersMsg]
  rw [List.filter_cons]
  simp only [hhead, decide_False, Bool.false_eq_true, if_false]
  rw [List.filter_eq_self]
  intro d hd
  have := broadcastToRoom_msg _ c claims.UserID _ d hd
  simp [this, peerJoinedMsg]

/-! ## Further lemmas on maps -/

theorem eq_nil_of_mget_none {V : Type} (m : GoMap V) (h : ∀ k, mget m k = none) : m = [] := by
  cases m with
  | nil => rfl
  | cons hd tl =>
    have h1 := h hd.1
    simp [mget] at h1

theorem mset_ne_nil {V : Type} (m : GoMap V) (k : Int) (v : V) : mset m k v ≠ [] := by
  cases m with
  | nil => simp [mset]
  | cons hd tl =>
    obtain ⟨k0, v0⟩ := hd
    by_cases h0 : k0 = k <;> simp [mset, h0]

theorem mset_mset_same {V : Type} (m : GoMap V) (k : Int) (v : V) :
    mset (mset m k v) k v = mset m k v := by
  induction m with
  | nil => simp [mset]
  | cons hd tl ih =>
    obtain ⟨k0, v0⟩ := hd
    by_cases h0 : k0 = k
    · simp [mset, h0]
    · simp [mset, h0, ih]

theorem mdel_mdel {V : Type} (m : GoMap V) (k : Int) : mdel (mdel m k) k = mdel m k := by
  unfold mdel
  rw [List.filter_filter]
  simp

theorem mkeys_mset_of_some {V : Type} (m : GoMap V) (k : Int) (v v0 : V)
    (h : mget m k = some v0) : mkeys (mset m k v) = mkeys m := by
  induction m with
  | nil => simp [mget] at h
  | cons hd tl ih =>
    obtain ⟨k0, v1⟩ := hd
    by_cases h0 : k0 = k
    · simp [mset, mkeys, h0]
    · simp only [mget, h0, if_false] at h
      have := ih h
      simp only [mkeys] at this
      simp [mset, mkeys, h0, this]

theorem removeFromRoom_rooms_last (h : SignalingHub) (c u : Int)
    (hall : ∀ v, v ≠ u → h.clientAt c v = none) :
    mget (h.removeFromRoom c u).rooms c = none := by
  unfold SignalingHub.removeFromRoom
  cases h1 : mget h.rooms c with
  | none => simpa using h1
  | some p =>
    simp only
    have hnil : mdel (h.deref p).clients u = [] := by
      apply eq_nil_of_mget_none
      intro k
      rw [mget_mdel]
      by_cases h2 : u = k
      · simp [h2]
      · have h3 := hall k (fun hh => h2 hh.symm)
        simp only [SignalingHub.clientAt, h1] at h3
        simp [h2, h3]
    simp [hnil, mget_mdel]

theorem broadcastToRoom_no_room (sh : SignalingHandler) (c x : Int) (msg : SignalMessage)
    (h : mget sh.hub.rooms c = none) : sh.broadcastToRoom c x msg = [] := by
  simp [SignalingHandler.broadcastToRoom, h]

theorem mget_putParticipant_of_ne (channels : GoMap (GoMap VoiceParticipant)) (c u : Int)
    (p : VoiceParticipant) (c' : Int) (hne : c ≠ c') :
    mget (putParticipant channels c u p) c' = mget channels c' := by
  unfold putParticipant
  cases h1 : mget channels c with
  | none => simp [mget_mset, hne]
  | some ps => simp [mget_mset, hne]

theorem mget_removeParticipant_last (channels : GoMap (GoMap VoiceParticipant)) (c u : Int)
    (hall : ∀ v, v ≠ u → mget2 channels c v = none) :
    mget (removeParticipant channels c u) c = none := by
  unfold removeParticipant
  cases h1 : mget channels c with
  | none => simpa using h1
  | some ps =>
    simp only
    have hnil : mdel ps u = [] := by
      apply eq_nil_of_mget_none
      intro k
      rw [mget_mdel]
      by_cases h2 : u = k
      · simp [h2]
      · have h3 := hall k (fun hh => h2 hh.symm)
        simp only [mget2, h1] at h3
        simp [h2, h3]
    simp [hnil, mget_mdel]

theorem syncVoiceState_join_userChannel (sh : SignalingHandler) (c u : Int) (n : String) :
    (sh.syncVoiceState c u n true).voice.userChannel = mset sh.voice.userChannel u c := by
  rw [syncVoiceState_join_voice]

theorem syncMuteState_none (sh : SignalingHandler) (c u : Int) (m : Bool)
    (h : sh.voice.entryAt c u = none) : sh.syncMuteState c u m = sh := by
  unfold SignalingHandler.syncMuteState
  unfold VoiceState.entryAt mget2 at h
  cases h1 : mget sh.voice.channels c with
  | none => rfl
  | some ps =>
    rw [h1] at h
    simp only at h ⊢
    rw [h]

theorem syncMuteState_channels (sh : SignalingHandler) (c u : Int) (m : Bool) :
    mkeys (sh.syncMuteState c u m).voice.channels = mkeys sh.voice.channels ∧
    ∀ c', (mget (sh.syncMuteState c u m).voice.channels c').map mkeys =
      (mget sh.voice.channels c').map mkeys := by
  unfold SignalingHandler.syncMuteState
  cases h1 : mget sh.voice.channels c with
  | none => exact ⟨rfl, fun _ => rfl⟩
  | some ps =>
    simp only
    cases h2 : mget ps u with
    | none => exact ⟨rfl, fun _ => rfl⟩
    | some p =>
      simp only
      refine ⟨mkeys_mset_of_some _ _ _ _ h1, ?_⟩
      intro c'
      rw [mget_mset]
      by_cases h3 : c = c'
      · subst h3
        simp [h1, mkeys_mset_of_some _ _ _ _ h2]
      · simp [h3]

/-! ## Lemmas on the mute-state branch -/

theorem handleFrame_mute (sh : SignalingHandler) (s : Session) (raw : SignalMessage)
    (hmute : raw.Typ = "mute-state") :
    sh.handleFrame s (some raw) =
      (sh.muteStep s raw.Muted,
        (sh.muteStep s raw.Muted).broadcastToRoom s.channelID 0
          { Typ := raw.Typ, From := s.claims.UserID, To := raw.To,
            FromName := s.claims.Username, Payload := raw.Payload,
            ChannelID := s.channelID, Muted := raw.Muted }) := by
  have h1 : ¬ (raw.Typ = "offer" ∨ raw.Typ = "answer" ∨ raw.Typ = "ice-candidate") := by
    rw [hmute]
    decide
  unfold SignalingHandler.handleFrame
  simp only
  rw [if_neg h1, if_pos hmute]
  rfl

theorem store_store (h : SignalingHub) (p : Nat) (r r' : VoiceRoom) :
    (h.store p r).store p r' = h.store p r' := by
  simp [SignalingHub.store, List.set_set]

theorem setMuted_idem (h : SignalingHub) (p : Nat) (u : Int) (m : Bool) :
    (h.setMuted p u m).setMuted p u m = h.setMuted p u m := by
  unfold SignalingHub.setMuted
  cases h0 : mget (h.deref p).clients u with
  | none => simp [h0]
  | some cl =>
    simp only
    have hlt : p < h.heap.length := by
      by_contra hge
      have h3 : h.heap[p]? = none := List.getElem?_eq_none (Nat.le_of_not_lt hge)
      simp [SignalingHub.deref, h3, mget] at h0
    have hd : (h.store p
        { clients := mset (h.deref p).clients u { cl with Muted := m } }).deref p =
        { clients := mset (h.deref p).clients u { cl with Muted := m } } := by
      rw [deref_store]
      simp [hlt]
    rw [hd]
    simp only [mget_mset, if_true]
    rw [store_store, mset_mset_same]

theorem syncMuteState_idem (sh : SignalingHandler) (c u : Int) (m : Bool) :
    (sh.syncMuteState c u m).syncMuteState c u m = sh.syncMuteState c u m := by
  unfold SignalingHandler.syncMuteState
  cases h1 : mget sh.voice.channels c with
  | none => simp [h1]
  | some ps =>
    simp only
    cases h2 : mget ps u with
    | none => simp [h1, h2]
    | some p =>
      simp only [mget_mset, if_true]
      rw [mset_mset_same, mset_mset_same]

theorem syncMuteState_congr (sh : SignalingHandler) (h : SignalingHub) (c u : Int) (m : Bool) :
    (({ hub := h, voice := sh.voice } : SignalingHandler).syncMuteState c u m) =
      { hub := h, voice := (sh.syncMuteState c u m).voice } := by
  unfold SignalingHandler.syncMuteState
  cases h1 : mget sh.voice.channels c with
  | none => rfl
  | some ps =>
    simp only
    cases h2 : mget ps u with
    | none => rfl
    | some p => rfl

theorem muteStep_eq (sh : SignalingHandler) (s : Session) (m : Bool) :
    sh.muteStep s m =
      { hub := sh.hub.setMuted s.room s.claims.UserID m,
        voice := (sh.syncMuteState s.channelID s.claims.UserID m).voice } := by
  unfold SignalingHandler.muteStep
  exact syncMuteState_congr sh _ _ _ _

/-- Handling `mute-state` with the same flag a second time changes nothing. -/
theorem muteStep_idem (sh : SignalingHandler) (s : Session) (m : Bool) :
    (sh.muteStep s m).muteStep s m = sh.muteStep s m := by
  rw [muteStep_eq (sh.muteStep s m), muteStep_eq sh]
  simp only
  rw [setMuted_idem]
  have h1 := syncMuteState_congr sh (sh.hub.setMuted s.room s.claims.UserID m)
    s.channelID s.claims.UserID m
  have h2 := syncMuteState_idem
    ({ hub := sh.hub.setMuted s.room s.claims.UserID m, voice := sh.voice } : SignalingHandler)
    s.channelID s.claims.UserID m
  rw [h1] at h2
  have h3 := congrArg SignalingHandler.voice h2
  simp only at h3
  rw [h3]

/-- Sending `mute-state` with the same flag twice in a row gives the state and the
broadcast that sending it once gives. -/
theorem handleFrame_mute_idempotent (sh : SignalingHandler) (s : Session)
    (raw : SignalMessage) (hmute : raw.Typ = "mute-state") :
    (sh.handleFrame s (some raw)).1.handleFrame s (some raw) = sh.handleFrame s (some raw) := by
  rw [handleFrame_mute sh s raw hmute]
  simp only
  rw [handleFrame_mute _ s raw hmute, muteStep_idem]

/-! ## Lemmas on empty rooms -/

theorem removeFromRoom_nonempty (h : SignalingHub) (hwf : h.WF) (c u c' : Int) (p' : Nat)
    (hreg : mget (h.removeFromRoom c u).rooms c' = some p')
    (hold : ∀ q, mget h.rooms c' = some q → (h.deref q).clients ≠ []) :
    ((h.removeFromRoom c u).deref p').clients ≠ [] := by
  unfold SignalingHub.removeFromRoom at hreg ⊢
  cases h1 : mget h.rooms c with
  | none =>
    rw [h1] at hreg
    simp only at hreg ⊢
    exact hold p' hreg
  | some p =>
    rw [h1] at hreg
    simp only at hreg ⊢
    have hlt := hwf.1 c p h1
    split at hreg
    · rename_i hlen
      rw [if_pos hlen]
      have hr : mget (mdel h.rooms c) c' = some p' := hreg
      rw [mget_mdel] at hr
      by_cases h2 : c = c'
      · simp [h2] at hr
      · simp only [h2, if_false] at hr
        have hne : ¬ p = p' := by
          intro hpp
          subst hpp
          exact h2 (hwf.2 c c' p h1 hr)
        have hd : (h.store p { clients := mdel (h.deref p).clients u }).deref p' = h.deref p' := by
          rw [deref_store]
          simp [hne]
        have hd' : SignalingHub.deref
            { rooms := mdel (h.store p { clients := mdel (h.deref p).clients u }).rooms c,
              heap := (h.store p { clients := mdel (h.deref p).clients u }).heap } p' =
            (h.store p { clients := mdel (h.deref p).clients u }).deref p' := rfl
        rw [hd', hd]
        exact hold p' hr
    · rename_i hlen
      rw [if_neg hlen]
      have hr : mget h.rooms c' = some p' := hreg
      by_cases h2 : p = p'
      · subst h2
        rw [deref_store]
        simp only [hlt, and_self, if_true]
        intro hnil
        exact hlen (by rw [hnil]; rfl)
      · rw [deref_store]
        simp only [h2, false_and, if_false]
        exact hold p' hr

theorem removeFromRoom_NoEmptyRoom (h : SignalingHub) (hwf : h.WF) (hne : h.NoEmptyRoom)
    (c u : Int) : (h.removeFromRoom c u).NoEmptyRoom := by
  intro c' p' hreg
  exact removeFromRoom_nonempty h hwf c u c' p' hreg (fun q hq => hne c' q hq)

theorem getOrCreateRoom_of_ne (h : SignalingHub) (hwf : h.WF) (c c' : Int) (p' : Nat)
    (hne : c ≠ c') (hreg : mget (h.getOrCreateRoom c).1.rooms c' = some p') :
    mget h.rooms c' = some p' ∧ (h.getOrCreateRoom c).1.deref p' = h.deref p' := by
  unfold SignalingHub.getOrCreateRoom at hreg ⊢
  cases h1 : mget h.rooms c with
  | some p =>
    rw [h1] at hreg
    exact ⟨hreg, rfl⟩
  | none =>
    rw [h1] at hreg
    simp only [mget_mset, hne, if_false] at hreg
    refine ⟨hreg, ?_⟩
    have hlt := hwf.1 c' p' hreg
    simp [SignalingHub.deref, List.getElem?_append_left hlt]

theorem evict_nonempty (sh : SignalingHandler) (hwf : sh.hub.WF) (order : List Int)
    (u c c' : Int) (p' : Nat)
    (hreg : mget (sh.evict order u c).hub.rooms c' = some p')
    (hold : ∀ q, mget sh.hub.rooms c' = some q → (sh.hub.deref q).clients ≠ []) :
    ((sh.evict order u c).hub.deref p').clients ≠ [] := by
  unfold SignalingHandler.evict at hreg ⊢
  cases hres : sh.hub.IsUserInChannel order u with
  | mk old b =>
    rw [hres] at hreg
    cases b with
    | false => exact hold p' hreg
    | true =>
      simp only at hreg ⊢
      split at hreg
      · rename_i hne
        rw [if_pos hne]
        rw [removeClientFromRoom_hub] at hreg ⊢
        exact removeFromRoom_nonempty sh.hub hwf old u c' p' hreg hold
      · rename_i hne
        rw [if_neg hne]
        exact hold p' hreg

theorem connect_NoEmptyRoom (sh : SignalingHandler) (hwf : sh.hub.WF)
    (hne : sh.hub.NoEmptyRoom) (claims : Claims) (c : Int) (conn : Nat) (order : List Int) :
    (sh.connect claims c conn order).1.hub.NoEmptyRoom := by
  intro c' p' hreg
  unfold SignalingHandler.connect at hreg ⊢
  simp only at hreg ⊢
  rw [syncVoiceState_hub] at hreg ⊢
  let sh1 : SignalingHandler := { sh with hub := (sh.hub.getOrCreateRoom c).1 }
  have hwf1 : sh1.hub.WF := getOrCreateRoom_WF sh.hub hwf c
  have hwf2 := evict_WF sh1 hwf1 order claims.UserID c
  have hroom : mget (sh1.evict order claims.UserID c).hub.rooms c
      = some (sh.hub.getOrCreateRoom c).2 := by
    rw [evict_rooms]
    exact getOrCreateRoom_rooms sh.hub c
  have hreg2 : mget (sh1.evict order claims.UserID c).hub.rooms c' = some p' := hreg
  unfold SignalingHandler.register
  simp only
  rw [deref_store]
  by_cases h1 : (sh.hub.getOrCreateRoom c).2 = p'
  · have hlt := hwf2.1 c _ hroom
    simp only [h1] at hlt
    simp only [h1, hlt, and_self, if_true]
    exact mset_ne_nil _ _ _
  · simp only [h1, false_and, if_false]
    have hcc : c ≠ c' := by
      intro hh
      subst hh
      rw [hroom] at hreg2
      exact h1 (Option.some.inj hreg2)
    apply evict_nonempty sh1 hwf1 order claims.UserID c c' p' hreg2
    intro q hq
    obtain ⟨hq1, hq2⟩ := getOrCreateRoom_of_ne sh.hub hwf c c' q hcc hq
    have : sh1.hub.deref q = sh.hub.deref q := hq2
    rw [this]
    exact hne c' q hq1

theorem setMuted_NoEmptyRoom (h : SignalingHub) (hne : h.NoEmptyRoom) (p : Nat) (u : Int)
    (m : Bool) : (h.setMuted p u m).NoEmptyRoom := by
  unfold SignalingHub.setMuted
  cases h0 : mget (h.deref p).clients u with
  | none => exact hne
  | some cl =>
    intro c' p' hreg
    simp only
    rw [deref_store]
    split
    · exact mset_ne_nil _ _ _
    · exact hne c' p' hreg

theorem handleFrame_NoEmptyRoom (sh : SignalingHandler) (hne : sh.hub.NoEmptyRoom)
    (s : Session) (frame : Option SignalMessage) :
    (sh.handleFrame s frame).1.hub.NoEmptyRoom := by
  cases frame with
  | none => exact hne
  | some raw =>
    by_cases hmute : raw.Typ = "mute-state"
    · rw [handleFrame_mute sh s raw hmute, muteStep_eq]
      exact setMuted_NoEmptyRoom sh.hub hne _ _ _
    · unfold SignalingHandler.handleFrame
      simp only
      split
      · exact hne
      · simp only [hmute, if_false]
        exact hne

theorem step_NoEmptyRoom (s s' : Server) (e : Event) (out : List Delivery)
    (hstep : s.step e = some (s', out)) (hwf : s.sh.hub.WF) (hne : s.sh.hub.NoEmptyRoom) :
    s'.sh.hub.NoEmptyRoom := by
  cases e with
  | wsConnect claims c conn order =>
    simp only [Server.step] at hstep
    split at hstep
    · simp only [Option.some.injEq, Prod.mk.injEq] at hstep
      rw [← hstep.1]
      exact connect_NoEmptyRoom s.sh hwf hne claims c conn order
    · simp at hstep
  | wsFrame sid frame =>
    simp only [Server.step] at hstep
    split at hstep
    · simp only [Option.some.injEq, Prod.mk.injEq] at hstep
      rw [← hstep.1]
      exact handleFrame_NoEmptyRoom s.sh hne _ frame
    · simp at hstep
  | wsClose sid =>
    simp only [Server.step] at hstep
    split at hstep
    · simp only [Option.some.injEq, Prod.mk.injEq] at hstep
      rw [← hstep.1]
      simp only
      rw [teardown_hub]
      exact removeFromRoom_NoEmptyRoom _ hwf hne _ _
    · simp at hstep
  | restJoin claims c =>
    simp only [Server.step, Option.some.injEq, Prod.mk.injEq] at hstep
    rw [← hstep.1]; exact hne
  | restLeave u =>
    simp only [Server.step, Option.some.injEq, Prod.mk.injEq] at hstep
    rw [← hstep.1]; exact hne
  | restMute u m =>
    simp only [Server.step, Option.some.injEq, Prod.mk.injEq] at hstep
    rw [← hstep.1]; exact hne
  | restDeleteChannel c =>
    simp only [Server.step, Option.some.injEq, Prod.mk.injEq] at hstep
    rw [← hstep.1]; exact hne

theorem run_NoEmptyRoom (es : List Event) (s s' : Server) (hrun : s.run es = some s')
    (hinv : s.sh.hub.Inv) (hne : s.sh.hub.NoEmptyRoom) : s'.sh.hub.NoEmptyRoom := by
  induction es generalizing s with
  | nil =>
    simp only [Server.run, Option.some.injEq] at hrun
    rw [← hrun]; exact hne
  | cons e es ih =>
    simp only [Server.run] at hrun
    cases hstep : s.step e with
    | none => simp [hstep] at hrun
    | some res =>
      rw [hstep] at hrun
      exact ih res.1 hrun (step_Inv s res.1 e res.2 hstep hinv)
        (step_NoEmptyRoom s res.1 e res.2 hstep hinv.1 hne)

/-! ## Lemmas on repeated removal and on the room scan -/

theorem removeFromRoom_idem (h : SignalingHub) (c u : Int) :
    (h.removeFromRoom c u).removeFromRoom c u = h.removeFromRoom c u := by
  cases h1 : mget h.rooms c with
  | none =>
    have h2 : h.removeFromRoom c u = h := by
      simp [SignalingHub.removeFromRoom, h1]
    rw [h2, h2]
  | some p =>
    by_cases hlen : (mdel (h.deref p).clients u).length = 0
    · have h2 : h.removeFromRoom c u =
          { rooms := mdel h.rooms c,
            heap := (h.store p { clients := mdel (h.deref p).clients u }).heap } := by
        simp [SignalingHub.removeFromRoom, h1, hlen, SignalingHub.store]
      rw [h2]
      simp [SignalingHub.removeFromRoom, mget_mdel]
    · have h2 : h.removeFromRoom c u = h.store p { clients := mdel (h.deref p).clients u } := by
        simp [SignalingHub.removeFromRoom, h1, hlen]
      have hlt : p < h.heap.length := by
        by_contra hge
        have h3 : h.heap[p]? = none := List.getElem?_eq_none (Nat.le_of_not_lt hge)
        apply hlen
        simp [SignalingHub.deref, h3, mdel]
      have hd : (h.store p { clients := mdel (h.deref p).clients u }).deref p =
          { clients := mdel (h.deref p).clients u } := by
        rw [deref_store]
        simp [hlt]
      have hr : mget (h.store p { clients := mdel (h.deref p).clients u }).rooms c = some p := h1
      rw [h2]
      unfold SignalingHub.removeFromRoom
      rw [hr]
      simp only
      rw [hd]
      simp only [mdel_mdel]
      rw [if_neg hlen, store_store]

theorem removeParticipant_idem (channels : GoMap (GoMap VoiceParticipant)) (c u : Int) :
    removeParticipant (removeParticipant channels c u) c u = removeParticipant channels c u := by
  cases h1 : mget channels c with
  | none =>
    have h2 : removeParticipant channels c u = channels := by
      simp [removeParticipant, h1]
    rw [h2, h2]
  | some ps =>
    by_cases hlen : (mdel ps u).length = 0
    · have h2 : removeParticipant channels c u = mdel channels c := by
        simp [removeParticipant, h1, hlen]
      rw [h2]
      simp [removeParticipant, mget_mdel]
    · have h2 : removeParticipant channels c u = mset channels c (mdel ps u) := by
        simp [removeParticipant, h1, hlen]
      rw [h2]
      unfold removeParticipant
      simp only [mget_mset, if_true, mdel_mdel]
      rw [if_neg hlen, mset_mset_same]

theorem removeClientFromRoom_eq (sh : SignalingHandler) (c u : Int) :
    sh.removeClientFromRoom c u =
      { hub := sh.hub.removeFromRoom c u,
        voice := { channels := removeParticipant sh.voice.channels c u,
                   userChannel := mdel sh.voice.userChannel u } } := rfl

theorem removeClientFromRoom_idem (sh : SignalingHandler) (c u : Int) :
    (sh.removeClientFromRoom c u).removeClientFromRoom c u = sh.removeClientFromRoom c u := by
  rw [removeClientFromRoom_eq (sh.removeClientFromRoom c u), removeClientFromRoom_eq sh]
  simp only
  rw [removeFromRoom_idem, removeParticipant_idem, mdel_mdel]

theorem IsUserInChannel_of_none (h : SignalingHub) (order : List Int) (u : Int)
    (hnone : ∀ c ∈ order, h.clientAt c u = none) : h.IsUserInChannel order u = (0, false) := by
  induction order with
  | nil => rfl
  | cons c0 rest ih =>
    unfold SignalingHub.IsUserInChannel
    have h0 := hnone c0 (List.mem_cons_self _ _)
    have hrest := ih (fun c hc => hnone c (List.mem_cons_of_mem _ hc))
    unfold SignalingHub.clientAt at h0
    cases h1 : mget h.rooms c0 with
    | none => simpa using hrest
    | some p =>
      rw [h1] at h0
      simp only at h0 ⊢
      rw [h0]
      simpa using hrest

theorem IsUserInChannel_not_found (h : SignalingHub) (order : List Int) (u : Int)
    (hf : (h.IsUserInChannel order u).2 = false) : h.IsUserInChannel order u = (0, false) := by
  induction order with
  | nil => rfl
  | cons c0 rest ih =>
    unfold SignalingHub.IsUserInChannel at hf ⊢
    cases h1 : mget h.rooms c0 with
    | none =>
      rw [h1] at hf
      simp only at hf ⊢
      exact ih hf
    | some p =>
      rw [h1] at hf
      simp only at hf ⊢
      by_cases h2 : (mget (h.deref p).clients u).isSome = true
      · simp [h2] at hf
      · simp only [h2] at hf ⊢
        exact ih hf

theorem broadcastLoop_attempts (x : Int) (msg : SignalMessage) (writeFails : Delivery → Bool)
    (clients : List (Int × VoiceClient)) :
    (broadcastLoop x msg writeFails clients).map Prod.fst =
      (clients.filter (fun kv => decide (kv.1 ≠ x))).map
        (fun kv => ({ userID := kv.1, conn := kv.2.Conn, msg := msg } : Delivery)) := by
  induction clients with
  | nil => rfl
  | cons hd tl ih =>
    obtain ⟨k, cl⟩ := hd
    by_cases h : k = x
    · simp [broadcastLoop, h, ih]
    · simp [broadcastLoop, h, ih]

theorem broadcastLoop_results (x : Int) (msg : SignalMessage) (writeFails : Delivery → Bool)
    (clients : List (Int × VoiceClient)) :
    ∀ w ∈ broadcastLoop x msg writeFails clients, w.2 = writeFails w.1 := by
  induction clients with
  | nil => simp [broadcastLoop]
  | cons hd tl ih =>
    obtain ⟨k, cl⟩ := hd
    intro w hw
    by_cases h : k = x
    · simp only [broadcastLoop, h, if_true] at hw
      exact ih w hw
    · simp only [broadcastLoop, h, if_false, List.mem_cons] at hw
      rcases hw with hw | hw
      · rw [hw]
      · exact ih w hw

theorem mem_of_mget {V : Type} (m : GoMap V) (k : Int) (v : V) (h : mget m k = some v) :
    (k, v) ∈ m := by
  induction m with
  | nil => simp [mget] at h
  | cons hd tl ih =>
    obtain ⟨k0, v0⟩ := hd
    by_cases h0 : k0 = k
    · simp only [mget, h0, if_true, Option.some.injEq] at h
      simp [h0, h]
    · simp only [mget, h0, if_false] at h
      exact List.mem_cons_of_mem _ (ih h)

theorem broadcastToRoomWrites_attempts (sh : SignalingHandler) (c x : Int)
    (msg : SignalMessage) (writeFails : Delivery → Bool) :
    (sh.broadcastToRoomWrites c x msg writeFails).map Prod.fst = sh.broadcastToRoom c x msg := by
  unfold SignalingHandler.broadcastToRoomWrites SignalingHandler.broadcastToRoom
  cases h1 : mget sh.hub.rooms c with
  | none => rfl
  | some p => exact broadcastLoop_attempts x msg writeFails _

theorem broadcastToRoom_reaches (sh : SignalingHandler) (c x : Int) (msg : SignalMessage)
    (v : Int) (cl : VoiceClient) (hv : v ≠ x) (hcl : sh.hub.clientAt c v = some cl) :
    ({ userID := v, conn := cl.Conn, msg := msg } : Delivery) ∈ sh.broadcastToRoom c x msg := by
  unfold SignalingHandler.broadcastToRoom
  unfold SignalingHub.clientAt at hcl
  cases h1 : mget sh.hub.rooms c with
  | none => simp [h1] at hcl
  | some p =>
    rw [h1] at hcl
    simp only at hcl ⊢
    rw [List.mem_map]
    refine ⟨(v, cl), ?_, rfl⟩
    rw [List.mem_filter]
    exact ⟨mem_of_mget _ v cl hcl, by simpa using hv⟩

theorem evict_of_member (sh : SignalingHandler) (hsr : sh.hub.SingleRoom) (order : List Int)
    (hcov : ∀ c' ∈ mkeys sh.hub.rooms, c' ∈ order) (u c : Int)
    (hin : (sh.hub.clientAt c u).isSome = true) : sh.evict order u c = sh := by
  rcases evict_cases sh hsr order hcov u c with ⟨heq, _⟩ | ⟨old, hne, hold, _⟩
  · exact heq
  · exact absurd (hsr u old c hold hin) hne

theorem getOrCreateRoom_of_member (h : SignalingHub) (c u : Int)
    (hin : (h.clientAt c u).isSome = true) :
    ∃ p, mget h.rooms c = some p ∧ h.getOrCreateRoom c = (h, p) := by
  unfold SignalingHub.clientAt at hin
  cases h1 : mget h.rooms c with
  | none => simp [h1] at hin
  | some p => exact ⟨p, rfl, by simp [SignalingHub.getOrCreateRoom, h1]⟩

theorem connect_rooms_of_member (sh : SignalingHandler) (hinv : sh.hub.Inv) (claims : Claims)
    (c : Int) (conn : Nat) (order : List Int)
    (hperm : order.Perm (mkeys (sh.hub.getOrCreateRoom c).1.rooms))
    (hin : (sh.hub.clientAt c claims.UserID).isSome = true) :
    (sh.connect claims c conn order).1.hub.rooms = sh.hub.rooms := by
  obtain ⟨p, hp, hgoc⟩ := getOrCreateRoom_of_member sh.hub c claims.UserID hin
  have hsh1 : ({ sh with hub := (sh.hub.getOrCreateRoom c).1 } : SignalingHandler) = sh := by
    rw [hgoc]
  have hcov : ∀ c' ∈ mkeys sh.hub.rooms, c' ∈ order := by
    have := perm_covers hperm
    rw [hgoc] at this
    exact this
  unfold SignalingHandler.connect
  simp only
  rw [syncVoiceState_hub, hsh1, evict_of_member sh hinv.2.1 order hcov claims.UserID c hin]
  rfl

theorem removeFromRoom_deref (h : SignalingHub) (hwf : h.WF) (c u : Int) (p : Nat)
    (hp : mget h.rooms c = some p) :
    ((h.removeFromRoom c u).deref p).clients = mdel (h.deref p).clients u := by
  have hlt := hwf.1 c p hp
  have hd : (h.store p { clients := mdel (h.deref p).clients u }).deref p =
      { clients := mdel (h.deref p).clients u } := by
    rw [deref_store]
    simp [hlt]
  unfold SignalingHub.removeFromRoom
  rw [hp]
  simp only
  split
  · have hd' : SignalingHub.deref
        { rooms := mdel (h.store p { clients := mdel (h.deref p).clients u }).rooms c,
          heap := (h.store p { clients := mdel (h.deref p).clients u }).heap } p =
        (h.store p { clients := mdel (h.deref p).clients u }).deref p := rfl
    rw [hd', hd]
  · rw [hd]

theorem setMuted_of_absent (h : SignalingHub) (p : Nat) (u : Int) (m : Bool)
    (habs : mget (h.deref p).clients u = none) : h.setMuted p u m = h := by
  simp [SignalingHub.setMuted, habs]

theorem removeClientFromRoom_SameFor (sh : SignalingHandler) (hwf : sh.hub.WF) (c u v : Int)
    (hne : v ≠ u) : SignalingHandler.SameFor v (sh.removeClientFromRoom c u) sh := by
  have h1 : ∀ c', ¬ (c = c' ∧ u = v) := fun _ hh => hne hh.2.symm
  refine ⟨?_, ?_, ?_⟩
  · intro c'
    rw [removeClientFromRoom_entryAt, if_neg (h1 c')]
  · rw [removeClientFromRoom_eq]
    simp only [mget_mdel]
    rw [if_neg (fun hh => hne hh.symm)]
  · intro c'
    rw [removeClientFromRoom_hub, removeFromRoom_clientAt sh.hub hwf, if_neg (h1 c')]

theorem evict_SameFor (sh : SignalingHandler) (hwf : sh.hub.WF) (order : List Int)
    (u c v : Int) (hne : v ≠ u) : SignalingHandler.SameFor v (sh.evict order u c) sh := by
  unfold SignalingHandler.evict
  cases hres : sh.hub.IsUserInChannel order u with
  | mk old b =>
    cases b with
    | false => exact ⟨fun _ => rfl, rfl, fun _ => rfl⟩
    | true =>
      simp only
      split
      · exact removeClientFromRoom_SameFor sh hwf old u v hne
      · exact ⟨fun _ => rfl, rfl, fun _ => rfl⟩

theorem syncVoiceState_join_SameFor (sh : SignalingHandler) (c u : Int) (n : String) (v : Int)
    (hne : v ≠ u) : SignalingHandler.SameFor v (sh.syncVoiceState c u n true) sh := by
  refine ⟨?_, ?_, ?_⟩
  · intro c'
    rw [syncVoiceState_join_entryAt]
    have h1 : ¬ (c = c' ∧ u = v) := fun hh => hne hh.2.symm
    have h2 : ¬ (u = v ∧ mget sh.voice.userChannel u = some c') := fun hh => hne hh.1.symm
    rw [if_neg h1, if_neg h2]
  · rw [syncVoiceState_join_userChannel, mget_mset, if_neg (fun hh => hne hh.symm)]
  · intro c'
    rw [syncVoiceState_hub]

theorem syncMuteState_SameFor (sh : SignalingHandler) (c u : Int) (m : Bool) (v : Int)
    (hne : v ≠ u) : SignalingHandler.SameFor v (sh.syncMuteState c u m) sh := by
  refine ⟨?_, ?_, ?_⟩
  · intro c'
    rw [syncMuteState_entryAt, if_neg (fun hh => hne hh.2.symm)]
  · rw [syncMuteState_userChannel]
  · intro c'
    rw [syncMuteState_hub]

theorem SameFor_trans (v : Int) (a b c : SignalingHandler)
    (h1 : SignalingHandler.SameFor v a b) (h2 : SignalingHandler.SameFor v b c) :
    SignalingHandler.SameFor v a c :=
  ⟨fun x => (h1.1 x).trans (h2.1 x), h1.2.1.trans h2.2.1, fun x => (h1.2.2 x).trans (h2.2.2 x)⟩

theorem connect_SameFor (sh : SignalingHandler) (hwf : sh.hub.WF) (claims : Claims) (c : Int)
    (conn : Nat) (order : List Int) (v : Int) (hne : v ≠ claims.UserID) :
    SignalingHandler.SameFor v (sh.connect claims c conn order).1 sh := by
  let sh1 : SignalingHandler := { sh with hub := (sh.hub.getOrCreateRoom c).1 }
  have hwf1 : sh1.hub.WF := getOrCreateRoom_WF sh.hub hwf c
  have hwf2 := evict_WF sh1 hwf1 order claims.UserID c
  have hroom : mget (sh1.evict order claims.UserID c).hub.rooms c
      = some (sh.hub.getOrCreateRoom c).2 := by
    rw [evict_rooms]
    exact getOrCreateRoom_rooms sh.hub c
  have h1 : SignalingHandler.SameFor v sh1 sh :=
    ⟨fun _ => rfl, rfl, fun c' => getOrCreateRoom_clientAt sh.hub hwf c c' v⟩
  have h2 := evict_SameFor sh1 hwf1 order claims.UserID c v hne
  have h3 : SignalingHandler.SameFor v
      ((sh1.evict order claims.UserID c).register (sh.hub.getOrCreateRoom c).2
        { UserID := claims.UserID, Username := claims.Username, Conn := conn, Muted := false })
      (sh1.evict order claims.UserID c) := by
    refine ⟨fun _ => rfl, rfl, ?_⟩
    intro c'
    rw [register_clientAt _ hwf2 c _ hroom]
    have h4 : ¬ (c = c' ∧ claims.UserID = v) := fun hh => hne hh.2.symm
    simp only [h4, if_false]
  have h4 := syncVoiceState_join_SameFor
    ((sh1.evict order claims.UserID c).register (sh.hub.getOrCreateRoom c).2
      { UserID := claims.UserID, Username := claims.Username, Conn := conn, Muted := false })
    c claims.UserID claims.Username v hne
  exact SameFor_trans v _ _ _ h4 (SameFor_trans v _ _ _ h3 (SameFor_trans v _ _ _ h2 h1))

theorem handleFrame_SameFor (sh : SignalingHandler) (s : Session)
    (frame : Option SignalMessage) (v : Int) (hne : v ≠ s.claims.UserID) :
    SignalingHandler.SameFor v (sh.handleFrame s frame).1 sh := by
  cases frame with
  | none => exact ⟨fun _ => rfl, rfl, fun _ => rfl⟩
  | some raw =>
    by_cases hmute : raw.Typ = "mute-state"
    · refine ⟨?_, ?_, ?_⟩
      · intro c'
        rw [handleFrame_entryAt]
        have h1 : ¬ (raw.Typ = "mute-state" ∧ s.channelID = c' ∧ s.claims.UserID = v) :=
          fun hh => hne hh.2.2.symm
        rw [if_neg h1]
      · rw [handleFrame_mute sh s raw hmute, muteStep_eq]
        simp only
        rw [syncMuteState_userChannel]
      · intro c'
        rcases handleFrame_clientAt sh s (some raw) c' v with h | ⟨_, _, _, _, _, hu, _, _⟩
        · exact h
        · exact absurd hu.symm hne
    · have hsame : (sh.handleFrame s (some raw)).1 = sh := by
        unfold SignalingHandler.handleFrame
        simp only
        split
        · rfl
        · simp [hmute]
      rw [hsame]
      exact ⟨fun _ => rfl, rfl, fun _ => rfl⟩

/-! ## Lemmas on the sections of a connect -/

theorem heldAfter_append (held : List Mutex) (a b : List LockOp) :
    heldAfter held (a ++ b) = heldAfter (heldAfter held a) b := by
  unfold heldAfter
  exact List.foldl_append _ _ _ _

theorem heldAfter_cons (held : List Mutex) (op : LockOp) (rest : List LockOp) :
    heldAfter held (op :: rest) = heldAfter (op.apply held) rest := rfl

theorem heldAfter_nil (held : List Mutex) : heldAfter held [] = held := rfl

theorem neverHubAndRoom_append (held : List Mutex) (a b : List LockOp) :
    neverHubAndRoom held (a ++ b) =
      (neverHubAndRoom held a && neverHubAndRoom (heldAfter held a) b) := by
  induction a generalizing held with
  | nil => simp [neverHubAndRoom, heldAfter]
  | cons op rest ih =>
    show (!holdsHubAndRoom (op.apply held) && neverHubAndRoom (op.apply held) (rest ++ b)) =
      ((!holdsHubAndRoom (op.apply held) && neverHubAndRoom (op.apply held) rest) &&
        neverHubAndRoom (heldAfter (op.apply held) rest) b)
    rw [ih, Bool.and_assoc]

theorem hubNeverAfterRoom_append (held : List Mutex) (a b : List LockOp) :
    hubNeverAfterRoom held (a ++ b) =
      (hubNeverAfterRoom held a && hubNeverAfterRoom (heldAfter held a) b) := by
  induction a generalizing held with
  | nil => simp [hubNeverAfterRoom, heldAfter]
  | cons op rest ih =>
    show (!(op.acquiresHub && held.any Mutex.isRoom) &&
        hubNeverAfterRoom (op.apply held) (rest ++ b)) =
      ((!(op.acquiresHub && held.any Mutex.isRoom) && hubNeverAfterRoom (op.apply held) rest) &&
        hubNeverAfterRoom (heldAfter (op.apply held) rest) b)
    rw [ih, Bool.and_assoc]

theorem OrderedCalls_append {a b : List LockOp} (ha : OrderedCalls a) (hb : OrderedCalls b) :
    OrderedCalls (a ++ b) := by
  unfold OrderedCalls at *
  rw [hubNeverAfterRoom_append, heldAfter_append, ha.2, ha.1, hb.1, hb.2]
  exact ⟨rfl, rfl⟩

theorem DisjointCalls_append {a b : List LockOp} (ha : DisjointCalls a)
    (hb : DisjointCalls b) : DisjointCalls (a ++ b) := by
  unfold DisjointCalls at *
  rw [neverHubAndRoom_append, heldAfter_append, ha.2, ha.1, hb.1, hb.2]
  exact ⟨rfl, rfl⟩

theorem OrderedCalls_nil : OrderedCalls [] := ⟨rfl, rfl⟩

theorem DisjointCalls_nil : DisjointCalls [] := ⟨rfl, rfl⟩

theorem pair_Ordered (m : Mutex) :
    OrderedCalls [LockOp.Lock m, LockOp.Unlock m] ∧
      OrderedCalls [LockOp.RLock m, LockOp.RUnlock m] := by
  cases m <;>
    simp [OrderedCalls, hubNeverAfterRoom, heldAfter, LockOp.apply, LockOp.acquiresHub,
      Mutex.isRoom]

theorem pair_Disjoint (m : Mutex) :
    DisjointCalls [LockOp.Lock m, LockOp.Unlock m] ∧
      DisjointCalls [LockOp.RLock m, LockOp.RUnlock m] := by
  cases m <;>
    simp [DisjointCalls, neverHubAndRoom, holdsHubAndRoom, heldAfter, LockOp.apply,
      Mutex.isRoom]

theorem IsUserInChannelScan_calls (h : SignalingHub) (order : List Int) (userID : Int) :
    hubNeverAfterRoom [Mutex.hub] (h.IsUserInChannelScan order userID) = true ∧
      heldAfter [Mutex.hub] (h.IsUserInChannelScan order userID) = [Mutex.hub] := by
  induction order with
  | nil => exact ⟨rfl, rfl⟩
  | cons c rest ih =>
    unfold SignalingHub.IsUserInChannelScan
    cases hr : mget h.rooms c with
    | none => exact ih
    | some room =>
      simp only
      by_cases hu : (mget (h.deref room).clients userID).isSome = true
      · simp [hu, hubNeverAfterRoom, heldAfter, LockOp.apply, LockOp.acquiresHub]
      · simp only [hu, if_false, List.cons_append, List.nil_append, hubNeverAfterRoom,
          heldAfter_cons, LockOp.apply, LockOp.acquiresHub]
        simpa using ih

theorem IsUserInChannelLocks_Ordered (h : SignalingHub) (order : List Int) (userID : Int) :
    OrderedCalls (h.IsUserInChannelLocks order userID) := by
  obtain ⟨h1, h2⟩ := IsUserInChannelScan_calls h order userID
  have e1 : heldAfter [] [LockOp.RLock Mutex.hub] = [Mutex.hub] := rfl
  unfold OrderedCalls SignalingHub.IsUserInChannelLocks
  constructor
  · rw [hubNeverAfterRoom_append, hubNeverAfterRoom_append, heldAfter_append, e1, h1, h2]
    rfl
  · rw [heldAfter_append, heldAfter_append, e1, h2]
    rfl

theorem removeFromRoomLocks_Ordered (h : SignalingHub) (channelID userID : Int) :
    OrderedCalls (h.removeFromRoomLocks channelID userID) := by
  unfold SignalingHub.removeFromRoomLocks
  cases mget h.rooms channelID <;>
    simp [OrderedCalls, hubNeverAfterRoom, heldAfter, LockOp.apply, LockOp.acquiresHub,
      Mutex.isRoom]

theorem broadcastLocks_calls (p : Nat) (excludeUserID : Int) (clients : List (Int × VoiceClient)) :
    hubNeverAfterRoom [Mutex.room p] (broadcastLocks excludeUserID clients) = true ∧
      neverHubAndRoom [Mutex.room p] (broadcastLocks excludeUserID clients) = true ∧
      heldAfter [Mutex.room p] (broadcastLocks excludeUserID clients) = [Mutex.room p] := by
  induction clients with
  | nil => exact ⟨rfl, rfl, rfl⟩
  | cons kv rest ih =>
    unfold broadcastLocks
    by_cases hx : kv.1 = excludeUserID
    · simp only [hx, if_true]
      exact ih
    · simp only [hx, if_false, List.cons_append, List.nil_append, hubNeverAfterRoom,
        neverHubAndRoom, heldAfter_cons, LockOp.apply, LockOp.acquiresHub]
      simpa [holdsHubAndRoom, Mutex.isRoom] using ih

theorem broadcastToRoomLocks_calls (sh : SignalingHandler) (channelID excludeUserID : Int) :
    OrderedCalls (sh.broadcastToRoomLocks channelID excludeUserID) ∧
      DisjointCalls (sh.broadcastToRoomLocks channelID excludeUserID) := by
  unfold SignalingHandler.broadcastToRoomLocks
  cases hr : mget sh.hub.rooms channelID with
  | none =>
    simp only [List.append_nil]
    exact ⟨(pair_Ordered Mutex.hub).2, (pair_Disjoint Mutex.hub).2⟩
  | some room =>
    obtain ⟨h1, h2, h3⟩ := broadcastLocks_calls room excludeUserID (sh.hub.deref room).clients
    have e1 : heldAfter [] [LockOp.RLock (Mutex.room room)] = [Mutex.room room] := rfl
    refine ⟨OrderedCalls_append (pair_Ordered Mutex.hub).2 ?_,
      DisjointCalls_append (pair_Disjoint Mutex.hub).2 ?_⟩
    · constructor
      · rw [hubNeverAfterRoom_append, hubNeverAfterRoom_append, heldAfter_append, e1, h1, h3]
        simp [hubNeverAfterRoom, LockOp.acquiresHub]
      · rw [heldAfter_append, heldAfter_append, e1, h3]
        simp [heldAfter, LockOp.apply]
    · constructor
      · rw [neverHubAndRoom_append, neverHubAndRoom_append, heldAfter_append, e1, h2, h3]
        simp [neverHubAndRoom, holdsHubAndRoom, LockOp.apply, Mutex.isRoom]
      · rw [heldAfter_append, heldAfter_append, e1, h3]
        simp [heldAfter, LockOp.apply]

theorem sendToPeerLocks_calls (sh : SignalingHandler) (channelID toUserID : Int) :
    OrderedCalls (sh.sendToPeerLocks channelID toUserID) ∧
      DisjointCalls (sh.sendToPeerLocks channelID toUserID) := by
  unfold SignalingHandler.sendToPeerLocks
  cases hr : mget sh.hub.rooms channelID with
  | none =>
    simp only [List.append_nil]
    exact ⟨(pair_Ordered Mutex.hub).2, (pair_Disjoint Mutex.hub).2⟩
  | some room =>
    simp only
    cases hc : mget (sh.hub.deref room).clients toUserID with
    | none =>
      simp only [List.append_nil]
      exact ⟨OrderedCalls_append (pair_Ordered Mutex.hub).2 (pair_Ordered _).2,
        DisjointCalls_append (pair_Disjoint Mutex.hub).2 (pair_Disjoint _).2⟩
    | some client =>
      exact ⟨OrderedCalls_append (pair_Ordered Mutex.hub).2
          (OrderedCalls_append (pair_Ordered _).2 (pair_Ordered _).1),
        DisjointCalls_append (pair_Disjoint Mutex.hub).2
          (DisjointCalls_append (pair_Disjoint _).2 (pair_Disjoint _).1)⟩

theorem GetRoomParticipantsLocks_calls (h : SignalingHub) (channelID : Int) :
    OrderedCalls (h.GetRoomParticipantsLocks channelID) ∧
      DisjointCalls (h.GetRoomParticipantsLocks channelID) := by
  unfold SignalingHub.GetRoomParticipantsLocks
  cases hr : mget h.rooms channelID with
  | none =>
    simp only [List.append_nil]
    exact ⟨(pair_Ordered Mutex.hub).2, (pair_Disjoint Mutex.hub).2⟩
  | some room =>
    exact ⟨OrderedCalls_append (pair_Ordered Mutex.hub).2 (pair_Ordered _).2,
      DisjointCalls_append (pair_Disjoint Mutex.hub).2 (pair_Disjoint _).2⟩

theorem removeClientFromRoomLocks_Ordered (sh : SignalingHandler) (channelID userID : Int) :
    OrderedCalls (sh.removeClientFromRoomLocks channelID userID) :=
  OrderedCalls_append (removeFromRoomLocks_Ordered _ _ _) (pair_Ordered Mutex.voice).1

theorem connectLocks_Ordered (sh : SignalingHandler) (claims : Claims) (channelID : Int)
    (conn : Nat) (order : List Int) : OrderedCalls (sh.connectLocks claims channelID conn order) := by
  unfold SignalingHandler.connectLocks
  simp only
  refine OrderedCalls_append (OrderedCalls_append (OrderedCalls_append (OrderedCalls_append
    (OrderedCalls_append (OrderedCalls_append (pair_Ordered Mutex.hub).1
      (IsUserInChannelLocks_Ordered _ _ _)) ?_) ?_) (pair_Ordered Mutex.voice).1)
    (pair_Ordered _).1) (broadcastToRoomLocks_calls _ _ _).1
  · cases SignalingHandler.evictTarget _ order claims.UserID channelID with
    | none => exact OrderedCalls_nil
    | some old => exact removeClientFromRoomLocks_Ordered _ _ _
  · exact OrderedCalls_append (a := [_, _]) (b := [_, _]) (pair_Ordered _).2 (pair_Ordered _).1

theorem handleFrameLocks_calls (sh : SignalingHandler) (s : Session)
    (frame : Option SignalMessage) :
    OrderedCalls (sh.handleFrameLocks s frame) ∧ DisjointCalls (sh.handleFrameLocks s frame) := by
  unfold SignalingHandler.handleFrameLocks
  cases frame with
  | none => exact ⟨OrderedCalls_nil, DisjointCalls_nil⟩
  | some raw =>
    simp only
    split
    · exact sendToPeerLocks_calls _ _ _
    · split
      · exact ⟨OrderedCalls_append (OrderedCalls_append (pair_Ordered _).1
            (pair_Ordered Mutex.voice).1) (broadcastToRoomLocks_calls _ _ _).1,
          DisjointCalls_append (DisjointCalls_append (pair_Disjoint _).1
            (pair_Disjoint Mutex.voice).1) (broadcastToRoomLocks_calls _ _ _).2⟩
      · exact ⟨OrderedCalls_nil, DisjointCalls_nil⟩

theorem teardownLocks_Ordered (sh : SignalingHandler) (s : Session) :
    OrderedCalls (sh.teardownLocks s) :=
  OrderedCalls_append (removeClientFromRoomLocks_Ordered _ _ _)
    (broadcastToRoomLocks_calls _ _ _).1

/-! ## Lemmas on the frames written -/

theorem written_sendToPeer (sh : SignalingHandler) (c toUserID : Int) (msg : SignalMessage) :
    (sh.sendToPeer c toUserID msg).map Delivery.written = sh.sendToPeer c toUserID msg.marshal := by
  unfold SignalingHandler.sendToPeer
  cases mget sh.hub.rooms c with
  | none => rfl
  | some room =>
    simp only
    cases mget (sh.hub.deref room).clients toUserID with
    | none => rfl
    | some client => rfl

/-! ## The claims -/

/-- C1 (evaluation of the code at the failing trace).  User 1 connects by WebSocket to
channel 7, joins channel 8 by REST, its WebSocket session closes, and it joins channel
9 by REST: afterwards user 1 is a key of the participant maps of both channel 8 and
channel 9, so the single-channel property of the PresenceStore does not hold. -/
theorem presence_single_channel_broken :
    ∃ s, Server.init.run
        [Event.wsConnect { UserID := 1, Username := "a" } 7 100 [7],
         Event.restJoin { UserID := 1, Username := "a" } 8,
         Event.wsClose 0,
         Event.restJoin { UserID := 1, Username := "a" } 9] = some s ∧
      s.sh.voice.channels =
        [(8, [(1, { UserID := 1, Username := "a", Muted := false })]),
         (9, [(1, { UserID := 1, Username := "a", Muted := false })])] ∧
      ¬ s.sh.voice.SingleChannel := by
  refine ⟨_, rfl, by decide, ?_⟩
  intro h
  have h1 := h 1 8 9 (by decide) (by decide)
  exact absurd h1 (by decide)

/-- C2 (evaluation of the code at the failing trace).  User 1 connects to channel 7
and then opens a second connection to channel 7: the `room-peers` message written to
the second connection lists user 1 itself. -/
theorem room_peers_lists_self_on_reconnect :
    ∃ s, Server.init.run [Event.wsConnect { UserID := 1, Username := "a" } 7 100 [7]] = some s ∧
      (s.step (Event.wsConnect { UserID := 1, Username := "a" } 7 101 [7])).map
          (fun res => res.2) =
        some [{ userID := 1, conn := 101,
                msg := roomPeersMsg 7 [{ UserID := 1, Username := "a", Muted := false }] }] := by
  exact ⟨_, rfl, by decide⟩

/-- C3 (evaluation of the code at the failing trace).  User 1 connects by WebSocket to
channel 7, then connects by WebSocket to channel 8, and the first session closes:
afterwards user 1 is listed among the participants of channel 8 while the reverse
index has no entry for it, and `GetMyVoiceState` answers `in_channel: false`. -/
theorem reverse_index_broken :
    ∃ s, Server.init.run
        [Event.wsConnect { UserID := 1, Username := "a" } 7 100 [7],
         Event.wsConnect { UserID := 1, Username := "a" } 8 101 [7, 8],
         Event.wsClose 0] = some s ∧
      s.sh.voice.getParticipantsList 8 = [{ UserID := 1, Username := "a", Muted := false }] ∧
      mget s.sh.voice.userChannel 1 = none ∧
      s.sh.voice.GetMyVoiceState 1 = none ∧
      ¬ s.sh.voice.IndexConsistent := by
  refine ⟨_, rfl, by decide, by decide, by decide, ?_⟩
  intro h
  have h1 := (h 1 8).mpr (by decide)
  exact absurd h1 (by decide)

/-- C5 (evaluation of the code at the failing trace).  User 1 connects to channel 7,
then to channel 8, then to channel 7 again, all by WebSocket, and the first session,
whose read loop is still running, reads `mute-state` with `muted: true`: the
PresenceStore lists user 1 in channel 7 as muted, the live room as not muted. -/
theorem snapshot_disagrees_after_stale_mute :
    ∃ s, Server.init.run
        [Event.wsConnect { UserID := 1, Username := "a" } 7 100 [7],
         Event.wsConnect { UserID := 1, Username := "a" } 8 101 [7, 8],
         Event.wsConnect { UserID := 1, Username := "a" } 7 102 [8, 7],
         Event.wsFrame 0
           (some { Typ := "mute-state", From := 0, To := 0, FromName := "",
                   Payload := RawMessage.null, ChannelID := 0, Muted := true })] = some s ∧
      s.sh.voice.getParticipantsList 7 = [{ UserID := 1, Username := "a", Muted := true }] ∧
      s.sh.hub.GetRoomParticipants 7 = [{ UserID := 1, Username := "a", Muted := false }] := by
  exact ⟨_, rfl, by decide, by decide⟩

/-- C4 (counterexample).  User 1 connects by WebSocket to channel 7; then either it
calls REST `LeaveVoiceChannel`, after which it still has an entry in hub room 7 but no
PresenceStore entry in channel 7, or it calls REST `ToggleMute` with `muted: true`,
after which its PresenceStore entry is muted and its room entry is not. -/
theorem rest_call_breaks_live_agreement :
    (∃ s, Server.init.run
        [Event.wsConnect { UserID := 1, Username := "a" } 7 100 [7],
         Event.restLeave 1] = some s ∧
      s.sh.hub.clientAt 7 1 = some { UserID := 1, Username := "a", Conn := 100, Muted := false } ∧
      s.sh.voice.entryAt 7 1 = none) ∧
    (∃ s, Server.init.run
        [Event.wsConnect { UserID := 1, Username := "a" } 7 100 [7],
         Event.restMute 1 true] = some s ∧
      s.sh.hub.clientAt 7 1 = some { UserID := 1, Username := "a", Conn := 100, Muted := false } ∧
      s.sh.voice.entryAt 7 1 = some { UserID := 1, Username := "a", Muted := true }) := by
  exact ⟨⟨_, rfl, by decide, by decide⟩, ⟨_, rfl, by decide, by decide⟩⟩

/-- C4 (amended).  In every state reached from the initial server by WebSocket
connect, frame and disconnect events and REST `JoinVoiceChannel`, `LeaveVoiceChannel`
and `ToggleMute` calls, where each REST call is made for a user who has no entry in any
room of the hub at that moment and each `mute-state` frame is read by a session whose
room is still the one the hub holds for its channel, every user with an entry in hub
room `c` has a PresenceStore entry in channel `c` with the same `Muted` flag. -/
theorem live_sessions_agree (es : List Event) (s : Server)
    (hrun : Server.init.runSynced es = some s) :
    ∀ c u cl, s.sh.hub.clientAt c u = some cl →
      ∃ p, s.sh.voice.entryAt c u = some p ∧ p.Muted = cl.Muted := by
  have hag : Server.init.sh.LiveAgree := by
    intro c u cl hcl
    simp [Server.init, NewSignalingHandler, NewSignalingHub, SignalingHub.clientAt, mget] at hcl
  exact runSynced_LiveAgree es Server.init s hrun NewSignalingHub_Inv hag

/-- C4 (amended), at a concrete run: user 2 joins channel 7 by REST, user 1 connects
to channel 7 by WebSocket and mutes itself, user 2 mutes itself by REST. -/
theorem live_sessions_agree_witness :
    ∃ s, Server.init.runSynced
        [Event.restJoin { UserID := 2, Username := "b" } 7,
         Event.wsConnect { UserID := 1, Username := "a" } 7 100 [7],
         Event.wsFrame 0
           (some { Typ := "mute-state", From := 0, To := 0, FromName := "",
                   Payload := RawMessage.null, ChannelID := 0, Muted := true }),
         Event.restMute 2 true] = some s ∧
      s.sh.hub.clientAt 7 1 = some { UserID := 1, Username := "a", Conn := 100, Muted := true } ∧
      ∃ p, s.sh.voice.entryAt 7 1 = some p ∧ p.Muted = true :=
  ⟨_, rfl, by decide,
    live_sessions_agree
      [Event.restJoin { UserID := 2, Username := "b" } 7,
       Event.wsConnect { UserID := 1, Username := "a" } 7 100 [7],
       Event.wsFrame 0
         (some { Typ := "mute-state", From := 0, To := 0, FromName := "",
                 Payload := RawMessage.null, ChannelID := 0, Muted := true }),
       Event.restMute 2 true] _ rfl 7 1
      { UserID := 1, Username := "a", Conn := 100, Muted := true } (by decide)⟩

/-- C6.  In every state reached from the initial server by a finite sequence of events
(WebSocket connects and disconnects, and any other event), every user is a key of at
most one room's clients map; and a connect of a user to channel `B` while the user is
in room `A`, `A ≠ B`, leaves the user in room `B` and in no other room. -/
theorem hub_single_room (es : List Event) (s : Server)
    (hrun : Server.init.run es = some s) :
    s.sh.hub.SingleRoom ∧
    ∀ (claims : Claims) (A B : Int) (conn : Nat) (order : List Int)
      (res : Server × List Delivery),
      (s.sh.hub.clientAt A claims.UserID).isSome = true → A ≠ B →
      s.step (Event.wsConnect claims B conn order) = some res →
      (res.1.sh.hub.clientAt B claims.UserID).isSome = true ∧
      ∀ c, c ≠ B → res.1.sh.hub.clientAt c claims.UserID = none := by
  have hinv : s.sh.hub.Inv := run_Inv es Server.init s hrun NewSignalingHub_Inv
  refine ⟨hinv.2.1, ?_⟩
  intro claims A B conn order res _ _ hstep
  simp only [Server.step] at hstep
  split at hstep
  · rename_i hperm
    simp only [Option.some.injEq] at hstep
    rw [← hstep]
    simp only
    constructor
    · rw [connect_clientAt s.sh hinv.1 hinv.2.1 claims B conn order (perm_covers hperm)]
      simp
    · intro c hc
      rw [connect_clientAt s.sh hinv.1 hinv.2.1 claims B conn order (perm_covers hperm)]
      have h1 : ¬ B = c := fun hh => hc hh.symm
      simp [h1]
  · simp at hstep

/-- C6, at a concrete run: user 1 connects to channel 7 and then to channel 8. -/
theorem hub_single_room_witness :
    ∃ s, Server.init.run
        [Event.wsConnect { UserID := 1, Username := "a" } 7 100 [7],
         Event.wsConnect { UserID := 1, Username := "a" } 8 101 [7, 8]] = some s ∧
      s.sh.hub.SingleRoom ∧ s.sh.hub.clientAt 7 1 = none ∧
      (s.sh.hub.clientAt 8 1).isSome = true :=
  ⟨_, rfl,
    (hub_single_room
      [Event.wsConnect { UserID := 1, Username := "a" } 7 100 [7],
       Event.wsConnect { UserID := 1, Username := "a" } 8 101 [7, 8]] _ rfl).1,
    by decide, by decide⟩

/-- C7 (evaluation of the code at the failing input).  With a database in which nobody
is a member of any server and no channel exists, the REST join of user 1 to channel 7
is refused with status 403 and changes nothing, while the WebSocket connection of the
same user to channel 7 is accepted: `HandleWebSocket` consults no membership or
channel data, creates room 7 with user 1 in it and a PresenceStore entry for it. -/
theorem websocket_connect_skips_authorization :
    JoinVoiceChannel
        { requireServerMembership := fun _ _ => false, channelType := fun _ _ => none }
        NewVoiceState (some { UserID := 1, Username := "a" }) "1" "7" = (NewVoiceState, 403) ∧
    ∃ sh sess sent,
      (NewSignalingHandler NewSignalingHub NewVoiceState).HandleWebSocket
          (fun t => if t = "t1" then some { UserID := 1, Username := "a" } else none)
          { token := "t1", channelId := "7", upgrade := some 100 } [7] =
        (sh, WSOutcome.joined sess sent) ∧
      sh.hub.clientAt 7 1 =
        some { UserID := 1, Username := "a", Conn := 100, Muted := false } ∧
      sh.voice.entryAt 7 1 = some { UserID := 1, Username := "a", Muted := false } := by
  refine ⟨by decide, _, _, _, rfl, by decide, by decide⟩

/-- C8.  For a session authenticated as user `u` with name `n` on channel `c` and a
frame that decodes to `raw`, every message written as a result carries `From = u`,
`FromName = n` and `ChannelID = c`, and the `Type`, `To`, `Payload` and `Muted` of
`raw`; and replacing the `from`, `from_name` and `channel_id` of the frame by any other
values gives the same writes and the same state. -/
theorem identity_stamping (sh : SignalingHandler) (s : Session) (raw : SignalMessage) :
    (∀ d ∈ (sh.handleFrame s (some raw)).2,
      d.msg.From = s.claims.UserID ∧ d.msg.FromName = s.claims.Username ∧
      d.msg.ChannelID = s.channelID ∧ d.msg.Typ = raw.Typ ∧ d.msg.To = raw.To ∧
      d.msg.Payload = raw.Payload ∧ d.msg.Muted = raw.Muted) ∧
    (∀ (a : Int) (b : String) (c : Int),
      sh.handleFrame s (some { raw with From := a, FromName := b, ChannelID := c }) =
        sh.handleFrame s (some raw)) := by
  constructor
  · intro d hd
    have hmsg : d.msg =
        { raw with From := s.claims.UserID, FromName := s.claims.Username,
                   ChannelID := s.channelID } := by
      unfold SignalingHandler.handleFrame at hd
      simp only at hd
      split at hd
      · exact sendToPeer_msg _ _ _ _ d hd
      · split at hd
        · exact broadcastToRoom_msg _ _ _ _ d hd
        · simp at hd
    rw [hmsg]
    exact ⟨rfl, rfl, rfl, rfl, rfl, rfl, rfl⟩
  · intro a b c
    rfl

/-- C8, at a concrete frame: user 1, alone with user 2 in channel 7, sends an `offer`
to user 2 that claims to come from user 9 on channel 3. -/
theorem identity_stamping_witness :
    ∃ s, Server.init.run
        [Event.wsConnect { UserID := 2, Username := "b" } 7 200 [7],
         Event.wsConnect { UserID := 1, Username := "a" } 7 100 [7]] = some s ∧
      (s.sh.handleFrame { claims := { UserID := 1, Username := "a" }, channelID := 7,
                          conn := 100, room := 0 }
        (some { Typ := "offer", From := 9, To := 2, FromName := "z",
                Payload := RawMessage.bytes "sdp", ChannelID := 3, Muted := false })).2 =
        [{ userID := 2, conn := 200,
           msg := { Typ := "offer", From := 1, To := 2, FromName := "a",
                    Payload := RawMessage.bytes "sdp", ChannelID := 7, Muted := false } }] ∧
      ∀ d ∈ (s.sh.handleFrame { claims := { UserID := 1, Username := "a" }, channelID := 7,
                                conn := 100, room := 0 }
        (some { Typ := "offer", From := 9, To := 2, FromName := "z",
                Payload := RawMessage.bytes "sdp", ChannelID := 3, Muted := false })).2,
        d.msg.From = 1 :=
  ⟨_, rfl, by decide, fun d hd => ((identity_stamping _ _ _).1 d hd).1⟩

/-- C9.  The messages written by one WebSocket connect of user `u` to channel `c`
are, in order: first the `room-peers` message, written to the transport of `u`; then
the `peer-joined` messages announcing `u`, which are the broadcast made in the state
in which `u` is registered in room `c`, one of them to every other member of the room.
So every `peer-joined` stands at a position after the first, the `room-peers` stands
at the first position only, and no `peer-joined` for `u` precedes the `room-peers` of
`u`. -/
theorem peers_before_announce (sh : SignalingHandler) (hwf : sh.hub.WF) (claims : Claims)
    (c : Int) (conn : Nat) (order : List Int) :
    ∃ peers rest,
      (sh.connect claims c conn order).2.2 =
        { userID := claims.UserID, conn := conn, msg := roomPeersMsg c peers } :: rest ∧
      (roomPeersMsg c peers).Typ = "room-peers" ∧
      rest = (sh.connect claims c conn order).1.broadcastToRoom c claims.UserID
        (peerJoinedMsg claims c) ∧
      (∀ d ∈ rest, d.msg.Typ = "peer-joined" ∧ d.msg.From = claims.UserID) ∧
      (sh.connect claims c conn order).1.hub.clientAt c claims.UserID =
        some { UserID := claims.UserID, Username := claims.Username, Conn := conn,
               Muted := false } ∧
      (∀ v cl, v ≠ claims.UserID →
        (sh.connect claims c conn order).1.hub.clientAt c v = some cl →
        ({ userID := v, conn := cl.Conn, msg := peerJoinedMsg claims c } : Delivery) ∈ rest) ∧
      (∀ i d, (sh.connect claims c conn order).2.2.get? i = some d →
        d.msg.Typ = "peer-joined" → 0 < i) ∧
      (∀ i d, (sh.connect claims c conn order).2.2.get? i = some d →
        d.msg.Typ = "room-peers" → i = 0) := by
  obtain ⟨peers, hsent⟩ := connect_sent sh claims c conn order
  have hrest : ∀ d ∈ (sh.connect claims c conn order).1.broadcastToRoom c claims.UserID
      (peerJoinedMsg claims c), d.msg.Typ = "peer-joined" ∧ d.msg.From = claims.UserID := by
    intro d hd
    have := broadcastToRoom_msg _ c claims.UserID _ d hd
    rw [this]
    exact ⟨rfl, rfl⟩
  refine ⟨peers, _, hsent, rfl, rfl, hrest, connect_registered sh hwf claims c conn order,
    ?_, ?_, ?_⟩
  · intro v cl hv hcl
    exact broadcastToRoom_reaches _ c claims.UserID _ v cl hv hcl
  · intro i d hget htyp
    cases i with
    | zero =>
      rw [hsent] at hget
      simp only [List.get?_cons_zero, Option.some.injEq] at hget
      rw [← hget] at htyp
      have hrp : ("room-peers" : String) = "peer-joined" := htyp
      exact absurd hrp (by decide)
    | succ j => exact Nat.succ_pos j
  · intro i d hget htyp
    cases i with
    | zero => rfl
    | succ j =>
      rw [hsent] at hget
      simp only [List.get?_cons_succ] at hget
      have hmem := List.get?_mem hget
      rw [(hrest d hmem).1] at htyp
      have hpj : ("peer-joined" : String) = "room-peers" := htyp
      exact absurd hpj (by decide)

/-- C9, at a concrete connect: user 2 is in room 7 and user 1 connects to channel 7.
User 1 is written `room-peers` listing user 2, then user 2 is written `peer-joined`
for user 1. -/
theorem peers_before_announce_witness :
    ∃ s, Server.init.run [Event.wsConnect { UserID := 2, Username := "b" } 7 200 [7]] = some s ∧
      (s.sh.connect { UserID := 1, Username := "a" } 7 100 [7]).2.2 =
        [{ userID := 1, conn := 100,
           msg := roomPeersMsg 7 [{ UserID := 2, Username := "b", Muted := false }] },
         { userID := 2, conn := 200, msg := peerJoinedMsg { UserID := 1, Username := "a" } 7 }] ∧
      ∃ peers rest,
        (s.sh.connect { UserID := 1, Username := "a" } 7 100 [7]).2.2 =
          { userID := 1, conn := 100, msg := roomPeersMsg 7 peers } :: rest ∧
        (roomPeersMsg 7 peers).Typ = "room-peers" ∧
        rest = (s.sh.connect { UserID := 1, Username := "a" } 7 100 [7]).1.broadcastToRoom 7 1
          (peerJoinedMsg { UserID := 1, Username := "a" } 7) ∧
        (∀ d ∈ rest, d.msg.Typ = "peer-joined" ∧ d.msg.From = 1) ∧
        (s.sh.connect { UserID := 1, Username := "a" } 7 100 [7]).1.hub.clientAt 7 1 =
          some { UserID := 1, Username := "a", Conn := 100, Muted := false } ∧
        (∀ v cl, v ≠ 1 →
          (s.sh.connect { UserID := 1, Username := "a" } 7 100 [7]).1.hub.clientAt 7 v = some cl →
          ({ userID := v, conn := cl.Conn,
             msg := peerJoinedMsg { UserID := 1, Username := "a" } 7 } : Delivery) ∈ rest) ∧
        (∀ i d, (s.sh.connect { UserID := 1, Username := "a" } 7 100 [7]).2.2.get? i = some d →
          d.msg.Typ = "peer-joined" → 0 < i) ∧
        (∀ i d, (s.sh.connect { UserID := 1, Username := "a" } 7 100 [7]).2.2.get? i = some d →
          d.msg.Typ = "room-peers" → i = 0) :=
  ⟨_, rfl, by decide,
    peers_before_announce _
      (run_Inv [Event.wsConnect { UserID := 2, Username := "b" } 7 200 [7]] Server.init _ rfl
        NewSignalingHub_Inv).1
      { UserID := 1, Username := "a" } 7 100 [7]⟩

/-- C10.  For a hub that satisfies its invariant and a WebSocket connect of user `u`
(name `n`) to channel `c`: every `peer-joined` message written carries `From = u`,
`FromName = n`, `ChannelID = c`; each member of room `c` other than `u`, the
membership taken after the registration of `u`, gets exactly one, on its own
transport; and every recipient is a member of room `c` other than `u` and a member of
no other room. -/
theorem peer_joined_exactly_once (sh : SignalingHandler) (hinv : sh.hub.Inv)
    (claims : Claims) (c : Int) (conn : Nat) (order : List Int)
    (hperm : order.Perm (mkeys (sh.hub.getOrCreateRoom c).1.rooms)) :
    (∀ d ∈ (sh.connect claims c conn order).2.2.filter
          (fun d => decide (d.msg.Typ = "peer-joined")),
      d.msg.From = claims.UserID ∧ d.msg.FromName = claims.Username ∧
      d.msg.ChannelID = c ∧ d.userID ≠ claims.UserID ∧
      (∃ cl, (sh.connect claims c conn order).1.hub.clientAt c d.userID = some cl ∧
        d.conn = cl.Conn) ∧
      ∀ c', c' ≠ c → (sh.connect claims c conn order).1.hub.clientAt c' d.userID = none) ∧
    (∀ v cl, v ≠ claims.UserID →
      (sh.connect claims c conn order).1.hub.clientAt c v = some cl →
      ((sh.connect claims c conn order).2.2.filter
          (fun d => decide (d.msg.Typ = "peer-joined"))).filter
          (fun d => decide (d.userID = v)) =
        [{ userID := v, conn := cl.Conn, msg := peerJoinedMsg claims c }]) := by
  have hinv' := connect_Inv sh hinv claims c conn order (perm_covers hperm)
  rw [connect_announce]
  constructor
  · intro d hd
    obtain ⟨hmsg, hne, cl, hcl, hconn⟩ :=
      broadcastToRoom_mem _ hinv'.2.2 c claims.UserID _ d hd
    refine ⟨by rw [hmsg]; rfl, by rw [hmsg]; rfl, by rw [hmsg]; rfl, hne, ⟨cl, hcl, hconn⟩, ?_⟩
    intro c' hc'
    cases h1 : (sh.connect claims c conn order).1.hub.clientAt c' d.userID with
    | none => rfl
    | some cl' =>
      exact absurd (hinv'.2.1 d.userID c' c (by simp [h1]) (by simp [hcl])) hc'
  · intro v cl hv hcl
    exact broadcastToRoom_filter_user _ hinv'.2.2 c claims.UserID _ v cl hv hcl

/-- C10, at a concrete connect: user 1 connects to channel 7 while user 2 is in room
7 and user 3 is in room 8; the one `peer-joined` goes to user 2. -/
theorem peer_joined_exactly_once_witness :
    ∃ s, Server.init.run
        [Event.wsConnect { UserID := 2, Username := "b" } 7 200 [7],
         Event.wsConnect { UserID := 3, Username := "c" } 8 300 [7, 8]] = some s ∧
      (s.sh.connect { UserID := 1, Username := "a" } 7 100 [7, 8]).2.2.filter
          (fun d => decide (d.msg.Typ = "peer-joined")) =
        [{ userID := 2, conn := 200, msg := peerJoinedMsg { UserID := 1, Username := "a" } 7 }] ∧
      ((s.sh.connect { UserID := 1, Username := "a" } 7 100 [7, 8]).2.2.filter
          (fun d => decide (d.msg.Typ = "peer-joined"))).filter
          (fun d => decide (d.userID = 2)) =
        [{ userID := 2, conn := 200, msg := peerJoinedMsg { UserID := 1, Username := "a" } 7 }] :=
  ⟨_, rfl, by decide,
    (peer_joined_exactly_once _
      (run_Inv
        [Event.wsConnect { UserID := 2, Username := "b" } 7 200 [7],
         Event.wsConnect { UserID := 3, Username := "c" } 8 300 [7, 8]] Server.init _ rfl
        NewSignalingHub_Inv)
      { UserID := 1, Username := "a" } 7 100 [7, 8] (by decide)).2 2
      { UserID := 2, Username := "b", Conn := 200, Muted := false } (by decide) (by decide)⟩

/-- C11.  For a hub that satisfies its representation invariants and a session of user
`u` (name `n`) on channel `c` whose read loop exits: afterwards `u` has no entry in
room `c` and no PresenceStore entry in channel `c`; every message written is the
`peer-left` with `From = u`, `FromName = n`, `ChannelID = c`, written to a member
remaining in room `c` on its own transport; each remaining member gets exactly one;
and if room `c` had no member other than `u`, room `c` is no longer in the hub and
nothing is written. -/
theorem teardown_removes_and_announces (sh : SignalingHandler) (hwf : sh.hub.WF)
    (hd : sh.hub.DistinctKeys) (s : Session) :
    (sh.teardown s).1.hub.clientAt s.channelID s.claims.UserID = none ∧
    (sh.teardown s).1.voice.entryAt s.channelID s.claims.UserID = none ∧
    (∀ d ∈ (sh.teardown s).2,
      d.msg.Typ = "peer-left" ∧ d.msg.From = s.claims.UserID ∧
      d.msg.FromName = s.claims.Username ∧ d.msg.ChannelID = s.channelID ∧
      ∃ cl, (sh.teardown s).1.hub.clientAt s.channelID d.userID = some cl ∧
        d.conn = cl.Conn) ∧
    (∀ v cl, (sh.teardown s).1.hub.clientAt s.channelID v = some cl →
      (sh.teardown s).2.filter (fun d => decide (d.userID = v)) =
        [{ userID := v, conn := cl.Conn, msg := peerLeftMsg s.claims s.channelID }]) ∧
    ((∀ v, v ≠ s.claims.UserID → sh.hub.clientAt s.channelID v = none) →
      mget (sh.teardown s).1.hub.rooms s.channelID = none ∧ (sh.teardown s).2 = []) := by
  have hhub : (sh.teardown s).1.hub = sh.hub.removeFromRoom s.channelID s.claims.UserID := rfl
  have hout : (sh.teardown s).2 =
      (sh.teardown s).1.broadcastToRoom s.channelID s.claims.UserID
        (peerLeftMsg s.claims s.channelID) := rfl
  have hgone : (sh.teardown s).1.hub.clientAt s.channelID s.claims.UserID = none := by
    rw [hhub, removeFromRoom_clientAt sh.hub hwf]
    simp
  have hd' : (sh.teardown s).1.hub.DistinctKeys := by
    rw [hhub]
    exact removeFromRoom_DistinctKeys sh.hub hd _ _
  refine ⟨hgone, ?_, ?_, ?_, ?_⟩
  · have hv : (sh.teardown s).1.voice =
        (sh.removeClientFromRoom s.channelID s.claims.UserID).voice := rfl
    rw [hv, removeClientFromRoom_entryAt]
    simp
  · intro d hmem
    rw [hout] at hmem
    obtain ⟨hmsg, _, cl, hcl, hconn⟩ := broadcastToRoom_mem _ hd' _ _ _ d hmem
    rw [hmsg]
    exact ⟨rfl, rfl, rfl, rfl, cl, hcl, hconn⟩
  · intro v cl hcl
    have hne : v ≠ s.claims.UserID := by
      intro hh
      rw [hh, hgone] at hcl
      simp at hcl
    rw [hout]
    exact broadcastToRoom_filter_user _ hd' _ _ _ v cl hne hcl
  · intro hall
    have hroom : mget (sh.teardown s).1.hub.rooms s.channelID = none := by
      rw [hhub]
      exact removeFromRoom_rooms_last sh.hub _ _ hall
    refine ⟨hroom, ?_⟩
    rw [hout]
    exact broadcastToRoom_no_room _ _ _ _ hroom

/-- C11, at a concrete teardown: users 2 and 1 are in room 7 and the session of user 1
closes; user 2 gets the one `peer-left`. -/
theorem teardown_removes_and_announces_witness :
    ∃ s, Server.init.run
        [Event.wsConnect { UserID := 2, Username := "b" } 7 200 [7],
         Event.wsConnect { UserID := 1, Username := "a" } 7 100 [7]] = some s ∧
      (s.sh.teardown { claims := { UserID := 1, Username := "a" }, channelID := 7,
                       conn := 100, room := 0 }).2 =
        [{ userID := 2, conn := 200, msg := peerLeftMsg { UserID := 1, Username := "a" } 7 }] ∧
      (s.sh.teardown { claims := { UserID := 1, Username := "a" }, channelID := 7,
                       conn := 100, room := 0 }).1.hub.clientAt 7 1 = none :=
  ⟨_, rfl, by decide,
    (teardown_removes_and_announces _
      (run_Inv
        [Event.wsConnect { UserID := 2, Username := "b" } 7 200 [7],
         Event.wsConnect { UserID := 1, Username := "a" } 7 100 [7]] Server.init _ rfl
        NewSignalingHub_Inv).1
      (run_Inv
        [Event.wsConnect { UserID := 2, Username := "b" } 7 200 [7],
         Event.wsConnect { UserID := 1, Username := "a" } 7 100 [7]] Server.init _ rfl
        NewSignalingHub_Inv).2.2
      { claims := { UserID := 1, Username := "a" }, channelID := 7, conn := 100, room := 0 }).1⟩

/-- C13.  For a hub whose client maps have distinct keys, a channel `c`, a message and
an excluded user `x`: every write of `broadcastToRoom(c, x, msg)` carries the message
and goes to a member of room `c` other than `x`, on that member's transport; each
member of room `c` other than `x` gets exactly one; nothing is written when room `c`
is not in the hub.  The `mute-state` branch of the read loop passes `x = 0`, and with
`x = 0` each member of the room gets exactly one write, the sender included (user IDs
are database serial numbers, so none is 0). -/
theorem broadcast_recipients (sh : SignalingHandler) (hd : sh.hub.DistinctKeys)
    (c x : Int) (msg : SignalMessage) :
    (∀ d ∈ sh.broadcastToRoom c x msg,
      d.msg = msg ∧ d.userID ≠ x ∧
      ∃ cl, sh.hub.clientAt c d.userID = some cl ∧ d.conn = cl.Conn) ∧
    (∀ v cl, v ≠ x → sh.hub.clientAt c v = some cl →
      (sh.broadcastToRoom c x msg).filter (fun d => decide (d.userID = v)) =
        [{ userID := v, conn := cl.Conn, msg := msg }]) ∧
    (mget sh.hub.rooms c = none → sh.broadcastToRoom c x msg = []) ∧
    (∀ v cl, v ≠ 0 → sh.hub.clientAt c v = some cl →
      (sh.broadcastToRoom c 0 msg).filter (fun d => decide (d.userID = v)) =
        [{ userID := v, conn := cl.Conn, msg := msg }]) ∧
    (∀ (s : Session) (raw : SignalMessage), raw.Typ = "mute-state" →
      (sh.handleFrame s (some raw)).2 =
        (sh.handleFrame s (some raw)).1.broadcastToRoom s.channelID 0
          { Typ := raw.Typ, From := s.claims.UserID, To := raw.To,
            FromName := s.claims.Username, Payload := raw.Payload,
            ChannelID := s.channelID, Muted := raw.Muted }) := by
  refine ⟨?_, ?_, ?_, ?_, ?_⟩
  · intro d hmem
    exact broadcastToRoom_mem sh hd c x msg d hmem
  · intro v cl hv hcl
    exact broadcastToRoom_filter_user sh hd c x msg v cl hv hcl
  · intro hnone
    exact broadcastToRoom_no_room sh c x msg hnone
  · intro v cl hv hcl
    exact broadcastToRoom_filter_user sh hd c 0 msg v cl hv hcl
  · intro s raw hmute
    have h1 : ¬ (raw.Typ = "offer" ∨ raw.Typ = "answer" ∨ raw.Typ = "ice-candidate") := by
      rw [hmute]
      decide
    unfold SignalingHandler.handleFrame
    simp only
    rw [if_neg h1, if_pos hmute]

/-- C13, at a concrete broadcast: users 2 and 1 are in room 7; a broadcast excluding
user 1 reaches user 2 once, and the `mute-state` of user 1 reaches both. -/
theorem broadcast_recipients_witness :
    ∃ s, Server.init.run
        [Event.wsConnect { UserID := 2, Username := "b" } 7 200 [7],
         Event.wsConnect { UserID := 1, Username := "a" } 7 100 [7]] = some s ∧
      (s.sh.broadcastToRoom 7 1 (peerLeftMsg { UserID := 1, Username := "a" } 7)).filter
          (fun d => decide (d.userID = 2)) =
        [{ userID := 2, conn := 200, msg := peerLeftMsg { UserID := 1, Username := "a" } 7 }] ∧
      ((s.sh.handleFrame { claims := { UserID := 1, Username := "a" }, channelID := 7,
                           conn := 100, room := 0 }
        (some { Typ := "mute-state", From := 0, To := 0, FromName := "",
                Payload := RawMessage.null, ChannelID := 0, Muted := true })).2.map
          (fun d => d.userID)) = [2, 1] :=
  ⟨_, rfl,
    (broadcast_recipients _
      (run_Inv
        [Event.wsConnect { UserID := 2, Username := "b" } 7 200 [7],
         Event.wsConnect { UserID := 1, Username := "a" } 7 100 [7]] Server.init _ rfl
        NewSignalingHub_Inv).2.2
      7 1 (peerLeftMsg { UserID := 1, Username := "a" } 7)).2.1 2
      { UserID := 2, Username := "b", Conn := 200, Muted := false } (by decide) (by decide),
    by decide⟩

/-- C14.  For a VoiceState whose reverse index is consistent with its channel maps and
a join of user `u` with username `n` to channel `c`, by the REST `JoinVoiceChannel`
or by `syncVoiceState` with `joining = true`: afterwards `channels[c][u]` is
`{u, n, Muted false}`, `userChannel[u] = c`, `u` is a key of no other channel's map,
and if `u` was the only participant of another channel, that channel's map is no
longer in `channels`. -/
theorem join_postcondition (sh : SignalingHandler) (hic : sh.voice.IndexConsistent)
    (claims : Claims) (c : Int) (post : VoiceState)
    (hpost : post = sh.voice.JoinVoiceChannel claims c ∨
      post = (sh.syncVoiceState c claims.UserID claims.Username true).voice) :
    post.entryAt c claims.UserID =
      some { UserID := claims.UserID, Username := claims.Username, Muted := false } ∧
    mget post.userChannel claims.UserID = some c ∧
    (∀ c', c' ≠ c → post.entryAt c' claims.UserID = none) ∧
    (∀ old, mget sh.voice.userChannel claims.UserID = some old → old ≠ c →
      (∀ v, v ≠ claims.UserID → sh.voice.entryAt old v = none) →
      mget post.channels old = none) := by
  have hp : post = (sh.syncVoiceState c claims.UserID claims.Username true).voice := by
    rcases hpost with h | h
    · rw [h, JoinVoiceChannel_eq_sync]
    · exact h
  subst hp
  refine ⟨?_, ?_, ?_, ?_⟩
  · rw [syncVoiceState_join_entryAt]
    simp
  · rw [syncVoiceState_join_userChannel, mget_mset]
    simp
  · intro c' hc'
    rw [syncVoiceState_join_entryAt]
    have h1 : ¬ (c = c' ∧ claims.UserID = claims.UserID) := fun hh => hc' hh.1.symm
    rw [if_neg h1]
    by_cases h2 : mget sh.voice.userChannel claims.UserID = some c'
    · simp [h2]
    · have h3 : ¬ (claims.UserID = claims.UserID ∧
          mget sh.voice.userChannel claims.UserID = some c') := fun hh => h2 hh.2
      rw [if_neg h3]
      cases h4 : sh.voice.entryAt c' claims.UserID with
      | none => rfl
      | some p => exact absurd ((hic claims.UserID c').mpr (by simp [h4])) h2
  · intro old hold hne hall
    rw [syncVoiceState_join_voice]
    simp only [hold]
    rw [mget_putParticipant_of_ne _ _ _ _ _ (fun hh => hne hh.symm)]
    exact mget_removeParticipant_last _ _ _ hall

/-- C14, at a concrete join: user 1, alone and muted in channel 7, joins channel 8 by
REST. -/
theorem join_postcondition_witness :
    (VoiceState.JoinVoiceChannel
        { channels := [(7, [(1, { UserID := 1, Username := "a", Muted := true })])],
          userChannel := [(1, 7)] }
        { UserID := 1, Username := "a" } 8).entryAt 8 1 =
      some { UserID := 1, Username := "a", Muted := false } ∧
    mget (VoiceState.JoinVoiceChannel
        { channels := [(7, [(1, { UserID := 1, Username := "a", Muted := true })])],
          userChannel := [(1, 7)] }
        { UserID := 1, Username := "a" } 8).channels 7 = none :=
  have hic : VoiceState.IndexConsistent
      { channels := [(7, [(1, { UserID := 1, Username := "a", Muted := true })])],
        userChannel := [(1, 7)] } := by
    intro u c
    by_cases h1 : (1 : Int) = u
    · subst h1
      by_cases h2 : (7 : Int) = c
      · subst h2
        decide
      · simp [VoiceState.entryAt, mget2, mget, h2]
    · by_cases h2 : (7 : Int) = c
      · subst h2
        simp [VoiceState.entryAt, mget2, mget, h1]
      · simp [VoiceState.entryAt, mget2, mget, h1, h2]
  have h := join_postcondition
    { hub := NewSignalingHub,
      voice := { channels := [(7, [(1, { UserID := 1, Username := "a", Muted := true })])],
                 userChannel := [(1, 7)] } }
    hic { UserID := 1, Username := "a" } 8 _ (Or.inl rfl)
  ⟨h.1, h.2.2.2 7 (by decide) (by decide) (by
    intro v hv
    have hv' : ¬ (1 : Int) = v := fun hh => hv hh.symm
    simp [VoiceState.entryAt, mget2, mget, hv'])⟩

/-- C15.  On every VoiceState the REST `JoinVoiceChannel` for `(c, u, n)` yields the
VoiceState that `syncVoiceState(c, u, n, true)` yields; and whenever
`userChannel[u] = c`, the REST `LeaveVoiceChannel` for `u` yields the VoiceState that
`syncVoiceState(c, u, _, false)` yields, and the REST `ToggleMute` for `(u, m)` the one
that `syncMuteState(c, u, m)` yields. -/
theorem rest_and_websocket_same_protocol (sh : SignalingHandler) (claims : Claims)
    (c : Int) :
    sh.voice.JoinVoiceChannel claims c =
      (sh.syncVoiceState c claims.UserID claims.Username true).voice ∧
    (∀ (u : Int) (n : String) (m : Bool), mget sh.voice.userChannel u = some c →
      (sh.voice.LeaveVoiceChannel u).1 = (sh.syncVoiceState c u n false).voice ∧
      (sh.voice.ToggleMute u m).1 = (sh.syncMuteState c u m).voice) := by
  refine ⟨JoinVoiceChannel_eq_sync sh claims c, ?_⟩
  intro u n m huc
  constructor
  · rw [LeaveVoiceChannel_eq_sync, huc]
    rfl
  · rw [ToggleMute_eq_sync, huc]

/-- C15, at a concrete state: user 1 is in channel 7 with user 2; leave and mute by
REST and by the WebSocket synchronizer give the same VoiceState. -/
theorem rest_and_websocket_same_protocol_witness :
    (VoiceState.LeaveVoiceChannel
        { channels := [(7, [(1, { UserID := 1, Username := "a", Muted := false }),
                            (2, { UserID := 2, Username := "b", Muted := false })])],
          userChannel := [(1, 7), (2, 7)] } 1).1 =
      { channels := [(7, [(2, { UserID := 2, Username := "b", Muted := false })])],
        userChannel := [(2, 7)] } ∧
    (SignalingHandler.syncVoiceState
        { hub := NewSignalingHub,
          voice :=
            { channels := [(7, [(1, { UserID := 1, Username := "a", Muted := false }),
                                (2, { UserID := 2, Username := "b", Muted := false })])],
              userChannel := [(1, 7), (2, 7)] } } 7 1 "" false).voice =
      { channels := [(7, [(2, { UserID := 2, Username := "b", Muted := false })])],
        userChannel := [(2, 7)] } :=
  have h := ((rest_and_websocket_same_protocol
    { hub := NewSignalingHub,
      voice :=
        { channels := [(7, [(1, { UserID := 1, Username := "a", Muted := false }),
                            (2, { UserID := 2, Username := "b", Muted := false })])],
          userChannel := [(1, 7), (2, 7)] } }
    { UserID := 1, Username := "a" } 7).2 1 "" true (by decide)).1
  ⟨by decide, h ▸ by decide⟩

/-- C16.  For every VoiceState, channel `c`, user `u` and flag `m`,
`syncMuteState(c, u, m)` leaves the hub, the reverse index, the set of channels and
the set of participants of every channel as they were; the entry `channels[c][u]`,
when there is one, keeps its `UserID` and `Username` and gets `Muted = m`; every other
entry is unchanged; and when `channels[c]` has no entry for `u` the state is returned
unchanged. -/
theorem mute_protocol_frame (sh : SignalingHandler) (c u : Int) (m : Bool) :
    (sh.syncMuteState c u m).hub = sh.hub ∧
    (sh.syncMuteState c u m).voice.userChannel = sh.voice.userChannel ∧
    mkeys (sh.syncMuteState c u m).voice.channels = mkeys sh.voice.channels ∧
    (∀ c', (mget (sh.syncMuteState c u m).voice.channels c').map mkeys =
      (mget sh.voice.channels c').map mkeys) ∧
    (∀ p, sh.voice.entryAt c u = some p →
      (sh.syncMuteState c u m).voice.entryAt c u =
        some { UserID := p.UserID, Username := p.Username, Muted := m }) ∧
    (∀ c' u', ¬ (c = c' ∧ u = u') →
      (sh.syncMuteState c u m).voice.entryAt c' u' = sh.voice.entryAt c' u') ∧
    (sh.voice.entryAt c u = none → sh.syncMuteState c u m = sh) := by
  refine ⟨syncMuteState_hub sh c u m, syncMuteState_userChannel sh c u m,
    (syncMuteState_channels sh c u m).1, (syncMuteState_channels sh c u m).2, ?_, ?_,
    syncMuteState_none sh c u m⟩
  · intro p hp
    rw [syncMuteState_entryAt, hp]
    simp
  · intro c' u' hne
    rw [syncMuteState_entryAt, if_neg hne]

/-- C16, at a concrete state: user 1 is in channel 7 with user 2 and is muted by the
synchronizer; user 3, who has no entry, is muted without effect. -/
theorem mute_protocol_frame_witness :
    (SignalingHandler.syncMuteState
        { hub := NewSignalingHub,
          voice :=
            { channels := [(7, [(1, { UserID := 1, Username := "a", Muted := false }),
                                (2, { UserID := 2, Username := "b", Muted := false })])],
              userChannel := [(1, 7), (2, 7)] } } 7 1 true).voice =
      { channels := [(7, [(1, { UserID := 1, Username := "a", Muted := true }),
                          (2, { UserID := 2, Username := "b", Muted := false })])],
        userChannel := [(1, 7), (2, 7)] } ∧
    SignalingHandler.syncMuteState
        { hub := NewSignalingHub,
          voice :=
            { channels := [(7, [(1, { UserID := 1, Username := "a", Muted := false }),
                                (2, { UserID := 2, Username := "b", Muted := false })])],
              userChannel := [(1, 7), (2, 7)] } } 7 3 true =
      { hub := NewSignalingHub,
        voice :=
          { channels := [(7, [(1, { UserID := 1, Username := "a", Muted := false }),
                              (2, { UserID := 2, Username := "b", Muted := false })])],
            userChannel := [(1, 7), (2, 7)] } } :=
  ⟨by decide,
    (mute_protocol_frame
      { hub := NewSignalingHub,
        voice :=
          { channels := [(7, [(1, { UserID := 1, Username := "a", Muted := false }),
                              (2, { UserID := 2, Username := "b", Muted := false })])],
            userChannel := [(1, 7), (2, 7)] } } 7 3 true).2.2.2.2.2.2 (by decide)⟩

/-- C17 (evaluation of the code at the failing input).  User 1 connects to channel 7,
then to channel 8, then to channel 7 again, and the first session, still in its read
loop, reads `mute-state` with `muted: true` twice.  Each handling broadcasts the
message to room 7, and the second leaves the state as the first left it; but user 1,
registered in room 7 and in PresenceStore channel 7, has `Muted = true` in the
PresenceStore entry and `Muted = false` in the room entry. -/
theorem stale_session_mute_misses_room_entry :
    ∃ s, Server.init.run
        [Event.wsConnect { UserID := 1, Username := "a" } 7 100 [7],
         Event.wsConnect { UserID := 1, Username := "a" } 8 101 [7, 8],
         Event.wsConnect { UserID := 1, Username := "a" } 7 102 [8, 7]] = some s ∧
      s.sessions.get? 0 =
        some (some { claims := { UserID := 1, Username := "a" }, channelID := 7,
                     conn := 100, room := 0 }) ∧
      (s.sh.handleFrame { claims := { UserID := 1, Username := "a" }, channelID := 7,
                          conn := 100, room := 0 }
        (some { Typ := "mute-state", From := 0, To := 0, FromName := "",
                Payload := RawMessage.null, ChannelID := 0, Muted := true })).2 =
        [{ userID := 1, conn := 102,
           msg := { Typ := "mute-state", From := 1, To := 0, FromName := "a",
                    Payload := RawMessage.null, ChannelID := 7, Muted := true } }] ∧
      (s.sh.handleFrame { claims := { UserID := 1, Username := "a" }, channelID := 7,
                          conn := 100, room := 0 }
        (some { Typ := "mute-state", From := 0, To := 0, FromName := "",
                Payload := RawMessage.null, ChannelID := 0, Muted := true })).1.handleFrame
          { claims := { UserID := 1, Username := "a" }, channelID := 7, conn := 100, room := 0 }
          (some { Typ := "mute-state", From := 0, To := 0, FromName := "",
                  Payload := RawMessage.null, ChannelID := 0, Muted := true }) =
        s.sh.handleFrame { claims := { UserID := 1, Username := "a" }, channelID := 7,
                           conn := 100, room := 0 }
          (some { Typ := "mute-state", From := 0, To := 0, FromName := "",
                  Payload := RawMessage.null, ChannelID := 0, Muted := true }) ∧
      (s.sh.handleFrame { claims := { UserID := 1, Username := "a" }, channelID := 7,
                          conn := 100, room := 0 }
        (some { Typ := "mute-state", From := 0, To := 0, FromName := "",
                Payload := RawMessage.null, ChannelID := 0, Muted := true })).1.voice.entryAt 7 1 =
        some { UserID := 1, Username := "a", Muted := true } ∧
      (s.sh.handleFrame { claims := { UserID := 1, Username := "a" }, channelID := 7,
                          conn := 100, room := 0 }
        (some { Typ := "mute-state", From := 0, To := 0, FromName := "",
                Payload := RawMessage.null, ChannelID := 0, Muted := true })).1.hub.clientAt 7 1 =
        some { UserID := 1, Username := "a", Conn := 102, Muted := false } := by
  exact ⟨_, rfl, by decide, by decide, by decide, by decide, by decide⟩

/-- C18.  In every state reached from the initial server by a finite sequence of
events (WebSocket connects, frames and disconnects, and any other event), every room
registered in the hub has at least one client; and removing from a room of such a
state a user next to whom the room has no other member removes the room's entry from
the hub map. -/
theorem empty_rooms_never_persist (es : List Event) (s : Server)
    (hrun : Server.init.run es = some s) :
    (∀ c p, mget s.sh.hub.rooms c = some p → (s.sh.hub.deref p).clients ≠ []) ∧
    (∀ c u, (∀ v, v ≠ u → s.sh.hub.clientAt c v = none) →
      mget (s.sh.hub.removeFromRoom c u).rooms c = none) := by
  have hne0 : Server.init.sh.hub.NoEmptyRoom := by
    intro c p hp
    simp [Server.init, NewSignalingHandler, NewSignalingHub, mget] at hp
  refine ⟨run_NoEmptyRoom es Server.init s hrun NewSignalingHub_Inv hne0, ?_⟩
  intro c u hall
  exact removeFromRoom_rooms_last s.sh.hub c u hall

/-- C18, at a concrete run: users 1 and 2 connect to channel 7, user 1 moves to
channel 8 and user 2 disconnects; room 7 is gone and room 8 has one client. -/
theorem empty_rooms_never_persist_witness :
    ∃ s, Server.init.run
        [Event.wsConnect { UserID := 1, Username := "a" } 7 100 [7],
         Event.wsConnect { UserID := 2, Username := "b" } 7 200 [7],
         Event.wsConnect { UserID := 1, Username := "a" } 8 101 [7, 8],
         Event.wsClose 1] = some s ∧
      s.sh.hub.rooms = [(8, 1)] ∧
      (∀ c p, mget s.sh.hub.rooms c = some p → (s.sh.hub.deref p).clients ≠ []) :=
  ⟨_, rfl, by decide,
    (empty_rooms_never_persist
      [Event.wsConnect { UserID := 1, Username := "a" } 7 100 [7],
       Event.wsConnect { UserID := 2, Username := "b" } 7 200 [7],
       Event.wsConnect { UserID := 1, Username := "a" } 8 101 [7, 8],
       Event.wsClose 1] _ rfl).1⟩

/-- C19.  `removeClientFromRoom` is not a no-op when the room does not exist.  User 1
connects to channel 7 (session 0) and then to channel 8: room 7 is gone and the
PresenceStore has user 1 in channel 8, with reverse index 8.  The call
`removeClientFromRoom(7, 1)`, which is the one the teardown of session 0 makes, leaves
the hub as it is, as `removeFromRoom(7, 1)` does, and deletes the reverse-index entry
of user 1 while channel 8 still lists user 1.  Likewise after a REST join of user 1 to
channel 7 alone, `removeClientFromRoom(7, 1)` finds no room and empties the
PresenceStore.  Applied a second time, the call changes nothing more. -/
theorem remove_client_without_room_changes_presence :
    (∃ s, Server.init.run
        [Event.wsConnect { UserID := 1, Username := "a" } 7 100 [7],
         Event.wsConnect { UserID := 1, Username := "a" } 8 101 [7, 8]] = some s ∧
      mget s.sh.hub.rooms 7 = none ∧
      s.sh.hub.removeFromRoom 7 1 = s.sh.hub ∧
      (s.sh.removeClientFromRoom 7 1).hub = s.sh.hub ∧
      s.sh.removeClientFromRoom 7 1 ≠ s.sh ∧
      mget s.sh.voice.userChannel 1 = some 8 ∧
      mget (s.sh.removeClientFromRoom 7 1).voice.userChannel 1 = none ∧
      (s.sh.removeClientFromRoom 7 1).voice.entryAt 8 1 =
        some { UserID := 1, Username := "a", Muted := false } ∧
      (s.sh.teardown { claims := { UserID := 1, Username := "a" }, channelID := 7,
                       conn := 100, room := 0 }).1 = s.sh.removeClientFromRoom 7 1 ∧
      (s.sh.removeClientFromRoom 7 1).removeClientFromRoom 7 1 =
        s.sh.removeClientFromRoom 7 1) ∧
    (∃ s, Server.init.run [Event.restJoin { UserID := 1, Username := "a" } 7] = some s ∧
      mget s.sh.hub.rooms 7 = none ∧
      s.sh.voice.entryAt 7 1 = some { UserID := 1, Username := "a", Muted := false } ∧
      (s.sh.removeClientFromRoom 7 1).voice = NewVoiceState ∧
      s.sh.removeClientFromRoom 7 1 ≠ s.sh) :=
  ⟨⟨_, rfl, by decide, by decide, by decide, by decide, by decide, by decide, by decide,
      by decide, by decide⟩,
    ⟨_, rfl, by decide, by decide, by decide, by decide⟩⟩

/-- C20.  For every hub, every order in which the rooms map is visited and every user
`u`: `IsUserInChannel(u)`, which only reads the hub, returns `(c, true)` only for a
channel `c` whose room has `u` as a key; returns `(0, false)` exactly when `u` is a key
of no room, and whenever it reports `false`; and when `u` is a key of exactly one
room, returns that room's channel with `true`. -/
theorem find_user_channel (h : SignalingHub) (order : List Int)
    (hperm : order.Perm (mkeys h.rooms)) (u : Int) :
    (∀ c, h.IsUserInChannel order u = (c, true) → (h.clientAt c u).isSome = true) ∧
    (h.IsUserInChannel order u = (0, false) ↔ ∀ c, h.clientAt c u = none) ∧
    ((h.IsUserInChannel order u).2 = false → (h.IsUserInChannel order u).1 = 0) ∧
    (∀ c, (h.clientAt c u).isSome = true →
      (∀ c', (h.clientAt c' u).isSome = true → c' = c) →
      h.IsUserInChannel order u = (c, true)) := by
  have hall : h.IsUserInChannel order u = (0, false) → ∀ c, h.clientAt c u = none := by
    intro hres c
    by_cases hk : c ∈ mkeys h.rooms
    · exact IsUserInChannel_false h order u 0 hres c (perm_covers hperm c hk)
    · exact clientAt_none_of_not_key h c u hk
  refine ⟨fun c hres => IsUserInChannel_true h order u c hres, ⟨hall, ?_⟩, ?_, ?_⟩
  · intro hnone
    exact IsUserInChannel_of_none h order u (fun c _ => hnone c)
  · intro hf
    rw [IsUserInChannel_not_found h order u hf]
  · intro c hin huniq
    cases hres : h.IsUserInChannel order u with
    | mk c0 b =>
      cases b with
      | true =>
        have h0 := IsUserInChannel_true h order u c0 hres
        rw [huniq c0 h0]
      | false =>
        have h1 : h.IsUserInChannel order u = (0, false) :=
          IsUserInChannel_not_found h order u (by rw [hres])
        have h2 := hall h1 c
        rw [h2] at hin
        simp at hin

/-- C20, at a concrete hub: user 1 is in room 8 only and user 3 in no room; both
visiting orders of the rooms 7 and 8 find channel 8 for user 1 and nothing for user
3. -/
theorem find_user_channel_witness :
    ∃ s, Server.init.run
        [Event.wsConnect { UserID := 2, Username := "b" } 7 200 [7],
         Event.wsConnect { UserID := 1, Username := "a" } 8 100 [7, 8]] = some s ∧
      s.sh.hub.IsUserInChannel [7, 8] 1 = (8, true) ∧
      s.sh.hub.IsUserInChannel [8, 7] 1 = (8, true) ∧
      s.sh.hub.IsUserInChannel [8, 7] 3 = (0, false) ∧
      ∀ c, s.sh.hub.clientAt c 3 = none :=
  ⟨_, rfl, by decide, by decide, by decide,
    (find_user_channel _ [8, 7] (by decide) 3).2.1.mp (by decide)⟩

/-- C21.  For every state, every session in its read loop and every decoded frame
whose type is none of `offer`, `answer`, `ice-candidate`, `mute-state`: handling the
frame returns the hub and the PresenceStore as they were and writes no message, and
the event leaves the whole server state, the session in its read loop included, as it
was, so the loop goes on with the next frame. -/
theorem unknown_types_dropped (srv : Server) (sid : Nat) (sess : Session)
    (raw : SignalMessage) (hsess : srv.sessions.get? sid = some (some sess))
    (h1 : raw.Typ ≠ "offer") (h2 : raw.Typ ≠ "answer") (h3 : raw.Typ ≠ "ice-candidate")
    (h4 : raw.Typ ≠ "mute-state") :
    srv.sh.handleFrame sess (some raw) = (srv.sh, []) ∧
    srv.step (Event.wsFrame sid (some raw)) = some (srv, []) := by
  have hres : srv.sh.handleFrame sess (some raw) = (srv.sh, []) := by
    unfold SignalingHandler.handleFrame
    simp [h1, h2, h3, h4]
  refine ⟨hres, ?_⟩
  simp only [Server.step, hsess, hres]

/-- C21, at concrete frames: with user 2 in room 7, the session of user 1 on channel 7
reads frames of type `peer-left`, `room-peers`, `peer-joined` and of the empty type. -/
theorem unknown_types_dropped_witness :
    ∃ s, Server.init.run
        [Event.wsConnect { UserID := 2, Username := "b" } 7 200 [7],
         Event.wsConnect { UserID := 1, Username := "a" } 7 100 [7]] = some s ∧
      s.step (Event.wsFrame 1
        (some { Typ := "peer-left", From := 2, To := 0, FromName := "b",
                Payload := RawMessage.null, ChannelID := 7, Muted := false })) = some (s, []) ∧
      s.step (Event.wsFrame 1
        (some { Typ := "room-peers", From := 0, To := 0, FromName := "",
                Payload := RawMessage.bytes "[]", ChannelID := 7, Muted := false })) = some (s, []) ∧
      s.step (Event.wsFrame 1
        (some { Typ := "peer-joined", From := 9, To := 0, FromName := "z",
                Payload := RawMessage.null, ChannelID := 7, Muted := false })) = some (s, []) ∧
      s.step (Event.wsFrame 1
        (some { Typ := "", From := 0, To := 2, FromName := "",
                Payload := RawMessage.null, ChannelID := 0, Muted := true })) = some (s, []) :=
  ⟨_, rfl,
    (unknown_types_dropped _ 1
      { claims := { UserID := 1, Username := "a" }, channelID := 7, conn := 100, room := 0 }
      { Typ := "peer-left", From := 2, To := 0, FromName := "b",
        Payload := RawMessage.null, ChannelID := 7, Muted := false }
      (by decide) (by decide) (by decide) (by decide) (by decide)).2,
    by decide, by decide, by decide⟩

/-- C22.  For every state and every request: when the token is missing the reply is
401, when the token is present and fails validation the reply is 401, and when the
token is valid and the channel id does not parse as an integer the reply is 400; in
each of the three cases, whatever the other parts of the request are, the reply is an
HTTP error with status 401 or 400, the hub and the PresenceStore are returned exactly
as they were, and no signaling message is written. -/
theorem identity_failure_no_mutation (ValidateToken : String → Option Claims)
    (sh : SignalingHandler) (r : WSRequest) (order : List Int) :
    (r.token = "" →
      sh.HandleWebSocket ValidateToken r order = (sh, WSOutcome.httpError 401 "Brak tokenu")) ∧
    (r.token ≠ "" → ValidateToken r.token = none →
      sh.HandleWebSocket ValidateToken r order =
        (sh, WSOutcome.httpError 401 "Nieprawidłowy token")) ∧
    (∀ claims, r.token ≠ "" → ValidateToken r.token = some claims → Atoi r.channelId = none →
      sh.HandleWebSocket ValidateToken r order =
        (sh, WSOutcome.httpError 400 "Nieprawidłowe ID kanału")) ∧
    (r.token = "" ∨ ValidateToken r.token = none ∨ Atoi r.channelId = none →
      ∃ status body, (status = 401 ∨ status = 400) ∧
        sh.HandleWebSocket ValidateToken r order = (sh, WSOutcome.httpError status body)) := by
  have hA : r.token = "" →
      sh.HandleWebSocket ValidateToken r order = (sh, WSOutcome.httpError 401 "Brak tokenu") := by
    intro h
    simp [SignalingHandler.HandleWebSocket, h]
  have hB : r.token ≠ "" → ValidateToken r.token = none →
      sh.HandleWebSocket ValidateToken r order =
        (sh, WSOutcome.httpError 401 "Nieprawidłowy token") := by
    intro h hv
    simp [SignalingHandler.HandleWebSocket, h, hv]
  have hC : ∀ claims, r.token ≠ "" → ValidateToken r.token = some claims →
      Atoi r.channelId = none →
      sh.HandleWebSocket ValidateToken r order =
        (sh, WSOutcome.httpError 400 "Nieprawidłowe ID kanału") := by
    intro claims h hv ha
    simp [SignalingHandler.HandleWebSocket, h, hv, ha]
  refine ⟨hA, hB, hC, ?_⟩
  intro hfail
  by_cases h : r.token = ""
  · exact ⟨401, _, Or.inl rfl, hA h⟩
  · cases hv : ValidateToken r.token with
    | none => exact ⟨401, _, Or.inl rfl, hB h hv⟩
    | some claims =>
      cases ha : Atoi r.channelId with
      | none => exact ⟨400, _, Or.inr rfl, hC claims h hv ha⟩
      | some c =>
        rcases hfail with h' | h' | h'
        · exact absurd h' h
        · rw [hv] at h'; simp at h'
        · rw [ha] at h'; simp at h'

/-- C22, at concrete requests on a server with user 2 in room 7: no token; a token
the validator rejects; a valid token with a channel id beyond the range of `int`. -/
theorem identity_failure_no_mutation_witness :
    ∃ s, Server.init.run [Event.wsConnect { UserID := 2, Username := "b" } 7 200 [7]] = some s ∧
      s.sh.HandleWebSocket
          (fun t => if t = "t1" then some { UserID := 1, Username := "a" } else none)
          { token := "", channelId := "7", upgrade := some 100 } [7] =
        (s.sh, WSOutcome.httpError 401 "Brak tokenu") ∧
      s.sh.HandleWebSocket
          (fun t => if t = "t1" then some { UserID := 1, Username := "a" } else none)
          { token := "bad", channelId := "7", upgrade := some 100 } [7] =
        (s.sh, WSOutcome.httpError 401 "Nieprawidłowy token") ∧
      s.sh.HandleWebSocket
          (fun t => if t = "t1" then some { UserID := 1, Username := "a" } else none)
          { token := "t1", channelId := "99999999999999999999", upgrade := some 100 } [7] =
        (s.sh, WSOutcome.httpError 400 "Nieprawidłowe ID kanału") :=
  ⟨_, rfl,
    (identity_failure_no_mutation
      (fun t => if t = "t1" then some { UserID := 1, Username := "a" } else none) _
      { token := "", channelId := "7", upgrade := some 100 } [7]).1 rfl,
    (identity_failure_no_mutation
      (fun t => if t = "t1" then some { UserID := 1, Username := "a" } else none) _
      { token := "bad", channelId := "7", upgrade := some 100 } [7]).2.1
      (by decide) (by decide),
    (identity_failure_no_mutation
      (fun t => if t = "t1" then some { UserID := 1, Username := "a" } else none) _
      { token := "t1", channelId := "99999999999999999999", upgrade := some 100 } [7]).2.2.1
      { UserID := 1, Username := "a" } (by decide) (by decide) (by decide)⟩

/-- C23.  The scenario of the specification, with A = user 1 (transport 100) and B =
user 2 (transport 200), from the initial server.  A connects to channel 7: the
PresenceStore has A, not muted, in channel 7.  B connects to channel 7: B is written
`room-peers` listing A, then A is written `peer-joined` for B.  A sends `mute-state`
with `muted: true`: the PresenceStore entry of A is muted and the message is written
to A and to B.  A disconnects: B is written `peer-left` for A, the PresenceStore has B
alone, not muted, in channel 7, and room 7 is still in the hub.  B disconnects:
nothing is written, the hub has no room and the PresenceStore no channel. -/
theorem spec_scenario :
    ∃ s1 s2 s3 s4 s5 : Server,
      Server.init.step (Event.wsConnect { UserID := 1, Username := "a" } 7 100 [7]) =
        some (s1, [{ userID := 1, conn := 100, msg := roomPeersMsg 7 [] }]) ∧
      s1.sh.voice.channels = [(7, [(1, { UserID := 1, Username := "a", Muted := false })])] ∧
      s1.step (Event.wsConnect { UserID := 2, Username := "b" } 7 200 [7]) =
        some (s2,
          [{ userID := 2, conn := 200,
             msg := roomPeersMsg 7 [{ UserID := 1, Username := "a", Muted := false }] },
           { userID := 1, conn := 100,
             msg := peerJoinedMsg { UserID := 2, Username := "b" } 7 }]) ∧
      s2.step (Event.wsFrame 0
          (some { Typ := "mute-state", From := 0, To := 0, FromName := "",
                  Payload := RawMessage.null, ChannelID := 0, Muted := true })) =
        some (s3,
          [{ userID := 1, conn := 100,
             msg := { Typ := "mute-state", From := 1, To := 0, FromName := "a",
                      Payload := RawMessage.null, ChannelID := 7, Muted := true } },
           { userID := 2, conn := 200,
             msg := { Typ := "mute-state", From := 1, To := 0, FromName := "a",
                      Payload := RawMessage.null, ChannelID := 7, Muted := true } }]) ∧
      s3.sh.voice.entryAt 7 1 = some { UserID := 1, Username := "a", Muted := true } ∧
      s3.sh.hub.clientAt 7 1 = some { UserID := 1, Username := "a", Conn := 100, Muted := true } ∧
      s3.step (Event.wsClose 0) =
        some (s4,
          [{ userID := 2, conn := 200,
             msg := peerLeftMsg { UserID := 1, Username := "a" } 7 }]) ∧
      s4.sh.voice.channels = [(7, [(2, { UserID := 2, Username := "b", Muted := false })])] ∧
      s4.sh.hub.GetRoomParticipants 7 = [{ UserID := 2, Username := "b", Muted := false }] ∧
      (mget s4.sh.hub.rooms 7).isSome = true ∧
      s4.step (Event.wsClose 1) = some (s5, []) ∧
      s5.sh.hub.rooms = [] ∧ s5.sh.voice.channels = [] ∧ s5.sh.voice.userChannel = [] := by
  refine ⟨_, _, _, _, _, rfl, by decide, rfl, rfl, by decide, by decide, rfl, by decide,
    by decide, by decide, rfl, by decide, by decide, by decide⟩

/-- C24.  For every hub, channel, message, excluded user and assignment `writeFails`
of success or failure to the transport writes: the writes `broadcastToRoom` attempts
are the same for every assignment, namely the writes of the broadcast without
failures; every member of the room other than the excluded user is among them; and
each attempted write has the result the assignment gives it. -/
theorem broadcast_survives_write_failure (sh : SignalingHandler) (c x : Int)
    (msg : SignalMessage) (writeFails : Delivery → Bool) :
    (sh.broadcastToRoomWrites c x msg writeFails).map Prod.fst = sh.broadcastToRoom c x msg ∧
    (∀ writeFails' : Delivery → Bool,
      (sh.broadcastToRoomWrites c x msg writeFails').map Prod.fst =
        (sh.broadcastToRoomWrites c x msg writeFails).map Prod.fst) ∧
    (∀ v cl, v ≠ x → sh.hub.clientAt c v = some cl →
      ({ userID := v, conn := cl.Conn, msg := msg } : Delivery) ∈
        (sh.broadcastToRoomWrites c x msg writeFails).map Prod.fst) ∧
    (∀ w ∈ sh.broadcastToRoomWrites c x msg writeFails, w.2 = writeFails w.1) := by
  refine ⟨broadcastToRoomWrites_attempts sh c x msg writeFails, ?_, ?_, ?_⟩
  · intro writeFails'
    rw [broadcastToRoomWrites_attempts, broadcastToRoomWrites_attempts]
  · intro v cl hv hcl
    rw [broadcastToRoomWrites_attempts]
    exact broadcastToRoom_reaches sh c x msg v cl hv hcl
  · intro w hw
    unfold SignalingHandler.broadcastToRoomWrites at hw
    cases h1 : mget sh.hub.rooms c with
    | none => simp [h1] at hw
    | some p =>
      rw [h1] at hw
      exact broadcastLoop_results x msg writeFails _ w hw

/-- C24, at a concrete broadcast: users 1, 2 and 3 are in room 7, the broadcast
excludes user 1 and the write to user 2 fails; the write to user 3 is still
attempted. -/
theorem broadcast_survives_write_failure_witness :
    ∃ s, Server.init.run
        [Event.wsConnect { UserID := 1, Username := "a" } 7 100 [7],
         Event.wsConnect { UserID := 2, Username := "b" } 7 200 [7],
         Event.wsConnect { UserID := 3, Username := "c" } 7 300 [7]] = some s ∧
      s.sh.broadcastToRoomWrites 7 1 (peerLeftMsg { UserID := 1, Username := "a" } 7)
          (fun d => decide (d.userID = 2)) =
        [({ userID := 2, conn := 200, msg := peerLeftMsg { UserID := 1, Username := "a" } 7 },
          true),
         ({ userID := 3, conn := 300, msg := peerLeftMsg { UserID := 1, Username := "a" } 7 },
          false)] ∧
      (s.sh.broadcastToRoomWrites 7 1 (peerLeftMsg { UserID := 1, Username := "a" } 7)
          (fun d => decide (d.userID = 2))).map Prod.fst =
        s.sh.broadcastToRoom 7 1 (peerLeftMsg { UserID := 1, Username := "a" } 7) :=
  ⟨_, rfl, by decide,
    (broadcast_survives_write_failure _ 7 1 (peerLeftMsg { UserID := 1, Username := "a" } 7)
      (fun d => decide (d.userID = 2))).1⟩

/-- C25.  For a hub that satisfies its invariant and in which user `u` has an entry in
room `c`, on another transport than the new one and than those of the other members:
a further WebSocket connect of `u` to `c` (a total function, it has no error result)
leaves the rooms map as it was; room `c` and every other room keep exactly their
member IDs; the entry under key `u` is the new session with `Muted = false`; every
other entry of every room is unchanged; and no message is written to the transport of
the displaced session. -/
theorem reconnect_replaces_entry (sh : SignalingHandler) (hinv : sh.hub.Inv)
    (claims : Claims) (c : Int) (conn : Nat) (order : List Int)
    (hperm : order.Perm (mkeys (sh.hub.getOrCreateRoom c).1.rooms))
    (displaced : VoiceClient) (hold : sh.hub.clientAt c claims.UserID = some displaced)
    (hfresh : conn ≠ displaced.Conn)
    (hdist : ∀ v cl, v ≠ claims.UserID → sh.hub.clientAt c v = some cl →
      cl.Conn ≠ displaced.Conn) :
    (sh.connect claims c conn order).1.hub.rooms = sh.hub.rooms ∧
    (sh.connect claims c conn order).1.hub.clientAt c claims.UserID =
      some { UserID := claims.UserID, Username := claims.Username, Conn := conn,
             Muted := false } ∧
    (∀ c' u', ((sh.connect claims c conn order).1.hub.clientAt c' u').isSome =
      (sh.hub.clientAt c' u').isSome) ∧
    (∀ c' u', ¬ (c' = c ∧ u' = claims.UserID) →
      (sh.connect claims c conn order).1.hub.clientAt c' u' = sh.hub.clientAt c' u') ∧
    (∀ d ∈ (sh.connect claims c conn order).2.2, d.conn ≠ displaced.Conn) := by
  have hin : (sh.hub.clientAt c claims.UserID).isSome = true := by simp [hold]
  have hcl := connect_clientAt sh hinv.1 hinv.2.1 claims c conn order (perm_covers hperm)
  have hother : ∀ c' u', ¬ (c' = c ∧ u' = claims.UserID) →
      (sh.connect claims c conn order).1.hub.clientAt c' u' = sh.hub.clientAt c' u' := by
    intro c' u' hne
    rw [hcl]
    by_cases h1 : claims.UserID = u'
    · subst h1
      have h2 : ¬ c = c' := fun hh => hne ⟨hh.symm, rfl⟩
      simp only [if_true, h2, if_false]
      cases h3 : sh.hub.clientAt c' claims.UserID with
      | none => rfl
      | some cl => exact absurd (hinv.2.1 claims.UserID c c' hin (by simp [h3])) h2
    · simp [h1]
  refine ⟨connect_rooms_of_member sh hinv claims c conn order hperm hin,
    connect_registered sh hinv.1 claims c conn order, ?_, hother, ?_⟩
  · intro c' u'
    by_cases h1 : c' = c ∧ u' = claims.UserID
    · obtain ⟨h2, h3⟩ := h1
      subst h2; subst h3
      rw [connect_registered sh hinv.1 claims c' conn order, hold]
      rfl
    · rw [hother c' u' h1]
  · intro d hd
    obtain ⟨peers, hsent⟩ := connect_sent sh claims c conn order
    rw [hsent] at hd
    rcases List.mem_cons.mp hd with h1 | h1
    · rw [h1]
      exact hfresh
    · have hinv' := connect_Inv sh hinv claims c conn order (perm_covers hperm)
      obtain ⟨_, hne, cl, hcl', hconn⟩ := broadcastToRoom_mem _ hinv'.2.2 _ _ _ d h1
      rw [hother c d.userID (fun hh => hne hh.2)] at hcl'
      rw [hconn]
      exact hdist d.userID cl hne hcl'

/-- C25, at a concrete reconnect: users 2 and 1 are in room 7 and user 1 connects to
channel 7 again, on transport 101. -/
theorem reconnect_replaces_entry_witness :
    ∃ s, Server.init.run
        [Event.wsConnect { UserID := 2, Username := "b" } 7 200 [7],
         Event.wsConnect { UserID := 1, Username := "a" } 7 100 [7]] = some s ∧
      (s.sh.connect { UserID := 1, Username := "a" } 7 101 [7]).1.hub.clientAt 7 1 =
        some { UserID := 1, Username := "a", Conn := 101, Muted := false } ∧
      (s.sh.connect { UserID := 1, Username := "a" } 7 101 [7]).2.2.map (fun d => d.conn) =
        [101, 200] ∧
      ∀ d ∈ (s.sh.connect { UserID := 1, Username := "a" } 7 101 [7]).2.2, d.conn ≠ 100 :=
  ⟨_, rfl, by decide, by decide,
    (reconnect_replaces_entry _
      (run_Inv
        [Event.wsConnect { UserID := 2, Username := "b" } 7 200 [7],
         Event.wsConnect { UserID := 1, Username := "a" } 7 100 [7]] Server.init _ rfl
        NewSignalingHub_Inv)
      { UserID := 1, Username := "a" } 7 101 [7] (by decide)
      { UserID := 1, Username := "a", Conn := 100, Muted := false } (by decide) (by decide)
      (by
        intro v cl hv hcl
        by_cases h2 : v = 2
        · subst h2
          have h3 : cl = { UserID := 2, Username := "b", Conn := 200, Muted := false } := by
            have h4 : (some cl : Option VoiceClient) =
                some { UserID := 2, Username := "b", Conn := 200, Muted := false } := by
              rw [← hcl]
              decide
            exact Option.some.inj h4
          rw [h3]
          decide
        · exfalso
          have h5 : ¬ (1 : Int) = v := fun hh => hv hh.symm
          have h6 : ¬ (2 : Int) = v := fun hh => h2 hh.symm
          revert hcl
          simp [SignalingHub.clientAt, SignalingHub.deref, mget, h5, h6])).2.2.2.2⟩

/-- C28.  For a hub that satisfies its representation invariants and two sessions
`first` and `second` of the same user `u` on the same channel `c`, the room pointer of
`second` being the room the hub holds for `c` (the second connection replaced the
first in that room): the teardown of `first` removes the entry of `u` from room `c`
and from PresenceStore channel `c` and deletes the reverse-index entry of `u`; its
writes are the `peer-left` for `u`, exactly one to each remaining member of room `c`;
and afterwards a `mute-state` frame read by `second` leaves the hub and the
PresenceStore as they are. -/
theorem teardown_keyed_by_user (sh : SignalingHandler) (hwf : sh.hub.WF)
    (hd : sh.hub.DistinctKeys) (first second : Session)
    (huser : second.claims.UserID = first.claims.UserID)
    (hchan : second.channelID = first.channelID)
    (hroom : mget sh.hub.rooms second.channelID = some second.room) :
    (sh.teardown first).1.hub.clientAt first.channelID first.claims.UserID = none ∧
    (sh.teardown first).1.voice.entryAt first.channelID first.claims.UserID = none ∧
    mget (sh.teardown first).1.voice.userChannel first.claims.UserID = none ∧
    (sh.teardown first).2 =
      (sh.teardown first).1.broadcastToRoom first.channelID first.claims.UserID
        (peerLeftMsg first.claims first.channelID) ∧
    (∀ v cl, (sh.teardown first).1.hub.clientAt first.channelID v = some cl →
      (sh.teardown first).2.filter (fun d => decide (d.userID = v)) =
        [{ userID := v, conn := cl.Conn, msg := peerLeftMsg first.claims first.channelID }]) ∧
    (∀ raw : SignalMessage, raw.Typ = "mute-state" →
      ((sh.teardown first).1.handleFrame second (some raw)).1 = (sh.teardown first).1) := by
  have hhub : (sh.teardown first).1.hub =
      sh.hub.removeFromRoom first.channelID first.claims.UserID := rfl
  have hvoice : (sh.teardown first).1.voice =
      (sh.removeClientFromRoom first.channelID first.claims.UserID).voice := rfl
  have hgone : (sh.teardown first).1.hub.clientAt first.channelID first.claims.UserID
      = none := by
    rw [hhub, removeFromRoom_clientAt sh.hub hwf]
    simp
  have hentry : (sh.teardown first).1.voice.entryAt first.channelID first.claims.UserID
      = none := by
    rw [hvoice, removeClientFromRoom_entryAt]
    simp
  have hd' : (sh.teardown first).1.hub.DistinctKeys := by
    rw [hhub]
    exact removeFromRoom_DistinctKeys sh.hub hd _ _
  refine ⟨hgone, hentry, ?_, rfl, ?_, ?_⟩
  · rw [hvoice, removeClientFromRoom_eq]
    simp [mget_mdel]
  · intro v cl hcl
    have hne : v ≠ first.claims.UserID := by
      intro hh
      rw [hh, hgone] at hcl
      simp at hcl
    exact broadcastToRoom_filter_user _ hd' _ _ _ v cl hne hcl
  · intro raw hmute
    rw [handleFrame_mute _ second raw hmute]
    simp only
    rw [muteStep_eq, huser, hchan]
    rw [hchan] at hroom
    have habs : mget ((sh.teardown first).1.hub.deref second.room).clients
        first.claims.UserID = none := by
      rw [hhub, removeFromRoom_deref sh.hub hwf _ _ _ hroom, mget_mdel]
      simp
    rw [setMuted_of_absent _ _ _ _ habs, syncMuteState_none _ _ _ _ hentry]

/-- C28, at a concrete run: user 2 connects to channel 7, user 1 connects to channel 7
twice, and the first session of user 1 closes while the second stays open. -/
theorem teardown_keyed_by_user_witness :
    ∃ s, Server.init.run
        [Event.wsConnect { UserID := 2, Username := "b" } 7 200 [7],
         Event.wsConnect { UserID := 1, Username := "a" } 7 100 [7],
         Event.wsConnect { UserID := 1, Username := "a" } 7 101 [7]] = some s ∧
      s.sh.hub.clientAt 7 1 = some { UserID := 1, Username := "a", Conn := 101, Muted := false } ∧
      (s.sh.teardown { claims := { UserID := 1, Username := "a" }, channelID := 7,
                       conn := 100, room := 0 }).2 =
        [{ userID := 2, conn := 200, msg := peerLeftMsg { UserID := 1, Username := "a" } 7 }] ∧
      (s.sh.teardown { claims := { UserID := 1, Username := "a" }, channelID := 7,
                       conn := 100, room := 0 }).1.hub.clientAt 7 1 = none :=
  ⟨_, rfl, by decide, by decide,
    (teardown_keyed_by_user _
      (run_Inv
        [Event.wsConnect { UserID := 2, Username := "b" } 7 200 [7],
         Event.wsConnect { UserID := 1, Username := "a" } 7 100 [7],
         Event.wsConnect { UserID := 1, Username := "a" } 7 101 [7]] Server.init _ rfl
        NewSignalingHub_Inv).1
      (run_Inv
        [Event.wsConnect { UserID := 2, Username := "b" } 7 200 [7],
         Event.wsConnect { UserID := 1, Username := "a" } 7 100 [7],
         Event.wsConnect { UserID := 1, Username := "a" } 7 101 [7]] Server.init _ rfl
        NewSignalingHub_Inv).2.2
      { claims := { UserID := 1, Username := "a" }, channelID := 7, conn := 100, room := 0 }
      { claims := { UserID := 1, Username := "a" }, channelID := 7, conn := 101, room := 0 }
      rfl rfl (by decide)).1⟩

/-- C29.  For every server state whose hub has allocated, unshared room pointers and
every event performed for user `u` (a REST join, leave or mute of `u`, a WebSocket
connect of `u`, a frame read by a session of `u`, relayed or not, or the disconnect of
a session of `u`): every other user `v` keeps the same PresenceStore entry in every
channel, the same reverse-index value, and the same room entry, `Muted` flag included,
in every room of the hub. -/
theorem per_user_frame (srv srv' : Server) (e : Event) (out : List Delivery) (u v : Int)
    (hwf : srv.sh.hub.WF) (hstep : srv.step e = some (srv', out))
    (hactor : srv.actor e = some u) (hne : v ≠ u) :
    (∀ c, srv'.sh.voice.entryAt c v = srv.sh.voice.entryAt c v) ∧
    mget srv'.sh.voice.userChannel v = mget srv.sh.voice.userChannel v ∧
    (∀ c, srv'.sh.hub.clientAt c v = srv.sh.hub.clientAt c v) := by
  show SignalingHandler.SameFor v srv'.sh srv.sh
  cases e with
  | wsConnect claims c conn order =>
    simp only [Server.actor, Option.some.injEq] at hactor
    simp only [Server.step] at hstep
    split at hstep
    · simp only [Option.some.injEq, Prod.mk.injEq] at hstep
      rw [← hstep.1]
      exact connect_SameFor srv.sh hwf claims c conn order v (by rw [hactor]; exact hne)
    · simp at hstep
  | wsFrame sid frame =>
    simp only [Server.actor] at hactor
    simp only [Server.step] at hstep
    split at hstep
    · rename_i sess hsess
      rw [hsess] at hactor
      simp only [Option.some.injEq] at hactor
      simp only [Option.some.injEq, Prod.mk.injEq] at hstep
      rw [← hstep.1]
      exact handleFrame_SameFor srv.sh sess frame v (by rw [hactor]; exact hne)
    · simp at hstep
  | wsClose sid =>
    simp only [Server.actor] at hactor
    simp only [Server.step] at hstep
    split at hstep
    · rename_i sess hsess
      rw [hsess] at hactor
      simp only [Option.some.injEq] at hactor
      simp only [Option.some.injEq, Prod.mk.injEq] at hstep
      rw [← hstep.1]
      exact removeClientFromRoom_SameFor srv.sh hwf _ _ v (by rw [hactor]; exact hne)
    · simp at hstep
  | restJoin claims c =>
    simp only [Server.actor, Option.some.injEq] at hactor
    simp only [Server.step, Option.some.injEq, Prod.mk.injEq] at hstep
    rw [← hstep.1]
    have h := syncVoiceState_join_SameFor srv.sh c claims.UserID claims.Username v
      (by rw [hactor]; exact hne)
    exact ⟨h.1, h.2.1, fun _ => rfl⟩
  | restLeave u' =>
    simp only [Server.actor, Option.some.injEq] at hactor
    simp only [Server.step, Option.some.injEq, Prod.mk.injEq] at hstep
    rw [← hstep.1]
    subst hactor
    simp only
    rw [LeaveVoiceChannel_eq_sync]
    cases h1 : mget srv.sh.voice.userChannel u' with
    | none => exact ⟨fun _ => rfl, rfl, fun _ => rfl⟩
    | some c =>
      have h2 : ∀ c', ¬ (c = c' ∧ u' = v) := fun _ hh => hne hh.2.symm
      refine ⟨?_, ?_, fun _ => rfl⟩
      · intro c'
        simp only
        rw [syncVoiceState_leave_entryAt, if_neg (h2 c')]
      · simp only
        rw [syncVoiceState_leave_voice]
        simp only [mget_mdel]
        rw [if_neg (fun hh => hne hh.symm)]
  | restMute u' m =>
    simp only [Server.actor, Option.some.injEq] at hactor
    simp only [Server.step, Option.some.injEq, Prod.mk.injEq] at hstep
    rw [← hstep.1]
    subst hactor
    simp only
    rw [ToggleMute_eq_sync]
    cases h1 : mget srv.sh.voice.userChannel u' with
    | none => exact ⟨fun _ => rfl, rfl, fun _ => rfl⟩
    | some c =>
      have h := syncMuteState_SameFor srv.sh c u' m v hne
      exact ⟨h.1, h.2.1, fun _ => rfl⟩
  | restDeleteChannel c =>
    simp [Server.actor] at hactor

/-- C29, at a concrete event: users 1 and 2 are in room 7, user 2 muted; user 1 moves
to channel 8 and user 2 keeps its entries. -/
theorem per_user_frame_witness :
    ∃ s s' out, Server.init.run
        [Event.wsConnect { UserID := 1, Username := "a" } 7 100 [7],
         Event.wsConnect { UserID := 2, Username := "b" } 7 200 [7],
         Event.wsFrame 1
           (some { Typ := "mute-state", From := 0, To := 0, FromName := "",
                   Payload := RawMessage.null, ChannelID := 0, Muted := true })] = some s ∧
      s.step (Event.wsConnect { UserID := 1, Username := "a" } 8 101 [7, 8]) = some (s', out) ∧
      s'.sh.hub.clientAt 8 1 = some { UserID := 1, Username := "a", Conn := 101, Muted := false } ∧
      s.sh.hub.clientAt 7 2 = some { UserID := 2, Username := "b", Conn := 200, Muted := true } ∧
      (∀ c, s'.sh.hub.clientAt c 2 = s.sh.hub.clientAt c 2) :=
  ⟨_, _, _, rfl, rfl, by decide, by decide,
    (per_user_frame _ _ (Event.wsConnect { UserID := 1, Username := "a" } 8 101 [7, 8]) _ 1 2
      (run_Inv
        [Event.wsConnect { UserID := 1, Username := "a" } 7 100 [7],
         Event.wsConnect { UserID := 2, Username := "b" } 7 200 [7],
         Event.wsFrame 1
           (some { Typ := "mute-state", From := 0, To := 0, FromName := "",
                   Payload := RawMessage.null, ChannelID := 0, Muted := true })]
        Server.init _ rfl NewSignalingHub_Inv).1
      rfl rfl (by decide)).2.2⟩


/-- C27 (counterexample).  User 1 is connected to channel 7,
whose room is at address 0.  `removeFromRoom 7 1` locks the hub, then locks and unlocks
the room, then unlocks the hub; `IsUserInChannel 1` does the same with read locks.  In
both the hub lock and the room lock are held at the same time. -/
theorem remove_holds_hub_and_room_lock :
    ∃ s, Server.init.run [Event.wsConnect { UserID := 1, Username := "a" } 7 100 [7]] = some s ∧
      s.sh.locks (Operation.removeFromRoom 7 1) =
        [LockOp.Lock Mutex.hub, LockOp.Lock (Mutex.room 0), LockOp.Unlock (Mutex.room 0),
         LockOp.Unlock Mutex.hub] ∧
      neverHubAndRoom [] (s.sh.locks (Operation.removeFromRoom 7 1)) = false ∧
      s.sh.locks (Operation.IsUserInChannel [7] 1) =
        [LockOp.RLock Mutex.hub, LockOp.RLock (Mutex.room 0), LockOp.RUnlock (Mutex.room 0),
         LockOp.RUnlock Mutex.hub] ∧
      neverHubAndRoom [] (s.sh.locks (Operation.IsUserInChannel [7] 1)) = false :=
  ⟨_, rfl, by decide, by decide, by decide, by decide⟩

/-- C27 (amended).  In every operation of the hub and of the handler the hub lock is
never acquired while a room lock is held, and the operation ends with every mutex it
took released.  The operations other than `removeFromRoom`, `IsUserInChannel` and their
callers (`removeClientFromRoom`, the join part and the teardown of `HandleWebSocket`)
never hold the hub lock and a room lock at the same time.  `removeFromRoom` on a channel
that has a room does hold both: it takes the room lock inside the hub lock. -/
theorem lock_order (sh : SignalingHandler) (op : Operation) :
    hubNeverAfterRoom [] (sh.locks op) = true ∧
      heldAfter [] (sh.locks op) = [] ∧
      (op.callsNested = false → neverHubAndRoom [] (sh.locks op) = true) ∧
      (∀ channelID userID room, mget sh.hub.rooms channelID = some room →
        neverHubAndRoom [] (sh.locks (Operation.removeFromRoom channelID userID)) = false) := by
  have hord : OrderedCalls (sh.locks op) := by
    cases op with
    | getOrCreateRoom c => exact (pair_Ordered Mutex.hub).1
    | removeFromRoom c u => exact removeFromRoomLocks_Ordered _ c u
    | GetRoomParticipants c => exact (GetRoomParticipantsLocks_calls _ _).1
    | IsUserInChannel order u => exact IsUserInChannelLocks_Ordered _ _ _
    | syncVoiceState => exact (pair_Ordered Mutex.voice).1
    | syncMuteState => exact (pair_Ordered Mutex.voice).1
    | removeClientFromRoom c u => exact removeClientFromRoomLocks_Ordered _ _ _
    | broadcastToRoom c x => exact (broadcastToRoomLocks_calls _ _ _).1
    | sendToPeer c t => exact (sendToPeerLocks_calls _ _ _).1
    | connect claims c conn order => exact connectLocks_Ordered _ _ _ _ _
    | handleFrame s frame => exact (handleFrameLocks_calls _ _ _).1
    | teardown s => exact teardownLocks_Ordered _ _
  refine ⟨hord.1, hord.2, ?_, ?_⟩
  · intro hn
    cases op with
    | getOrCreateRoom c => exact (pair_Disjoint Mutex.hub).1.1
    | removeFromRoom c u => exact absurd hn (by simp [Operation.callsNested])
    | GetRoomParticipants c => exact (GetRoomParticipantsLocks_calls _ _).2.1
    | IsUserInChannel order u => exact absurd hn (by simp [Operation.callsNested])
    | syncVoiceState => exact (pair_Disjoint Mutex.voice).1.1
    | syncMuteState => exact (pair_Disjoint Mutex.voice).1.1
    | removeClientFromRoom c u => exact absurd hn (by simp [Operation.callsNested])
    | broadcastToRoom c x => exact (broadcastToRoomLocks_calls _ _ _).2.1
    | sendToPeer c t => exact (sendToPeerLocks_calls _ _ _).2.1
    | connect claims c conn order => exact absurd hn (by simp [Operation.callsNested])
    | handleFrame s frame => exact (handleFrameLocks_calls _ _ _).2.1
    | teardown s => exact absurd hn (by simp [Operation.callsNested])
  · intro channelID userID room hr
    show neverHubAndRoom [] (sh.hub.removeFromRoomLocks channelID userID) = false
    unfold SignalingHub.removeFromRoomLocks
    rw [hr]
    simp [neverHubAndRoom, holdsHubAndRoom, LockOp.apply, Mutex.isRoom]

/-- C27, at a concrete operation: with user 1 in room 7 (address 0), a broadcast to
channel 7 releases the hub lock before it takes the room lock. -/
theorem lock_order_witness :
    ∃ s, Server.init.run [Event.wsConnect { UserID := 1, Username := "a" } 7 100 [7]] = some s ∧
      s.sh.locks (Operation.broadcastToRoom 7 0) =
        [LockOp.RLock Mutex.hub, LockOp.RUnlock Mutex.hub, LockOp.RLock (Mutex.room 0),
         LockOp.Lock (Mutex.client 100), LockOp.Unlock (Mutex.client 100),
         LockOp.RUnlock (Mutex.room 0)] ∧
      neverHubAndRoom [] (s.sh.locks (Operation.broadcastToRoom 7 0)) = true :=
  ⟨_, rfl, by decide, (lock_order _ (Operation.broadcastToRoom 7 0)).2.2.1 rfl⟩

end Kodama
